import Mathlib

/-!
BotTokenAuth: token codec, verification service and payment webhook.

A shallow embedding of `main.go`.  Go strings and byte slices are lists of
bytes, `int64` values are integers with explicit wrap-around where the source
converts them, the MySQL tables are lists of rows, and every handler is a
function from the request and the store to the reply and the new store.  A
handler also takes, for each SQL statement it issues, whether the database
executes it or the driver returns an error.

The functions of the Go standard library that the program calls (MD5,
AES-GCM, `encoding/json`, `net.ParseIP`, `strconv`) are not part of the
repository; they are collected in the structure `Lib` and every definition
takes them as a parameter.
-/

namespace BotTokenAuth

/-! ## Bytes and strings -/

/-- A byte. -/
abbrev Byte := Fin 256

/-- A Go string or byte slice: a sequence of bytes. -/
abbrev GoString := List Byte

/-- The bytes of an ASCII literal. -/
def str (s : String) : GoString :=
  s.toList.map (fun c => Fin.ofNat c.toNat)

deriving instance DecidableEq for Except

/-- Timestamps and durations, as integers. -/
abbrev Time := Int

/-- A `float64` value, kept as the 64-bit pattern that the library produced. -/
abbrev Float64 := Nat

/-! ## Data model (main.go 60-215) -/

/-- `Payload`, the plaintext sealed inside a token. -/
structure Payload where
  UserID : GoString
  IP : GoString
  Timestamp : Int
  deriving DecidableEq, Repr

/-- A row of table `users`: the fields of `UserRecord` and the column
`updated_at` written by the UPDATE statements. -/
structure UserRecord where
  UserID : GoString
  IP : GoString
  Token : GoString
  Limit : Int
  Timestamp : Int
  CreatedAt : Time
  UpdatedAt : Time
  deriving DecidableEq, Repr

/-- A row of table `card_keys` (`KeyRecord`). -/
structure KeyRecord where
  Key : GoString
  AddLimit : Int
  Used : Bool
  UsedBy : Option GoString
  CreatedBy : GoString
  CreatedAt : Time
  UsedAt : Option Time
  deriving DecidableEq, Repr

/-- A row of table `orders` (`Order`), with the column `updated_at`. -/
structure Order where
  PayID : GoString
  UserID : GoString
  Count : Int
  GoodsName : GoString
  Price : Float64
  Status : GoString
  CreateTime : Time
  PayTime : Option Time
  PayType : Int
  ReallyPrice : Float64
  OrderID : GoString
  ChatID : Int
  MessageID : Int
  UpdatedAt : Time
  deriving DecidableEq, Repr

/-- The database: the three tables. -/
structure Store where
  users : List UserRecord
  keys : List KeyRecord
  orders : List Order
  deriving DecidableEq, Repr

/-- The part of `Config` read by the handlers modelled here. -/
structure Config where
  AdminIDs : List Int
  DefaultLimit : Int
  MchID : GoString
  Secret : GoString
  deriving DecidableEq, Repr

/-- The functions of the Go standard library used by the program. -/
structure Lib where
  /-- Value of `md5.Sum`, an array of 16 bytes. -/
  md5 : List Byte → { h : List Byte // h.length = 16 }
  /-- Value of `aesgcm.Seal(nil, nonce, plaintext, nil)` for the cipher built from `key`. -/
  gcmSeal : (key nonce plaintext : List Byte) → List Byte
  /-- Value of `aesgcm.Open(nil, nonce, ciphertext, nil)`; `none` is an error. -/
  gcmOpen : (key nonce ciphertext : List Byte) → Option (List Byte)
  /-- Value of `json.Marshal` on a `Payload`. -/
  jsonMarshal : Payload → List Byte
  /-- Value of `json.Unmarshal` into a `Payload`; `none` is an error. -/
  jsonUnmarshal : List Byte → Option Payload
  /-- Value of `net.ParseIP`: the 16-byte or 4-byte address, `none` for nil. -/
  parseIP : GoString → Option (List Byte)
  /-- Value returned by `strconv.ParseFloat(s, 64)` (the error is dropped by the caller). -/
  parseFloat : GoString → Float64
  /-- Value returned by `strconv.Atoi` (the error is dropped by the caller). -/
  atoi : GoString → Int

/-! ## Hexadecimal transport encoding (`encoding/hex`) -/

/-- Entry `n` of `hextable = "0123456789abcdef"`. -/
def hexDigit (n : Nat) : Byte :=
  if n < 10 then Fin.ofNat (48 + n) else Fin.ofNat (87 + n)

/-- `hex.EncodeToString`. -/
def hexEncode : List Byte → GoString
  | [] => []
  | b :: bs => hexDigit (b.val / 16) :: hexDigit (b.val % 16) :: hexEncode bs

/-- `reverseHexTable`: the value of a hex digit of either case, `none` for
every other byte. -/
def fromHexChar (c : Byte) : Option Nat :=
  if 48 ≤ c.val ∧ c.val ≤ 57 then some (c.val - 48)
  else if 97 ≤ c.val ∧ c.val ≤ 102 then some (c.val - 87)
  else if 65 ≤ c.val ∧ c.val ≤ 70 then some (c.val - 55)
  else none

/-- `hex.DecodeString`; `none` stands for either error (an invalid byte or an
odd length). -/
def hexDecode : GoString → Option (List Byte)
  | [] => some []
  | [_] => none
  | p :: q :: rest =>
    match fromHexChar p, fromHexChar q with
    | some a, some b =>
      match hexDecode rest with
      | some bs => some (Fin.ofNat (a * 16 + b) :: bs)
      | none => none
    | _, _ => none

/-- The byte `b` with its high (`k = 0`) or low nibble replaced by `v`. -/
def setNibble (b : Byte) (k v : Nat) : Byte :=
  if k = 0 then Fin.ofNat (v * 16 + b.val % 16) else Fin.ofNat (b.val / 16 * 16 + v)

/-- The nibble of `b` written at an even (`k = 0`) or odd position. -/
def nibble (b : Byte) (k : Nat) : Nat :=
  if k = 0 then b.val / 16 else b.val % 16

/-! ## Fixed-width integers -/

/-- Conversion `uint64(x)` of an `int64`. -/
def toUint64 (x : Int) : Nat := (x % 18446744073709551616).toNat

/-- Conversion `int64(n)` of a `uint64`. -/
def toInt64 (n : Nat) : Int :=
  if n % 18446744073709551616 < 9223372036854775808 then (n % 18446744073709551616 : Nat)
  else ((n % 18446744073709551616 : Nat) : Int) - 18446744073709551616

/-- The values of type `int64`. -/
def IsInt64 (x : Int) : Prop := -9223372036854775808 ≤ x ∧ x < 9223372036854775808

instance (x : Int) : Decidable (IsInt64 x) := by unfold IsInt64; infer_instance

/-- `binary.BigEndian.PutUint64` into a fresh 8-byte slice. -/
def putUint64 (n : Nat) : List Byte :=
  [Fin.ofNat (n / 72057594037927936), Fin.ofNat (n / 281474976710656),
   Fin.ofNat (n / 1099511627776), Fin.ofNat (n / 4294967296),
   Fin.ofNat (n / 16777216), Fin.ofNat (n / 65536), Fin.ofNat (n / 256), Fin.ofNat n]

/-- `binary.BigEndian.Uint64` of a slice (of 8 bytes). -/
def getUint64 (bs : List Byte) : Nat :=
  bs.foldl (fun acc b => acc * 256 + b.val) 0

/-! ## Formatting -/

/-- The verb `%d` on a non-negative integer. -/
def natDecimal (n : Nat) : GoString :=
  (Nat.toDigits 10 n).map (fun c => Fin.ofNat c.toNat)

/-- The verb `%d` of `fmt.Sprintf` on an integer. -/
def decimal (x : Int) : GoString :=
  if x < 0 then (45 : Byte) :: natDecimal x.natAbs else natDecimal x.natAbs

/-- `copy(dst, src)`: the new content of `dst`. -/
def goCopy (dst src : List Byte) : List Byte :=
  src.take dst.length ++ dst.drop src.length

/-! ## Token codec and key derivation (main.go 615-664, 863-950) -/

/-- The `error` values returned on the token paths, one constructor per
`fmt.Errorf` site or library error. -/
inductive TokenError where
  | hexDecode
  | tooShort
  | badFormat
  | keyGen
  | cipherInit
  | gcmInit
  | nonceRead
  | decrypt
  | parsePayload
  | ipMismatch (tokenIP requestIP : GoString)
  | loadDatabase
  | notFound
  deriving DecidableEq, Repr

/-- `generateDeterministicKey` (main.go 939-950). -/
def generateDeterministicKey (lib : Lib) (userID : GoString) (timestamp : Int) :
    Except TokenError (List Byte) :=
  let data := userID ++ str "_" ++ decimal timestamp
  let hash := (lib.md5 data).val
  let key := List.replicate 32 (0 : Byte)
  let key := goCopy key hash
  let key := key.take 16 ++ goCopy (key.drop 16) hash
  .ok key

/-- The key that `generateDeterministicKey` returns: the digest of
`userID ++ "_" ++ decimal timestamp` followed by the same digest. -/
def derivedKey (lib : Lib) (userID : GoString) (timestamp : Int) : List Byte :=
  (lib.md5 (userID ++ str "_" ++ decimal timestamp)).val ++
    (lib.md5 (userID ++ str "_" ++ decimal timestamp)).val

/-- `generateNonce` (main.go 621-625): twelve bytes read from the random
source `rnd`; an error when the source delivers fewer. -/
def generateNonce (rnd : List Byte) : Except TokenError (List Byte) :=
  if 12 ≤ rnd.length then .ok (rnd.take 12) else .error .nonceRead

/-- The key sizes accepted by `aes.NewCipher`. -/
def aesKeySizeOk (key : List Byte) : Bool :=
  key.length == 16 || key.length == 24 || key.length == 32

/-- `encryptPayload` (main.go 627-664); `rnd` is the output of the random
source. -/
def encryptPayload (lib : Lib) (payload : Payload) (key rnd : List Byte) :
    Except TokenError GoString :=
  let plaintext := lib.jsonMarshal payload
  if !aesKeySizeOk key then .error .cipherInit else
  match generateNonce rnd with
  | .error e => .error e
  | .ok nonce =>
    let ciphertext := lib.gcmSeal key nonce plaintext
    let timestampBytes := putUint64 (toUint64 payload.Timestamp)
    let userIDBytes := payload.UserID
    let userIDLen : Byte := Fin.ofNat userIDBytes.length
    let final := timestampBytes ++ [userIDLen]
    let final := final ++ userIDBytes
    let final := final ++ nonce
    let final := final ++ ciphertext
    .ok (hexEncode final)

/-- The token issued for `(identity, origin, issuance_time)`: the key is
derived and the payload encrypted, as in `generateTokenForUser` (main.go
1546-1570) and `handleChangeIPSuccess` (main.go 2650-2664). -/
def issue (lib : Lib) (userID ip : GoString) (timestamp : Int) (rnd : List Byte) :
    Except TokenError GoString :=
  match generateDeterministicKey lib userID timestamp with
  | .error e => .error e
  | .ok deterministicKey =>
    encryptPayload lib { UserID := userID, IP := ip, Timestamp := timestamp } deterministicKey rnd

/-- The clear header and the sealed part of a frame (main.go 874-884). -/
structure Frame where
  timestamp : Int
  userID : GoString
  nonce : List Byte
  ciphertext : List Byte
  deriving DecidableEq, Repr

/-- The length checks and the slicing of the decoded frame (main.go 870-884). -/
def sliceFrame (data : List Byte) : Except TokenError Frame :=
  if data.length < 21 then .error .tooShort else
  let timestamp := toInt64 (getUint64 (data.take 8))
  let userIDLen := (data.getD 8 0).val
  if data.length < 9 + userIDLen + 12 then .error .badFormat else
  let userID := (data.drop 9).take userIDLen
  let nonce := (data.drop (9 + userIDLen)).take 12
  let ciphertext := data.drop (9 + userIDLen + 12)
  .ok { timestamp := timestamp, userID := userID, nonce := nonce, ciphertext := ciphertext }

/-- Steps of `decryptAndValidateToken` up to the slicing of the frame
(main.go 864-884). -/
def parseFrame (tokenHex : GoString) : Except TokenError Frame :=
  match hexDecode tokenHex with
  | none => .error .hexDecode
  | some data => sliceFrame data

/-- Steps of `decryptAndValidateToken` up to the JSON decoding of the
plaintext (main.go 864-913): the frame and the decrypted payload. -/
def decodeToken (lib : Lib) (tokenHex : GoString) : Except TokenError (Frame × Payload) :=
  match parseFrame tokenHex with
  | .error e => .error e
  | .ok f =>
    match generateDeterministicKey lib f.userID f.timestamp with
    | .error _ => .error .keyGen
    | .ok key =>
      if !aesKeySizeOk key then .error .cipherInit else
      match lib.gcmOpen key f.nonce f.ciphertext with
      | none => .error .decrypt
      | some plaintext =>
        match lib.jsonUnmarshal plaintext with
        | none => .error .parsePayload
        | some payload => .ok (f, payload)

/-! ## Origin validation (main.go 700-733) -/

/-- `IP.To4`: the 4-byte form of an IPv4 address, `none` for nil. -/
def to4 (ip : List Byte) : Option (List Byte) :=
  if ip.length = 4 then some ip
  else if ip.length = 16 ∧ ip.take 10 = List.replicate 10 0 ∧ ip.getD 10 0 = 255 ∧
      ip.getD 11 0 = 255 then some (ip.drop 12)
  else none

/-- The networks of `privateRanges`, each as network number and mask, the
values `net.ParseCIDR` gives for the four literals. -/
def privateRanges : List (List Byte × List Byte) :=
  [([10, 0, 0, 0], [255, 0, 0, 0]),
   ([172, 16, 0, 0], [255, 240, 0, 0]),
   ([192, 168, 0, 0], [255, 255, 0, 0]),
   ([127, 0, 0, 0], [255, 0, 0, 0])]

/-- `IPNet.Contains` for a network given as number and mask. -/
def networkContains (network : List Byte × List Byte) (ip : List Byte) : Bool :=
  let ip := (to4 ip).getD ip
  if ip.length ≠ network.1.length then false
  else (List.range ip.length).all (fun i =>
    Nat.land (network.1.getD i 0).val (network.2.getD i 0).val
      == Nat.land (ip.getD i 0).val (network.2.getD i 0).val)

/-- `isPrivateIP` (main.go 700-724). -/
def isPrivateIP (lib : Lib) (ip : GoString) : Bool :=
  match lib.parseIP ip with
  | none => false
  | some parsedIP => privateRanges.any (fun network => networkContains network parsedIP)

/-- `isValidPublicIP` (main.go 727-733). -/
def isValidPublicIP (lib : Lib) (ip : GoString) : Bool :=
  match lib.parseIP ip with
  | none => false
  | some _ => !isPrivateIP lib ip

/-! ## Store operations (main.go 267-373, 493-605, 2402-2420)

Every operation takes a flag `up`: `true` when the database executes the
statement, `false` when the driver returns an error and nothing is changed.
`RowsAffected` is the number of rows matching the WHERE clause, and string
comparison in WHERE clauses is equality of bytes. -/

/-- The errors returned by the store operations. -/
inductive StoreError where
  | unavailable
  | userNotFound
  deriving DecidableEq, Repr

/-- `loadDatabase` (main.go 267-293): all rows of table `users`. -/
def loadDatabase (up : Bool) (st : Store) : Except StoreError (List UserRecord) :=
  if up then .ok st.users else .error .unavailable

/-- `updateUserLimit` (main.go 355-373): adds `addLimit` to `limit_count` of
the rows of `userID`; an error when no row matched. -/
def updateUserLimit (up : Bool) (st : Store) (userID : GoString) (addLimit : Int)
    (now : Time) : Except StoreError Store :=
  if !up then .error .unavailable
  else if st.users.any (fun r => r.UserID == userID) then
    .ok { st with users := st.users.map (fun r =>
      if r.UserID = userID then { r with Limit := r.Limit + addLimit, UpdatedAt := now } else r) }
  else .error .userNotFound

/-- `updateUserIPAndToken` (main.go 2402-2420). -/
def updateUserIPAndToken (up : Bool) (st : Store) (userID newIP newToken : GoString)
    (timestamp : Int) (now : Time) : Except StoreError Store :=
  if !up then .error .unavailable
  else if st.users.any (fun r => r.UserID == userID) then
    .ok { st with users := st.users.map (fun r =>
      if r.UserID = userID then
        { r with IP := newIP, Token := newToken, Timestamp := timestamp, UpdatedAt := now }
      else r) }
  else .error .userNotFound

/-- `updateOrderStatus` (main.go 493-505). -/
def updateOrderStatus (up : Bool) (st : Store) (payID status : GoString)
    (reallyPrice : Float64) (payType : Int) (now : Time) : Except StoreError Store :=
  if !up then .error .unavailable
  else
    .ok { st with orders := st.orders.map (fun o =>
      if o.PayID = payID then
        { o with Status := status, ReallyPrice := reallyPrice, PayType := payType,
                 PayTime := some now, UpdatedAt := now }
      else o) }

/-- `getOrderByEpayOrderID` (main.go 550-575): the first row whose `order_id`
is `orderID`, `none` when there is no such row. -/
def getOrderByEpayOrderID (up : Bool) (st : Store) (orderID : GoString) :
    Except StoreError (Option Order) :=
  if up then .ok (st.orders.find? (fun o => o.OrderID == orderID)) else .error .unavailable

/-- The later created of two orders, the earlier row on a tie. -/
def laterOrder (best : Option Order) (o : Order) : Option Order :=
  match best with
  | none => some o
  | some b => if b.CreateTime < o.CreateTime then some o else some b

/-- `getLatestPendingOrderByUserID` (main.go 578-605): among the pending
orders of `userID`, the one created last (`ORDER BY created_at DESC LIMIT 1`;
among rows created at the same instant, the first row of the table). -/
def getLatestPendingOrderByUserID (up : Bool) (st : Store) (userID : GoString) :
    Except StoreError (Option Order) :=
  if up then
    .ok ((st.orders.filter (fun o => o.UserID == userID && o.Status == str "pending")).foldl
      laterOrder none)
  else .error .unavailable

/-! ## Token validation against the store (main.go 863-936) -/

/-- The result triple `(*Payload, *UserRecord, error)`. -/
structure ValidateResult where
  payload : Option Payload
  record : Option UserRecord
  err : Option TokenError
  deriving DecidableEq, Repr

/-- `decryptAndValidateToken` (main.go 863-936).  `up` tells whether the
query of `loadDatabase` is executed. -/
def decryptAndValidateToken (lib : Lib) (up : Bool) (st : Store)
    (tokenHex clientIP : GoString) : ValidateResult :=
  match decodeToken lib tokenHex with
  | .error e => { payload := none, record := none, err := some e }
  | .ok (f, payload) =>
    if payload.IP ≠ clientIP then
      { payload := none, record := none, err := some (.ipMismatch payload.IP clientIP) }
    else
      match loadDatabase up st with
      | .error _ => { payload := none, record := none, err := some .loadDatabase }
      | .ok records =>
        match records.find? (fun record =>
            record.UserID == f.userID && record.Timestamp == f.timestamp) with
        | some record => { payload := some payload, record := some record, err := none }
        | none => { payload := none, record := none, err := some .notFound }

/-! ## Verification service (main.go 773-860) -/

/-- `VerifyResponse`. -/
structure VerifyResponse where
  Success : Bool
  Message : String
  UserID : GoString
  Limit : Int
  deriving DecidableEq, Repr

/-- The reply of `POST /verify`: status code and body. -/
structure VerifyReply where
  status : Nat
  body : VerifyResponse
  deriving DecidableEq, Repr

/-- Which statements of a `/verify` request the database executes. -/
structure VerifyDb where
  load : Bool
  update : Bool
  deriving DecidableEq, Repr

/-- The database executes every statement of the request. -/
def VerifyDb.up : VerifyDb := { load := true, update := true }

/-- `verifyHandler` (main.go 773-860).  `req` is the outcome of
`ShouldBindJSON` (the token, or the text of the binding error), `clientIP` the
value of `getRealIP`, `now` the clock. -/
def verifyHandler (lib : Lib) (db : VerifyDb) (req : Except String GoString)
    (clientIP : GoString) (now : Time) (st : Store) : VerifyReply × Store :=
  match req with
  | .error e =>
    (⟨400, { Success := false, Message := "请求格式错误: " ++ e, UserID := [], Limit := 0 }⟩, st)
  | .ok token =>
    if !isValidPublicIP lib clientIP then
      (⟨400, { Success := false, Message := "无法获取有效的公网IP", UserID := [], Limit := 0 }⟩, st)
    else if (hexDecode token).isNone then
      (⟨400, { Success := false, Message := "Token格式无效", UserID := [], Limit := 0 }⟩, st)
    else
      let r := decryptAndValidateToken lib db.load st token clientIP
      match r.err, r.record with
      | some _, _ =>
        (⟨401, { Success := false, Message := "Token无效或IP不匹配", UserID := [], Limit := 0 }⟩, st)
      | none, none =>
        -- not reached: a nil error always comes with a record
        (⟨500, { Success := false, Message := "系统错误", UserID := [], Limit := 0 }⟩, st)
      | none, some matchedRecord =>
        if matchedRecord.Limit ≤ 0 then
          (⟨403, { Success := false, Message := "使用次数不足",
                   UserID := matchedRecord.UserID, Limit := 0 }⟩, st)
        else
          match updateUserLimit db.update st matchedRecord.UserID (-1) now with
          | .error _ =>
            (⟨500, { Success := false, Message := "系统错误", UserID := [], Limit := 0 }⟩, st)
          | .ok st1 =>
            let newLimit := matchedRecord.Limit - 1
            (⟨200, { Success := true, Message := "验证成功",
                     UserID := matchedRecord.UserID, Limit := newLimit }⟩, st1)

/-! ## Body of the verification reply (main.go 97-102, 827-833) -/

/-- A value of a member of a JSON object. -/
inductive JsonValue where
  | bool (b : Bool)
  | text (s : String)
  | string (s : GoString)
  | number (n : Int)
  deriving DecidableEq, Repr

/-- The members of the JSON object that `c.JSON` writes for a
`VerifyResponse`, in the order of the fields.  The tags of `UserID` and
`Limit` carry `omitempty` (main.go 100-101): `encoding/json` leaves `user_id`
out when the string is empty and `limit` out when the number is 0. -/
def marshalVerifyResponse (r : VerifyResponse) : List (String × JsonValue) :=
  [("success", .bool r.Success), ("message", .text r.Message)] ++
    (if r.UserID = [] then [] else [("user_id", .string r.UserID)]) ++
    (if r.Limit = 0 then [] else [("limit", .number r.Limit)])

/-! ## Payment webhook (main.go 1881-1885, 2079-2235, 2644-2674) -/

/-- The request parameters collected by `notifyHandler`, a `map[string]string`. -/
abbrev Params := List (GoString × GoString)

/-- `_, exists := params[key]`. -/
def Params.has (params : Params) (key : GoString) : Bool :=
  (params.lookup key).isSome

/-- `params[key]`, the empty string for an absent key. -/
def Params.get (params : Params) (key : GoString) : GoString :=
  (params.lookup key).getD []

/-- `generateMD5` (main.go 1882-1885). -/
def generateMD5 (lib : Lib) (data : GoString) : GoString :=
  hexEncode (lib.md5 data).val

/-- `strings.Split(s, sep)` for a separator of one byte. -/
def splitBy (sep : Byte) : GoString → List GoString
  | [] => [[]]
  | c :: cs =>
    if c = sep then [] :: splitBy sep cs
    else
      match splitBy sep cs with
      | [] => [[c]]
      | p :: ps => (c :: p) :: ps

/-- The reply of `/notify`: status code and plain-text body. -/
structure NotifyReply where
  status : Nat
  body : String
  deriving DecidableEq, Repr

/-- `handleChangeIPSuccess` (main.go 2644-2674).  `now` is the clock in
nanoseconds, `rnd` the output of the random source, `up` tells whether the
UPDATE statement is executed. -/
def handleChangeIPSuccess (lib : Lib) (up : Bool) (order : Order) (newIP : GoString)
    (now : Time) (rnd : List Byte) (st : Store) : Except Unit Store :=
  let userID := order.UserID
  let timestamp := Int.tdiv now 1000000
  match generateDeterministicKey lib userID timestamp with
  | .error _ => .error ()
  | .ok deterministicKey =>
    let payload : Payload := { UserID := userID, IP := newIP, Timestamp := timestamp }
    match encryptPayload lib payload deterministicKey rnd with
    | .error _ => .error ()
    | .ok newToken =>
      match updateUserIPAndToken up st userID newIP newToken timestamp now with
      | .error _ => .error ()
      | .ok st1 => .ok st1

/-- Which statements of a `/notify` request the database executes. -/
structure NotifyDb where
  latestPending : Bool
  byOrderID : Bool
  updateStatus : Bool
  effect : Bool
  deriving DecidableEq, Repr

/-- The database executes every statement of the request. -/
def NotifyDb.up : NotifyDb :=
  { latestPending := true, byOrderID := true, updateStatus := true, effect := true }

/-- The parameters whose presence `notifyHandler` requires. -/
def requiredParams : List GoString :=
  [str "mchId", str "orderId", str "type", str "price", str "reallyPrice", str "sign"]

/-- The string over which the signature of a notification is computed
(main.go 2122-2128). -/
def signString (cfg : Config) (params : Params) : GoString :=
  params.get (str "orderId") ++ params.get (str "param") ++ params.get (str "type") ++
    params.get (str "price") ++ params.get (str "reallyPrice") ++ cfg.Secret

/-- Order resolution of `notifyHandler` (main.go 2140-2163): the latest
pending order of the identity named before the first `|` of `param`, else the
order whose gateway order id is `orderId`.  A query that fails is logged and
counts as no order found. -/
def resolveOrder (db : NotifyDb) (st : Store) (params : Params) : Option Order :=
  let paramParts := splitBy 124 (params.get (str "param"))
  let userID := paramParts.headD []
  let order : Option Order :=
    if userID ≠ [] then
      match getLatestPendingOrderByUserID db.latestPending st userID with
      | .ok o => o
      | .error _ => none
    else none
  match order with
  | none =>
    match getOrderByEpayOrderID db.byOrderID st (params.get (str "orderId")) with
    | .ok o => o
    | .error _ => none
  | some o => some o

/-- `notifyHandler` (main.go 2079-2235), on the parameter map built from the
request.  The chat notification and the deletion of the payment message
(main.go 2215-2232) do not touch the store and are left out. -/
def notifyHandler (lib : Lib) (cfg : Config) (db : NotifyDb) (params : Params) (now : Time)
    (rnd : List Byte) (st : Store) : NotifyReply × Store :=
  if requiredParams.any (fun param => !params.has param) then (⟨400, "fail"⟩, st)
  else if params.get (str "mchId") ≠ cfg.MchID then (⟨400, "fail"⟩, st)
  else
    let receivedSign := params.get (str "sign")
    let calculatedSign := generateMD5 lib (signString cfg params)
    if receivedSign ≠ calculatedSign then (⟨400, "fail"⟩, st)
    else
      let paramParts := splitBy 124 (params.get (str "param"))
      match resolveOrder db st params with
      | none => (⟨404, "fail"⟩, st)
      | some order =>
        if order.Status = str "paid" then (⟨200, "success"⟩, st)
        else
          let reallyPrice := lib.parseFloat (params.get (str "reallyPrice"))
          let payType := lib.atoi (params.get (str "type"))
          match updateOrderStatus db.updateStatus st order.PayID (str "paid") reallyPrice
              payType now with
          | .error _ => (⟨500, "fail"⟩, st)
          | .ok st1 =>
            if (str "CHANGE_IP_").isPrefixOf order.PayID && decide (1 < paramParts.length) then
              let newIP := paramParts.getD 1 []
              match handleChangeIPSuccess lib db.effect order newIP now rnd st1 with
              | .error _ => (⟨500, "fail"⟩, st1)
              | .ok st2 => (⟨200, "success"⟩, st2)
            else
              match updateUserLimit db.effect st1 order.UserID order.Count now with
              | .error _ => (⟨500, "fail"⟩, st1)
              | .ok st2 => (⟨200, "success"⟩, st2)

/-! ## An executable instance of the library

The definitions below are a small stand-in for the standard library, used
only to run the program on concrete inputs.  None of the general theorems
depends on them. -/

/-- Sum of the bytes of a list. -/
def byteSum (bs : List Byte) : Nat := (bs.map (fun b => b.val)).sum

/-- A 16-byte digest. -/
def demoMd5 (data : List Byte) : { h : List Byte // h.length = 16 } :=
  ⟨(List.range 16).map (fun i => Fin.ofNat (byteSum data + 31 * data.length + 7 * i)),
    by simp⟩

/-- The 16-byte authentication tag of the stand-in cipher. -/
def demoTag (key nonce body : List Byte) : List Byte :=
  (List.range 16).map (fun i =>
    Fin.ofNat (byteSum key + 3 * byteSum nonce + 5 * byteSum body + body.length + i))

/-- Sealing: the plaintext masked with the first key byte, then the tag. -/
def demoSeal (key nonce plaintext : List Byte) : List Byte :=
  let body := plaintext.map (fun b => Fin.ofNat (Nat.xor b.val (key.headD 0).val))
  body ++ demoTag key nonce body

/-- Opening: the tag is checked, then the mask removed. -/
def demoOpen (key nonce ciphertext : List Byte) : Option (List Byte) :=
  if ciphertext.length < 16 then none
  else
    let body := ciphertext.take (ciphertext.length - 16)
    if ciphertext.drop (ciphertext.length - 16) = demoTag key nonce body then
      some (body.map (fun b => Fin.ofNat (Nat.xor b.val (key.headD 0).val)))
    else none

/-- Length-prefixed encoding of a payload. -/
def demoMarshal (p : Payload) : List Byte :=
  putUint64 p.UserID.length ++ p.UserID ++ (putUint64 p.IP.length ++ p.IP) ++
    putUint64 (toUint64 p.Timestamp)

/-- Decoding of `demoMarshal`. -/
def demoUnmarshal (bs : List Byte) : Option Payload :=
  let n := getUint64 (bs.take 8)
  let rest := bs.drop 8
  let m := getUint64 ((rest.drop n).take 8)
  let rest2 := (rest.drop n).drop 8
  if bs.length = 8 + n + 8 + m + 8 then
    some { UserID := rest.take n, IP := rest2.take m, Timestamp := toInt64 (getUint64 (rest2.drop m)) }
  else none

/-- Value of a string of decimal digits, `none` for any other string. -/
def demoDigits (s : GoString) : Option Nat :=
  if s = [] ∨ s.any (fun c => c.val < 48 || 57 < c.val) then none
  else some (s.foldl (fun acc c => acc * 10 + (c.val - 48)) 0)

/-- Dotted-decimal IPv4 literals, in the 16-byte form. -/
def demoParseIP (s : GoString) : Option (List Byte) :=
  match (splitBy 46 s).map demoDigits with
  | [some a, some b, some c, some d] =>
    if a < 256 ∧ b < 256 ∧ c < 256 ∧ d < 256 then
      some (List.replicate 10 0 ++ [255, 255, Fin.ofNat a, Fin.ofNat b, Fin.ofNat c, Fin.ofNat d])
    else none
  | _ => none

/-- The executable instance of `Lib`. -/
def demoLib : Lib where
  md5 := demoMd5
  gcmSeal := demoSeal
  gcmOpen := demoOpen
  jsonMarshal := demoMarshal
  jsonUnmarshal := demoUnmarshal
  parseIP := demoParseIP
  parseFloat := fun s => (demoDigits (s.filter (fun c => c ≠ 46))).getD 0
  atoi := fun s => ((demoDigits s).getD 0 : Nat)

/-! ## Concrete inputs -/

/-- Twelve bytes of the random source. -/
def rnd0 : List Byte := [1, 2, 3, 4, 5, 6, 7, 8, 9, 10, 11, 12]

/-- The identity `"42"`. -/
def id42 : GoString := str "42"

/-- The origin `"203.0.113.9"`. -/
def origin0 : GoString := str "203.0.113.9"

/-- The issuance time `1700000000000`. -/
def ts0 : Int := 1700000000000

/-- An identity of 256 bytes, each the digit `7`. -/
def longID : GoString := List.replicate 256 55

/-- An entitlement record of `userID` bound to `origin0` at `ts0`. -/
def userRow (userID : GoString) (limit : Int) : UserRecord :=
  { UserID := userID, IP := origin0, Token := [], Limit := limit, Timestamp := ts0,
    CreatedAt := 0, UpdatedAt := 0 }

/-- A store holding a single entitlement record. -/
def storeOf (userID : GoString) (limit : Int) : Store :=
  { users := [userRow userID limit], keys := [], orders := [] }

/-- The token issued for `id42`, `origin0`, `ts0` with nonce `rnd0`. -/
def token42 : GoString :=
  hexEncode (putUint64 (toUint64 ts0) ++ [Fin.ofNat id42.length] ++ id42 ++ rnd0.take 12 ++
    demoLib.gcmSeal (derivedKey demoLib id42 ts0) (rnd0.take 12)
      (demoLib.jsonMarshal { UserID := id42, IP := origin0, Timestamp := ts0 }))

/-- The payment configuration of the scenarios. -/
def cfg0 : Config :=
  { AdminIDs := [1], DefaultLimit := 10, MchID := str "1001", Secret := str "s3cret" }

/-- A notification of the gateway for gateway order `orderId` and correlation
parameter `param`, signed with the secret of `cfg0`. -/
def signedNote (orderId param : GoString) : Params :=
  let fields : Params :=
    [(str "mchId", str "1001"), (str "orderId", orderId), (str "param", param),
     (str "type", str "1"), (str "price", str "0.50"), (str "reallyPrice", str "0.50")]
  fields ++ [(str "sign", generateMD5 demoLib (signString cfg0 fields))]

/-- A pending order. -/
def pendingOrder (payID userID : GoString) (count : Int) (created : Time)
    (orderID : GoString) : Order :=
  { PayID := payID, UserID := userID, Count := count, GoodsName := [], Price := 50,
    Status := str "pending", CreateTime := created, PayTime := none, PayType := 0,
    ReallyPrice := 0, OrderID := orderID, ChatID := 0, MessageID := 0, UpdatedAt := created }

/-- Identity `"7"` with credit 10 and two pending credit purchases: 5 units
(gateway order `E1`, created first) and 3 units (gateway order `E2`). -/
def twoPurchases : Store :=
  { users := [userRow (str "7") 10], keys := [],
    orders := [pendingOrder (str "RECHARGE_7_1") (str "7") 5 1 (str "E1"),
               pendingOrder (str "RECHARGE_7_2") (str "7") 3 2 (str "E2")] }

/-- Identity `"7"` with credit 10, a pending credit purchase of 5 units
(gateway order `E1`, created first) and a pending rebind order (gateway order
`E2`). -/
def purchaseAndRebind : Store :=
  { users := [userRow (str "7") 10], keys := [],
    orders := [pendingOrder (str "RECHARGE_7_1") (str "7") 5 1 (str "E1"),
               pendingOrder (str "CHANGE_IP_7_2") (str "7") 0 2 (str "E2")] }

/-- A pending credit purchase of identity `"9"`, which has no entitlement
record. -/
def orphanPurchase : Store :=
  { users := [userRow (str "7") 10], keys := [],
    orders := [pendingOrder (str "RECHARGE_9_1") (str "9") 5 1 (str "E9")] }

/-- Identity `"7"` with credit 10 and one pending purchase of 5 units (gateway
order `E1`). -/
def onePurchase : Store :=
  { users := [userRow (str "7") 10], keys := [],
    orders := [pendingOrder (str "RECHARGE_7_1") (str "7") 5 1 (str "E1")] }

/-- The database executes every statement of the request but the one that
applies the effect of the order. -/
def effectDown : NotifyDb :=
  { latestPending := true, byOrderID := true, updateStatus := true, effect := false }

/-- A notification like `signedNote`, with the notified price `price`. -/
def signedNotePrice (orderId param price : GoString) : Params :=
  let fields : Params :=
    [(str "mchId", str "1001"), (str "orderId", orderId), (str "param", param),
     (str "type", str "1"), (str "price", price), (str "reallyPrice", price)]
  fields ++ [(str "sign", generateMD5 demoLib (signString cfg0 fields))]

/-- A notification like `signedNote`, with the notified price `price` and the
really-paid amount `reallyPrice`. -/
def signedNoteAmounts (orderId param price reallyPrice : GoString) : Params :=
  let fields : Params :=
    [(str "mchId", str "1001"), (str "orderId", orderId), (str "param", param),
     (str "type", str "1"), (str "price", price), (str "reallyPrice", reallyPrice)]
  fields ++ [(str "sign", generateMD5 demoLib (signString cfg0 fields))]

/-- The pending purchase of 5 units of identity `"7"` (the order of
`onePurchase`). -/
def purchase7 : Order := pendingOrder (str "RECHARGE_7_1") (str "7") 5 1 (str "E1")

/-- A pending rebind order of identity `"7"`. -/
def rebindOrder7 : Order := pendingOrder (str "CHANGE_IP_7_1") (str "7") 0 1 (str "E1")

/-- Identity `"7"` with credit 10 bound to `origin0` at `ts0`, and its pending
rebind order. -/
def oneRebind : Store :=
  { users := [userRow (str "7") 10], keys := [], orders := [rebindOrder7] }

/-- A clock reading, in nanoseconds; the issuance time derived from it is
`1800000000000`. -/
def nowNs : Time := 1800000000000000000

/-- The token stored in the first entitlement record of `userID`. -/
def tokenOf (st : Store) (userID : GoString) : GoString :=
  ((st.users.find? (fun r => r.UserID == userID)).map (fun r => r.Token)).getD []

/-- The store after the signed rebind notification of `oneRebind` for the new
origin `newIP`, delivered at `nowNs`. -/
def afterRebind (newIP : GoString) : Store :=
  (notifyHandler demoLib cfg0 NotifyDb.up (signedNote (str "E1") (str "7|" ++ newIP)) nowNs rnd0
    oneRebind).2

/-- The signed rebind notification of identity `"7"` for the new origin
`"198.51.100.7"`. -/
def rebindNote : Params := signedNote (str "E1") (str "7|198.51.100.7")

/-- The store `storeOf id42 3` after the rebind of `"42"` to `"198.51.100.7"`
at `nowNs`. -/
def rebound42 : Store :=
  match handleChangeIPSuccess demoLib true (pendingOrder (str "CHANGE_IP_42_1") id42 0 1 (str "E4"))
      (str "198.51.100.7") nowNs rnd0 (storeOf id42 3) with
  | .ok st => st
  | .error _ => storeOf id42 3

/-! ## Credit code ledger (main.go 428-467) -/

/-- Which statements of `useKey` the database executes. -/
structure KeyDb where
  beginTx : Bool
  query : Bool
  update : Bool
  commit : Bool
  deriving DecidableEq, Repr

/-- The database executes every statement of the redemption. -/
def KeyDb.up : KeyDb := { beginTx := true, query := true, update := true, commit := true }

/-- The errors returned by `useKey`, one per `fmt.Errorf` site. -/
inductive KeyError where
  | beginFailed
  | notFound
  | queryFailed
  | alreadyUsed
  | updateFailed
  | commitFailed
  deriving DecidableEq, Repr

/-- The row of `key` after a redemption by `userID` (the UPDATE of `useKey`). -/
def markUsed (key userID : GoString) (now : Time) (k : KeyRecord) : KeyRecord :=
  if k.Key = key then { k with Used := true, UsedBy := some userID, UsedAt := some now } else k

/-- `useKey` (main.go 428-467): the returned pair `(int, error)` and the store
after the call.  Every error path leaves the transaction to the deferred
rollback, so the store is the one before the call. -/
def useKey (db : KeyDb) (st : Store) (key userID : GoString) (now : Time) :
    Except KeyError Int × Store :=
  if !db.beginTx then (.error .beginFailed, st)
  else if !db.query then (.error .queryFailed, st)
  else
    match st.keys.find? (fun k => k.Key == key) with
    | none => (.error .notFound, st)
    | some row =>
      if row.Used then (.error .alreadyUsed, st)
      else if !db.update then (.error .updateFailed, st)
      else if !db.commit then (.error .commitFailed, st)
      else (.ok row.AddLimit, { st with keys := st.keys.map (markUsed key userID now) })

/-- One redemption request: the statements the database executes, the code,
the identity and the clock. -/
structure RedeemOp where
  db : KeyDb
  key : GoString
  userID : GoString
  now : Time

/-- The store after a sequence of redemption requests. -/
def redeemAll (ops : List RedeemOp) (st : Store) : Store :=
  ops.foldl (fun s op => (useKey op.db s op.key op.userID op.now).2) st

/-- An unused credit code worth `addLimit`, created by administrator `"1"`. -/
def freshKey (key : GoString) (addLimit : Int) : KeyRecord :=
  { Key := key, AddLimit := addLimit, Used := false, UsedBy := none, CreatedBy := str "1",
    CreatedAt := 0, UsedAt := none }

/-- A ledger with the unused codes `"k1"` (20 units) and `"k2"` (5 units), and
identity `"42"` with credit 3. -/
def ledger0 : Store :=
  { users := [userRow id42 3], keys := [freshKey (str "k1") 20, freshKey (str "k2") 5],
    orders := [] }

/-! ## Concurrent verification (main.go 773-860)

Each `/verify` request runs in a goroutine of its own.  A request touches the
database twice: the SELECT of `loadDatabase` inside `decryptAndValidateToken`
and the UPDATE of `updateUserLimit`.  Between the two, the requests of other
goroutines may run. -/

/-- Where a request stands after the credit check: the reply is decided, or
`matchedRecord`, as read from the store, is to be charged. -/
inductive VerifyStage where
  | replied (reply : VerifyReply)
  | matched (matchedRecord : UserRecord)
  deriving DecidableEq, Repr

/-- `verifyHandler` up to the credit check (main.go 773-835). -/
def verifyCheck (lib : Lib) (db : VerifyDb) (req : Except String GoString)
    (clientIP : GoString) (st : Store) : VerifyStage :=
  match req with
  | .error e =>
    .replied ⟨400, { Success := false, Message := "请求格式错误: " ++ e, UserID := [], Limit := 0 }⟩
  | .ok token =>
    if !isValidPublicIP lib clientIP then
      .replied ⟨400, { Success := false, Message := "无法获取有效的公网IP", UserID := [], Limit := 0 }⟩
    else if (hexDecode token).isNone then
      .replied ⟨400, { Success := false, Message := "Token格式无效", UserID := [], Limit := 0 }⟩
    else
      let r := decryptAndValidateToken lib db.load st token clientIP
      match r.err, r.record with
      | some _, _ =>
        .replied ⟨401, { Success := false, Message := "Token无效或IP不匹配", UserID := [], Limit := 0 }⟩
      | none, none =>
        .replied ⟨500, { Success := false, Message := "系统错误", UserID := [], Limit := 0 }⟩
      | none, some matchedRecord =>
        if matchedRecord.Limit ≤ 0 then
          .replied ⟨403, { Success := false, Message := "使用次数不足",
                           UserID := matchedRecord.UserID, Limit := 0 }⟩
        else .matched matchedRecord

/-- `verifyHandler` from the decrement on (main.go 837-859): the UPDATE runs
on the store of that moment, the reply is computed from `matchedRecord`. -/
def verifyCharge (db : VerifyDb) (matchedRecord : UserRecord) (now : Time) (st : Store) :
    VerifyReply × Store :=
  match updateUserLimit db.update st matchedRecord.UserID (-1) now with
  | .error _ =>
    (⟨500, { Success := false, Message := "系统错误", UserID := [], Limit := 0 }⟩, st)
  | .ok st1 =>
    let newLimit := matchedRecord.Limit - 1
    (⟨200, { Success := true, Message := "验证成功",
             UserID := matchedRecord.UserID, Limit := newLimit }⟩, st1)

/-- The store and the requests in flight; `none` is a request that has not
started. -/
structure VerifyRun where
  store : Store
  attempts : List (Option VerifyStage)
  deriving DecidableEq, Repr

/-- Request `i` runs up to its next database access. -/
def verifyStep (lib : Lib) (token clientIP : GoString) (now : Time) (i : Nat)
    (s : VerifyRun) : VerifyRun :=
  match s.attempts[i]? with
  | some none =>
    { s with attempts :=
        s.attempts.set i (some (verifyCheck lib VerifyDb.up (.ok token) clientIP s.store)) }
  | some (some (.matched matchedRecord)) =>
    { store := (verifyCharge VerifyDb.up matchedRecord now s.store).2,
      attempts := s.attempts.set i
        (some (.replied (verifyCharge VerifyDb.up matchedRecord now s.store).1)) }
  | _ => s

/-- The requests run in the order of `schedule`, which names at each step the
request that proceeds. -/
def verifyRun (lib : Lib) (token clientIP : GoString) (now : Time) (schedule : List Nat)
    (s : VerifyRun) : VerifyRun :=
  schedule.foldl (fun s i => verifyStep lib token clientIP now i s) s

/-- The status codes of the requests that were answered. -/
def VerifyRun.statuses (s : VerifyRun) : List (Option Nat) :=
  s.attempts.map (fun a =>
    match a with
    | some (.replied reply) => some reply.status
    | _ => none)

/-! ## Concurrent redemption (main.go 428-467)

Each call of `useKey` runs in a transaction of its own.  The database is
taken to give `SELECT ... FOR UPDATE` its row-lock meaning: the statement
waits while the transaction of another call holds the lock on the rows of the
code, and the lock is held until that transaction commits or is rolled
back. -/

/-- Where a call of `useKey` stands. -/
inductive RedeemStage where
  | locked (addLimit : Int) (used : Bool)
  | updated (addLimit : Int)
  | returned (result : Except KeyError Int)
  deriving DecidableEq, Repr

/-- The store, the call whose transaction holds the row lock, and the calls
in flight; `none` is a call that has not yet read the row. -/
structure RedeemRun where
  store : Store
  lock : Option Nat
  attempts : List (Option RedeemStage)
  deriving DecidableEq, Repr

/-- The end of the transaction of call `i` releases the lock it holds. -/
def release (i : Nat) (lock : Option Nat) : Option Nat :=
  if lock = some i then none else lock

/-- Call `i`, made by identity `ids[i]`, runs its next statement: the SELECT
(which waits while the lock is held), the check of `used` followed by the
UPDATE inside the transaction, or the commit, which makes the update visible
and releases the lock. -/
def redeemStep (key : GoString) (ids : List GoString) (now : Time) (i : Nat)
    (s : RedeemRun) : RedeemRun :=
  match s.attempts[i]? with
  | some none =>
    match s.store.keys.find? (fun k => k.Key == key) with
    | none => { s with attempts := s.attempts.set i (some (.returned (.error .notFound))) }
    | some row =>
      if s.lock.isSome then s
      else { s with lock := some i,
                    attempts := s.attempts.set i (some (.locked row.AddLimit row.Used)) }
  | some (some (.locked addLimit used)) =>
    if used then
      { s with lock := release i s.lock,
               attempts := s.attempts.set i (some (.returned (.error .alreadyUsed))) }
    else { s with attempts := s.attempts.set i (some (.updated addLimit)) }
  | some (some (.updated addLimit)) =>
    { store := { s.store with keys := s.store.keys.map (markUsed key (ids.getD i []) now) },
      lock := release i s.lock,
      attempts := s.attempts.set i (some (.returned (.ok addLimit))) }
  | _ => s

/-- The calls run in the order of `schedule`. -/
def redeemRun (key : GoString) (ids : List GoString) (now : Time) (schedule : List Nat)
    (s : RedeemRun) : RedeemRun :=
  schedule.foldl (fun s i => redeemStep key ids now i s) s

/-- One call per identity of `ids`, none started, the lock free. -/
def redeemStart (st : Store) (ids : List GoString) : RedeemRun :=
  { store := st, lock := none, attempts := List.replicate ids.length none }

/-- Every call has returned. -/
def RedeemRun.finished (s : RedeemRun) : Bool :=
  s.attempts.all (fun a =>
    match a with
    | some (.returned _) => true
    | _ => false)

/-- The schedule in which the calls run one after the other. -/
def inTurn (n : Nat) : List Nat :=
  (List.range n).flatMap (fun i => [i, i, i])

/-- The call is inside its transaction, past the SELECT. -/
def holdsLock : Option (Option RedeemStage) → Bool
  | some (some (.locked _ _)) => true
  | some (some (.updated _)) => true
  | _ => false

/-- The states of a call while the code is unused. -/
def Early (g : Int) : Option (Option RedeemStage) → Prop
  | some (some (.locked a u)) => a = g ∧ u = false
  | some (some (.updated a)) => a = g
  | some (some (.returned _)) => False
  | _ => True

/-- The states of a call other than the winner once the code is used. -/
def Late : Option (Option RedeemStage) → Prop
  | some (some (.locked _ u)) => u = true
  | some (some (.updated _)) => False
  | some (some (.returned r)) => r = .error .alreadyUsed
  | _ => True

/-- The invariant of the concurrent calls on the code `key`, whose row in the
store `st` of the beginning is `row`: the lock is held by the call inside its
transaction, and either no call has committed and the store is `st`, or one
call `w` has returned the amount and the others saw or will see the code
used by `ids[w]`. -/
def RedeemInv (st : Store) (key : GoString) (ids : List GoString) (row : KeyRecord)
    (s : RedeemRun) : Prop :=
  s.attempts.length = ids.length ∧
  (∀ i : Nat, s.lock = some i ↔ holdsLock s.attempts[i]? = true) ∧
  ((s.store = st ∧ ∀ i : Nat, Early row.AddLimit s.attempts[i]?) ∨
   (∃ w, w < ids.length ∧ s.attempts[w]? = some (some (.returned (.ok row.AddLimit))) ∧
      (∃ x ∈ s.store.keys, x.Key = key) ∧
      (∀ x ∈ s.store.keys, x.Key = key → x.Used = true ∧ x.UsedBy = some (ids.getD w [])) ∧
      ∀ i : Nat, i ≠ w → Late s.attempts[i]?))

/-- Three identities that redeem the same code at once. -/
def ids3 : List GoString := [id42, str "7", str "8"]

/-- A schedule of three calls: the second call takes the lock, the others
wait, then see the code used. -/
def race3 : List Nat := [1, 0, 2, 1, 0, 1, 2, 2, 0, 0]

/-! ## Frame layout (main.go 627-664, 870-884) -/

/-- A lowercase hexadecimal digit, `0`-`9` or `a`-`f`. -/
def isLowerHex (c : Byte) : Bool :=
  (48 ≤ c.val && c.val ≤ 57) || (97 ≤ c.val && c.val ≤ 102)

/-- The slice expression `data[lo:hi]`; `none` is the run-time panic of a
slice out of range. -/
def goSlice (data : List Byte) (lo hi : Nat) : Option (List Byte) :=
  if lo ≤ hi ∧ hi ≤ data.length then some ((data.drop lo).take (hi - lo)) else none

/-- The index expression `data[i]`; `none` is the run-time panic of an index
out of range. -/
def goIndex (data : List Byte) (i : Nat) : Option Byte :=
  data[i]?

/-- The length checks and the slicing of the decoded frame (main.go 870-884)
with the bounds checks of the Go run time made explicit: `none` is a panic. -/
def sliceFrameChecked (data : List Byte) : Option (Except TokenError Frame) :=
  if data.length < 21 then some (.error .tooShort) else
  match goSlice data 0 8, goIndex data 8 with
  | some timestampBytes, some lengthByte =>
    let timestamp := toInt64 (getUint64 timestampBytes)
    let userIDLen := lengthByte.val
    if data.length < 9 + userIDLen + 12 then some (.error .badFormat) else
    match goSlice data 9 (9 + userIDLen), goSlice data (9 + userIDLen) (9 + userIDLen + 12),
        goSlice data (9 + userIDLen + 12) data.length with
    | some userID, some nonce, some ciphertext =>
      some (.ok { timestamp := timestamp, userID := userID, nonce := nonce,
                  ciphertext := ciphertext })
    | _, _, _ => none
  | _, _ => none

/-- The bytes of `token42`. -/
def frame42 : List Byte :=
  putUint64 (toUint64 ts0) ++ [Fin.ofNat id42.length] ++ id42 ++ rnd0.take 12 ++
    demoLib.gcmSeal (derivedKey demoLib id42 ts0) (rnd0.take 12)
      (demoLib.jsonMarshal { UserID := id42, IP := origin0, Timestamp := ts0 })

/-! ## Tokens assembled outside the program -/

/-- A token assembled by hand: the clear header names `(userID, timestamp)`,
the key is derived from the header as the verifier does, and the sealed
plaintext is the JSON of `payload`. -/
def forgeToken (lib : Lib) (userID : GoString) (timestamp : Int) (nonce : List Byte)
    (payload : Payload) : GoString :=
  hexEncode (putUint64 (toUint64 timestamp) ++ [Fin.ofNat userID.length] ++ userID ++ nonce ++
    lib.gcmSeal (derivedKey lib userID timestamp) nonce (lib.jsonMarshal payload))

/-- A token with the header of identity `"42"` at `ts0` whose sealed payload
names identity `"99"` and issuance time 5. -/
def mixedToken : GoString :=
  forgeToken demoLib id42 ts0 (rnd0.take 12) { UserID := str "99", IP := origin0, Timestamp := 5 }

/-- The origin `"198.51.100.7"`. -/
def origin1 : GoString := str "198.51.100.7"

/-- A frame of 21 bytes whose length byte announces an identity of 200 bytes. -/
def overlongFrame : List Byte :=
  List.replicate 8 0 ++ [200] ++ List.replicate 12 1

/-! ## Address ranges -/

/-- The four networks of `privateRanges` as conditions on the first two bytes
of an IPv4 address: `10/8`, `172.16/12`, `192.168/16` and `127/8`. -/
def inPrivateRange (a b : Nat) : Bool :=
  a == 10 || (a == 172 && (decide (16 ≤ b) && decide (b ≤ 31))) || (a == 192 && b == 168) ||
    a == 127

/-- The IPv6 loopback address `::1`. -/
def loopback6 : List Byte := List.replicate 15 0 ++ [1]

/-- The unique local IPv6 address `fd00::1`. -/
def local6 : List Byte := [253] ++ List.replicate 14 0 ++ [1]

/-- The stand-in library, whose `parseIP` also reads the literals `::1` and
`fd00::1`. -/
def lib6 : Lib :=
  { demoLib with
    parseIP := fun s =>
      if s = str "::1" then some loopback6
      else if s = str "fd00::1" then some local6
      else demoLib.parseIP s }

/-! ## Notifications with shifted fields -/

/-- The five signed fields of a notification. -/
def signedFields (params : Params) : List GoString :=
  [params.get (str "orderId"), params.get (str "param"), params.get (str "type"),
   params.get (str "price"), params.get (str "reallyPrice")]

/-- The notification `signedNote "E1" "7"` with the last byte of `orderId`
moved to the front of `param`, under the same `sign`. -/
def shiftedNote : Params :=
  [(str "mchId", str "1001"), (str "orderId", str "E"), (str "param", str "17"),
   (str "type", str "1"), (str "price", str "0.50"), (str "reallyPrice", str "0.50"),
   (str "sign", (signedNote (str "E1") (str "7")).get (str "sign"))]

/-- Identity `"17"` with credit 10 and a pending purchase of 5 units, gateway
order `E9`. -/
def purchase17 : Store :=
  { users := [userRow (str "17") 10], keys := [],
    orders := [pendingOrder (str "RECHARGE_17_1") (str "17") 5 1 (str "E9")] }

/-! ## Issuance of credit codes (main.go 412-425, 960-970) -/

/-- `now.Unix()`: the whole seconds of the clock reading `now`, given in
nanoseconds. -/
def unixSeconds (now : Time) : Int := now / 1000000000

/-- `generateKey` (main.go 960-970); `now` is the clock. -/
def generateKey (lib : Lib) (adminID : Int) (now : Time) : GoString :=
  let timestamp := unixSeconds now
  let data := decimal timestamp ++ str "_" ++ decimal adminID
  let hash := (lib.md5 data).val
  hexEncode hash

/-- `addKey` (main.go 412-425): the returned pair `(string, error)` and the
store after the call.  `up` tells whether the driver reaches the database.
The declaration of table `card_keys` is not in `main.go`; `unique` tells
whether it declares `key_code` unique, in which case the INSERT of a code
already present fails.  The columns not named by the INSERT take their
defaults: `used` false, `used_by` and `used_at` null. -/
def addKey (lib : Lib) (up unique : Bool) (st : Store) (addLimit adminID : Int) (now : Time) :
    Except Unit GoString × Store :=
  let key := generateKey lib adminID now
  if !up then (.error (), st)
  else if unique && st.keys.any (fun k => k.Key == key) then (.error (), st)
  else
    (.ok key,
     { st with keys := st.keys ++
        [{ Key := key, AddLimit := addLimit, Used := false, UsedBy := none,
           CreatedBy := decimal adminID, CreatedAt := now, UsedAt := none }] })

/-- The ledger after administrator 1 issued a code of 20 units at `nowNs`. -/
def ledgerAfterIssue (unique : Bool) : Store :=
  (addKey demoLib true unique { users := [], keys := [], orders := [] } 20 1 nowNs).2

/-! ## Store operations of the chat handlers (main.go 296-353, 470-520) -/

/-- `userExists` (main.go 296-304). -/
def userExists (up : Bool) (st : Store) (userID : GoString) : Except StoreError Bool :=
  if up then .ok (st.users.any (fun r => r.UserID == userID)) else .error .unavailable

/-- `getUserInfo` (main.go 307-323): the first row of `userID`, `none` when
there is none. -/
def getUserInfo (up : Bool) (st : Store) (userID : GoString) :
    Except StoreError (Option UserRecord) :=
  if up then .ok (st.users.find? (fun r => r.UserID == userID)) else .error .unavailable

/-- `ipExists` (main.go 326-337): the identity of the first row bound to `ip`,
`none` when no row is. -/
def ipExists (up : Bool) (st : Store) (ip : GoString) : Except StoreError (Option GoString) :=
  if up then .ok ((st.users.find? (fun r => r.IP == ip)).map (fun r => r.UserID))
  else .error .unavailable

/-- `addUserRecord` (main.go 340-352); `createdAt` is the clock. -/
def addUserRecord (up : Bool) (st : Store) (userID ip token : GoString) (limit : Int)
    (timestamp : Int) (createdAt : Time) : Except StoreError Store :=
  if up then
    .ok { st with users := st.users ++
      [{ UserID := userID, IP := ip, Token := token, Limit := limit, Timestamp := timestamp,
         CreatedAt := createdAt, UpdatedAt := createdAt }] }
  else .error .unavailable

/-- `saveOrderToDB` (main.go 470-490). -/
def saveOrderToDB (up : Bool) (st : Store) (order : Order) : Except StoreError Store :=
  if up then .ok { st with orders := st.orders ++ [order] } else .error .unavailable

/-- `updateOrderWithEpayInfo` (main.go 508-519). -/
def updateOrderWithEpayInfo (up : Bool) (st : Store) (payID epayOrderID : GoString)
    (reallyPrice : Float64) (payType : Int) (now : Time) : Except StoreError Store :=
  if up then
    .ok { st with orders := st.orders.map (fun o =>
      if o.PayID = payID then
        { o with OrderID := epayOrderID, ReallyPrice := reallyPrice, PayType := payType,
                 UpdatedAt := now }
      else o) }
  else .error .unavailable

/-! ## Conversation state (main.go 110-116, 1078-1131)

The bot handles one update after the other.  The messages it sends, the
message timers and the cache `userKeys`, which is written and never read, are
left out; the expiry of a timer is an event of its own. -/

/-- The bytes of one character in UTF-8. -/
def utf8Char (c : Char) : List Byte :=
  let n := c.toNat
  if n < 128 then [Fin.ofNat n]
  else if n < 2048 then [Fin.ofNat (192 + n / 64), Fin.ofNat (128 + n % 64)]
  else if n < 65536 then
    [Fin.ofNat (224 + n / 4096), Fin.ofNat (128 + n / 64 % 64), Fin.ofNat (128 + n % 64)]
  else
    [Fin.ofNat (240 + n / 262144), Fin.ofNat (128 + n / 4096 % 64),
     Fin.ofNat (128 + n / 64 % 64), Fin.ofNat (128 + n % 64)]

/-- The bytes of a Go string literal. -/
def utf8 (s : String) : GoString :=
  s.toList.flatMap utf8Char

/-- The `float64` value `1.0`. -/
def floatOne : Float64 := 4607182418800017408

/-- `UserState.Data`, a `map[string]interface{}`: the four keys that the
program writes, each with the Go type of the values written under it; `none`
is an absent key. -/
structure StateData where
  limit : Option Int
  count : Option Int
  price : Option Float64
  new_ip : Option GoString
  deriving DecidableEq, Repr

/-- The empty map. -/
def StateData.empty : StateData :=
  { limit := none, count := none, price := none, new_ip := none }

/-- `UserState`, without the timer. -/
structure UserState where
  State : GoString
  Data : StateData
  MessageID : Int
  deriving DecidableEq, Repr

/-- `userStates`, a `map[int64]*UserState`, as the list of its entries. -/
abbrev UserStates := List (Int × UserState)

/-- `getUserState` (main.go 1128-1130). -/
def getUserState (states : UserStates) (userID : Int) : Option UserState :=
  (states.find? (fun e => e.1 == userID)).map (fun e => e.2)

/-- `clearUserState` (main.go 1096-1102). -/
def clearUserState (states : UserStates) (userID : Int) : UserStates :=
  states.filter (fun e => e.1 != userID)

/-- The assignment `userStates[userID] = userState`. -/
def putUserState (states : UserStates) (userID : Int) (userState : UserState) : UserStates :=
  (userID, userState) :: clearUserState states userID

/-- `setUserState` (main.go 1078-1093), called with no data or an empty map. -/
def setUserState (states : UserStates) (userID : Int) (state : GoString) (messageID : Int) :
    UserStates :=
  putUserState states userID { State := state, Data := StateData.empty, MessageID := messageID }

/-- `isAdmin` (main.go 973-980). -/
def isAdmin (cfg : Config) (userID : Int) : Bool :=
  cfg.AdminIDs.any (fun adminID => adminID == userID)

/-- The part of `CreateOrderResponse` that the handlers read. -/
structure CreateOrderResponse where
  Code : Int
  OrderID : GoString
  PayType : Int
  ReallyPrice : Float64
  deriving DecidableEq, Repr

/-- What is fixed during a run of the bot: the library, the configuration,
`strconv.Atoi` with its error (`none`), the product
`float64(count) * config.Payment.PricePerUse`, and whether table `card_keys`
declares `key_code` unique. -/
structure Bot where
  lib : Lib
  cfg : Config
  parseInt : GoString → Option Int
  totalPrice : Int → Float64
  uniqueKeyCode : Bool

/-- What the surroundings answer while one update is handled: the clock, the
random source, whether `generateAESKey` succeeds, which kinds of statement the
database executes, and the reply of the gateway to `CreateOrder` (`none` is an
error). -/
structure ChatEnv where
  now : Time
  rnd : List Byte
  aesKey : Bool
  query : Bool
  insert : Bool
  update : Bool
  keyDb : KeyDb
  epay : Option CreateOrderResponse

/-- The state of the program: the database, the conversation states, and the
arguments `(addLimit, adminID)` of the calls of `addKey` made so far. -/
structure World where
  store : Store
  userStates : UserStates
  addKeyCalls : List (Int × Int)
  deriving DecidableEq, Repr

/-- The state at start: empty tables, no conversation. -/
def World.empty : World :=
  { store := { users := [], keys := [], orders := [] }, userStates := [], addKeyCalls := [] }

/-! ## Chat handlers (main.go 1133-1840, 2423-2642) -/

/-- `generateTokenForUser` (main.go 1546-1592). -/
def generateTokenForUser (bot : Bot) (env : ChatEnv) (userID : Int) (ip : GoString)
    (w : World) : World :=
  let timestamp := Int.tdiv env.now 1000000
  match generateDeterministicKey bot.lib (decimal userID) timestamp with
  | .error _ => { w with userStates := clearUserState w.userStates userID }
  | .ok deterministicKey =>
    let payload : Payload := { UserID := decimal userID, IP := ip, Timestamp := timestamp }
    match encryptPayload bot.lib payload deterministicKey env.rnd with
    | .error _ => { w with userStates := clearUserState w.userStates userID }
    | .ok token =>
      match addUserRecord env.insert w.store (decimal userID) ip token bot.cfg.DefaultLimit
          timestamp env.now with
      | .error _ => { w with userStates := clearUserState w.userStates userID }
      | .ok st => { w with store := st, userStates := clearUserState w.userStates userID }

/-- `handleIPInput` (main.go 1133-1185). -/
def handleIPInput (bot : Bot) (env : ChatEnv) (userID : Int) (ip : GoString) (w : World) :
    World :=
  match getUserState w.userStates userID with
  | none => w
  | some _ =>
    if isValidPublicIP bot.lib ip then
      match ipExists env.query w.store ip with
      | .error _ => { w with userStates := clearUserState w.userStates userID }
      | .ok ipUsed =>
        if ipUsed.isSome then { w with userStates := clearUserState w.userStates userID }
        else generateTokenForUser bot env userID ip w
    else w

/-- `handleKeyInput` (main.go 1188-1249). -/
def handleKeyInput (env : ChatEnv) (userID : Int) (key : GoString) (w : World) : World :=
  match getUserState w.userStates userID with
  | none => w
  | some _ =>
    match getUserInfo env.query w.store (decimal userID) with
    | .error _ => { w with userStates := clearUserState w.userStates userID }
    | .ok none => { w with userStates := clearUserState w.userStates userID }
    | .ok (some _) =>
      match useKey env.keyDb w.store key (decimal userID) env.now with
      | (.error _, st1) => { w with store := st1 }
      | (.ok addLimit, st1) =>
        match updateUserLimit env.update st1 (decimal userID) addLimit env.now with
        | .error _ => { w with store := st1, userStates := clearUserState w.userStates userID }
        | .ok st2 => { w with store := st2, userStates := clearUserState w.userStates userID }

/-- `handleKeyLimitInput` (main.go 1252-1280). -/
def handleKeyLimitInput (bot : Bot) (userID : Int) (text : GoString) (w : World) : World :=
  match getUserState w.userStates userID with
  | none => w
  | some userState =>
    match bot.parseInt text with
    | none => w
    | some limit =>
      if limit ≤ 0 then w
      else
        let data : StateData := { userState.Data with limit := some limit }
        { w with userStates := putUserState w.userStates userID { userState with Data := data } }

/-- `handleRechargeCountInput` (main.go 1283-1314). -/
def handleRechargeCountInput (bot : Bot) (userID : Int) (text : GoString) (w : World) :
    World :=
  match getUserState w.userStates userID with
  | none => w
  | some userState =>
    match bot.parseInt text with
    | none => w
    | some count =>
      if count ≤ 0 then w
      else
        let totalPrice := bot.totalPrice count
        let data : StateData :=
          { userState.Data with count := some count, price := some totalPrice }
        { w with userStates := putUserState w.userStates userID { userState with Data := data } }

/-- `handleRechargeButton` (main.go 1317-1345). -/
def handleRechargeButton (env : ChatEnv) (userID messageID : Int) (w : World) : World :=
  match getUserInfo env.query w.store (decimal userID) with
  | .error _ => w
  | .ok none => w
  | .ok (some _) =>
    { w with userStates :=
        setUserState w.userStates userID (str "waiting_recharge_count") messageID }

/-- The order creation shared by `handleConfirmRecharge` (main.go 1361-1453)
and `handleConfirmChangeIP` (main.go 1548-1639), from the INSERT on.  The
reply of the gateway is taken to carry its data whenever its code is 1. -/
def createOrder (env : ChatEnv) (userID : Int) (order : Order) (w : World) : World :=
  match saveOrderToDB env.insert w.store order with
  | .error _ => { w with userStates := clearUserState w.userStates userID }
  | .ok st1 =>
    match env.epay with
    | none => { w with store := st1, userStates := clearUserState w.userStates userID }
    | some result =>
      if result.Code ≠ 1 then
        { w with store := st1, userStates := clearUserState w.userStates userID }
      else
        match updateOrderWithEpayInfo env.update st1 order.PayID result.OrderID
            result.ReallyPrice result.PayType env.now with
        | .error _ =>
          { w with store := st1, userStates := clearUserState w.userStates userID }
        | .ok st2 =>
          { w with store := st2, userStates := clearUserState w.userStates userID }

/-- `handleConfirmRecharge` (main.go 1348-1455). -/
def handleConfirmRecharge (env : ChatEnv) (userID chatID messageID : Int) (w : World) :
    World :=
  match getUserState w.userStates userID with
  | none => { w with userStates := clearUserState w.userStates userID }
  | some userState =>
    match userState.Data.count, userState.Data.price with
    | some count, some price =>
      let payID := str "RECHARGE_" ++ decimal userID ++ str "_" ++ decimal env.now
      let order : Order :=
        { PayID := payID, UserID := decimal userID, Count := count,
          GoodsName := utf8 "充值" ++ decimal count ++ utf8 "次使用次数", Price := price,
          Status := str "pending", CreateTime := env.now, PayTime := none, PayType := 0,
          ReallyPrice := 0, OrderID := [], ChatID := chatID, MessageID := messageID,
          UpdatedAt := env.now }
      createOrder env userID order w
    | _, _ => { w with userStates := clearUserState w.userStates userID }

/-- `handleGetTokenButton` (main.go 1670-1712). -/
def handleGetTokenButton (env : ChatEnv) (userID messageID : Int) (w : World) : World :=
  match userExists env.query w.store (decimal userID) with
  | .error _ => w
  | .ok exists_ =>
    if exists_ then w
    else if !env.aesKey then w
    else { w with userStates := setUserState w.userStates userID (str "waiting_ip") messageID }

/-- `handleUseKeyButton` (main.go 1756-1784). -/
def handleUseKeyButton (env : ChatEnv) (userID messageID : Int) (w : World) : World :=
  match getUserInfo env.query w.store (decimal userID) with
  | .error _ => w
  | .ok none => w
  | .ok (some _) =>
    { w with userStates := setUserState w.userStates userID (str "waiting_key") messageID }

/-- `handleGenKeyButton` (main.go 1787-1805). -/
def handleGenKeyButton (bot : Bot) (userID messageID : Int) (w : World) : World :=
  if !isAdmin bot.cfg userID then w
  else
    { w with userStates :=
        setUserState w.userStates userID (str "waiting_key_limit") messageID }

/-- `handleConfirmGenKey` (main.go 1808-1840). -/
def handleConfirmGenKey (bot : Bot) (env : ChatEnv) (userID : Int) (w : World) : World :=
  match getUserState w.userStates userID with
  | none => { w with userStates := clearUserState w.userStates userID }
  | some userState =>
    match userState.Data.limit with
    | none => { w with userStates := clearUserState w.userStates userID }
    | some addLimit =>
      { store := (addKey bot.lib env.insert bot.uniqueKeyCode w.store addLimit userID env.now).2,
        userStates := clearUserState w.userStates userID,
        addKeyCalls := w.addKeyCalls ++ [(addLimit, userID)] }

/-- `handleChangeIPButton` (main.go 2499-2531). -/
def handleChangeIPButton (env : ChatEnv) (userID messageID : Int) (w : World) : World :=
  match getUserInfo env.query w.store (decimal userID) with
  | .error _ => w
  | .ok none => w
  | .ok (some _) =>
    { w with userStates :=
        setUserState w.userStates userID (str "waiting_change_ip") messageID }

/-- `handleChangeIPInput` (main.go 2423-2496). -/
def handleChangeIPInput (bot : Bot) (env : ChatEnv) (userID : Int) (newIP : GoString)
    (w : World) : World :=
  match getUserState w.userStates userID with
  | none => w
  | some userState =>
    if isValidPublicIP bot.lib newIP then
      match ipExists env.query w.store newIP with
      | .error _ => { w with userStates := clearUserState w.userStates userID }
      | .ok found =>
        let ipUsed := found.isSome
        let existingUserID := found.getD []
        let currentUserID := decimal userID
        if ipUsed && existingUserID != currentUserID then
          { w with userStates := clearUserState w.userStates userID }
        else if ipUsed && existingUserID == currentUserID then
          { w with userStates := clearUserState w.userStates userID }
        else
          let price := floatOne
          let data : StateData := { userState.Data with new_ip := some newIP, price := some price }
          { w with
            userStates := putUserState w.userStates userID { userState with Data := data } }
    else w

/-- `handleConfirmChangeIP` (main.go 2534-2642). -/
def handleConfirmChangeIP (env : ChatEnv) (userID chatID messageID : Int) (w : World) :
    World :=
  match getUserState w.userStates userID with
  | none => { w with userStates := clearUserState w.userStates userID }
  | some userState =>
    match userState.Data.new_ip, userState.Data.price with
    | some newIP, some price =>
      let payID := str "CHANGE_IP_" ++ decimal userID ++ str "_" ++ decimal env.now
      let order : Order :=
        { PayID := payID, UserID := decimal userID, Count := 0,
          GoodsName := utf8 "换绑IP地址到" ++ newIP, Price := price,
          Status := str "pending", CreateTime := env.now, PayTime := none, PayType := 0,
          ReallyPrice := 0, OrderID := [], ChatID := chatID, MessageID := messageID,
          UpdatedAt := env.now }
      createOrder env userID order w
    | _, _ => { w with userStates := clearUserState w.userStates userID }

/-- `handleUserStateInput` (main.go 1105-1125). -/
def handleUserStateInput (bot : Bot) (env : ChatEnv) (userID : Int) (text : GoString)
    (userState : UserState) (w : World) : World :=
  if userState.State = str "waiting_ip" then handleIPInput bot env userID text w
  else if userState.State = str "waiting_key" then handleKeyInput env userID text w
  else if userState.State = str "waiting_key_limit" then handleKeyLimitInput bot userID text w
  else if userState.State = str "waiting_recharge_count" then
    handleRechargeCountInput bot userID text w
  else if userState.State = str "waiting_change_ip" then
    handleChangeIPInput bot env userID text w
  else w

/-- The handling of a text message in the update loop of `main` (main.go
2342-2392); `text` is the trimmed text. -/
def handleMessage (bot : Bot) (env : ChatEnv) (userID : Int) (text : GoString) (w : World) :
    World :=
  let userState := getUserState w.userStates userID
  if text = str "/help" then { w with userStates := clearUserState w.userStates userID }
  else
    match userState with
    | some userState => handleUserStateInput bot env userID text userState w
    | none => w

/-- `handleCallbackQuery` (main.go 1594-1667).  `handleAccountInfoButton` and
`handleCheckOrderStatus` only read and send messages. -/
def handleCallbackQuery (bot : Bot) (env : ChatEnv) (userID chatID messageID : Int)
    (data : GoString) (w : World) : World :=
  if data = str "main_menu" then { w with userStates := clearUserState w.userStates userID }
  else if data = str "get_token" then handleGetTokenButton env userID messageID w
  else if data = str "account_info" then w
  else if data = str "use_key" then handleUseKeyButton env userID messageID w
  else if data = str "recharge" then handleRechargeButton env userID messageID w
  else if data = str "change_ip" then handleChangeIPButton env userID messageID w
  else if data = str "confirm_recharge" then handleConfirmRecharge env userID chatID messageID w
  else if data = str "confirm_change_ip" then
    handleConfirmChangeIP env userID chatID messageID w
  else if (str "check_order_").isPrefixOf data then w
  else if data = str "admin_menu" then w
  else if data = str "gen_key" then handleGenKeyButton bot userID messageID w
  else if data = str "confirm_gen_key" then handleConfirmGenKey bot env userID w
  else w

/-- What the program reacts to: a text message, a button, the expiry of the
message timer of a user, a `/verify` request, a `/notify` request. -/
inductive Event where
  | message (env : ChatEnv) (userID : Int) (text : GoString)
  | callback (env : ChatEnv) (userID chatID messageID : Int) (data : GoString)
  | timerExpired (userID : Int)
  | verify (db : VerifyDb) (req : Except String GoString) (clientIP : GoString) (now : Time)
  | notify (db : NotifyDb) (params : Params) (now : Time) (rnd : List Byte)

/-- The program handles one event. -/
def handleEvent (bot : Bot) (e : Event) (w : World) : World :=
  match e with
  | .message env userID text => handleMessage bot env userID text w
  | .callback env userID chatID messageID data =>
    handleCallbackQuery bot env userID chatID messageID data w
  | .timerExpired userID => { w with userStates := clearUserState w.userStates userID }
  | .verify db req clientIP now =>
    { w with store := (verifyHandler bot.lib db req clientIP now w.store).2 }
  | .notify db params now rnd =>
    { w with store := (notifyHandler bot.lib bot.cfg db params now rnd w.store).2 }

/-- The state after the events of `events`, handled in order. -/
def runEvents (bot : Bot) (events : List Event) (w : World) : World :=
  events.foldl (fun w e => handleEvent bot e w) w

/-! ## A run of the bot -/

/-- The stand-in bot: decimal numerals for `strconv.Atoi`, fifty units of
price per use. -/
def bot0 : Bot :=
  { lib := demoLib, cfg := cfg0,
    parseInt := fun s => (demoDigits s).map (fun n => (n : Int)),
    totalPrice := fun count => (50 * count).toNat, uniqueKeyCode := true }

/-- Surroundings in which everything works; the gateway answers with order
id `E1`. -/
def env0 (now : Time) : ChatEnv :=
  { now := now, rnd := rnd0, aesKey := true, query := true, insert := true, update := true,
    keyDb := KeyDb.up,
    epay := some { Code := 1, OrderID := str "E1", PayType := 1, ReallyPrice := 50 } }

/-- Administrator 1 issues a code of 20 units. -/
def mintRun : List Event :=
  [.callback (env0 1000000000) 1 10 1 (str "gen_key"),
   .message (env0 2000000000) 1 (str "20"),
   .callback (env0 3000000000) 1 10 1 (str "confirm_gen_key")]

/-- User 7, who is not an administrator, presses the same buttons. -/
def outsiderRun : List Event :=
  [.callback (env0 1000000000) 7 70 1 (str "gen_key"),
   .message (env0 2000000000) 7 (str "20"),
   .callback (env0 3000000000) 7 70 1 (str "confirm_gen_key")]

/-! ## Invariants of the conversation states -/

/-- What holds of an entry of `userStates`: the state `waiting_key_limit` is
held by administrators only, and a value under the key `limit` is positive
and held in that state only. -/
def EntryOk (cfg : Config) (e : Int × UserState) : Prop :=
  (e.2.State = str "waiting_key_limit" → isAdmin cfg e.1 = true) ∧
  (∀ n, e.2.Data.limit = some n → 0 < n ∧ e.2.State = str "waiting_key_limit")

/-- The invariant behind the issuance of credit codes: every conversation
state is as `EntryOk` says, and every call of `addKey` was made for an
administrator with a positive amount. -/
def MintInv (cfg : Config) (w : World) : Prop :=
  (∀ e ∈ w.userStates, EntryOk cfg e) ∧
  (∀ c ∈ w.addKeyCalls, isAdmin cfg c.2 = true ∧ 0 < c.1)

/-- The identities of the entitlement records, in table order. -/
def identities (st : Store) : List GoString :=
  st.users.map UserRecord.UserID

/-- No entry of `new` in state `waiting_ip` but for a user who is in that
state in `old`. -/
def NoNewWaiting (old new : UserStates) : Prop :=
  ∀ e ∈ new, e.2.State = str "waiting_ip" → ∃ s, (e.1, s) ∈ old ∧ s.State = str "waiting_ip"

/-- The step from `w` to `w2` inserts no record and asks no further user for
an origin. -/
def KeepsIssue (w w2 : World) : Prop :=
  identities w2.store = identities w.store ∧ NoNewWaiting w.userStates w2.userStates

/-! ## Codec lemmas -/

theorem fromHexChar_hexDigit (n : Nat) (h : n < 16) : fromHexChar (hexDigit n) = some n := by
  interval_cases n <;> rfl

theorem ofNat_val (n : Nat) : ((Fin.ofNat n : Byte)).val = n % 256 := rfl

theorem byte_recompose (b : Byte) : (Fin.ofNat (b.val / 16 * 16 + b.val % 16) : Byte) = b := by
  apply Fin.ext
  rw [ofNat_val]
  have := b.isLt
  omega

theorem hexDecode_hexEncode (bs : List Byte) : hexDecode (hexEncode bs) = some bs := by
  induction bs with
  | nil => rfl
  | cons b bs ih =>
    have h1 : b.val / 16 < 16 := by have := b.isLt; omega
    have h2 : b.val % 16 < 16 := by omega
    simp only [hexEncode, hexDecode, fromHexChar_hexDigit _ h1, fromHexChar_hexDigit _ h2, ih,
      byte_recompose]

theorem getUint64_putUint64 (n : Nat) (h : n < 18446744073709551616) :
    getUint64 (putUint64 n) = n := by
  simp only [getUint64, putUint64, List.foldl, ofNat_val]
  omega

theorem toInt64_toUint64 (x : Int) (h : IsInt64 x) : toInt64 (toUint64 x) = x := by
  unfold IsInt64 at h
  unfold toInt64 toUint64
  split <;> omega

theorem putUint64_length (n : Nat) : (putUint64 n).length = 8 := rfl


theorem generateDeterministicKey_eq (lib : Lib) (userID : GoString) (timestamp : Int) :
    generateDeterministicKey lib userID timestamp = .ok (derivedKey lib userID timestamp) := by
  unfold generateDeterministicKey derivedKey
  dsimp only
  generalize lib.md5 (userID ++ str "_" ++ decimal timestamp) = d
  obtain ⟨h, hlen⟩ := d
  have e1 : List.take 32 h = h := List.take_of_length_le (by omega)
  have e2 : List.take 16 h = h := List.take_of_length_le (by omega)
  simp [goCopy, hlen, e1, e2, List.take_append_of_le_length, List.drop_append_of_le_length]

theorem derivedKey_length (lib : Lib) (userID : GoString) (timestamp : Int) :
    (derivedKey lib userID timestamp).length = 32 := by
  unfold derivedKey
  simp [(lib.md5 (userID ++ str "_" ++ decimal timestamp)).property]

theorem aesKeySizeOk_derivedKey (lib : Lib) (userID : GoString) (timestamp : Int) :
    aesKeySizeOk (derivedKey lib userID timestamp) = true := by
  simp [aesKeySizeOk, derivedKey_length]

theorem frame_take8 (a0 a1 a2 a3 a4 a5 a6 a7 l : Byte) (rest : List Byte) :
    (([a0, a1, a2, a3, a4, a5, a6, a7] ++ [l]) ++ rest).take 8 = [a0, a1, a2, a3, a4, a5, a6, a7] := by
  rfl

theorem frame_getD8 (a0 a1 a2 a3 a4 a5 a6 a7 l : Byte) (rest : List Byte) :
    (([a0, a1, a2, a3, a4, a5, a6, a7] ++ [l]) ++ rest).getD 8 0 = l := by
  rfl

theorem frame_drop9 (a0 a1 a2 a3 a4 a5 a6 a7 l : Byte) (rest : List Byte) :
    (([a0, a1, a2, a3, a4, a5, a6, a7] ++ [l]) ++ rest).drop 9 = rest := by
  rfl

theorem sliceFrame_frame (t : Int) (u nonce ct : List Byte) (ht : IsInt64 t)
    (hu : u.length < 256) (hn : nonce.length = 12) :
    sliceFrame (putUint64 (toUint64 t) ++ [Fin.ofNat u.length] ++ u ++ nonce ++ ct)
      = .ok { timestamp := t, userID := u, nonce := nonce, ciphertext := ct } := by
  unfold sliceFrame
  have hl : ((Fin.ofNat u.length : Byte)).val = u.length := by
    rw [ofNat_val]; omega
  have hU : toUint64 t < 18446744073709551616 := by
    unfold toUint64; unfold IsInt64 at ht; omega
  have hts : toInt64 (getUint64 (putUint64 (toUint64 t))) = t := by
    rw [getUint64_putUint64 _ hU, toInt64_toUint64 _ ht]
  have hassoc : putUint64 (toUint64 t) ++ [Fin.ofNat u.length] ++ u ++ nonce ++ ct
      = (putUint64 (toUint64 t) ++ [Fin.ofNat u.length]) ++ (u ++ (nonce ++ ct)) := by
    simp [List.append_assoc]
  have hlen : (putUint64 (toUint64 t) ++ [Fin.ofNat u.length] ++ u ++ nonce ++ ct).length
      = 21 + u.length + ct.length := by
    simp [putUint64_length, hn]; omega
  have htake : ((putUint64 (toUint64 t) ++ [Fin.ofNat u.length]) ++ (u ++ (nonce ++ ct))).take 8
      = putUint64 (toUint64 t) := frame_take8 _ _ _ _ _ _ _ _ _ _
  have hget : ((putUint64 (toUint64 t) ++ [Fin.ofNat u.length]) ++ (u ++ (nonce ++ ct))).getD 8 0
      = Fin.ofNat u.length := frame_getD8 _ _ _ _ _ _ _ _ _ _
  have hdrop : ((putUint64 (toUint64 t) ++ [Fin.ofNat u.length]) ++ (u ++ (nonce ++ ct))).drop 9
      = u ++ (nonce ++ ct) := frame_drop9 _ _ _ _ _ _ _ _ _ _
  have hdropU : ((putUint64 (toUint64 t) ++ [Fin.ofNat u.length]) ++ (u ++ (nonce ++ ct))).drop
      (9 + u.length) = nonce ++ ct := by
    rw [← List.drop_drop, hdrop, List.drop_left]
  have hdropN : ((putUint64 (toUint64 t) ++ [Fin.ofNat u.length]) ++ (u ++ (nonce ++ ct))).drop
      (9 + u.length + 12) = ct := by
    rw [← List.drop_drop, hdropU, ← hn, List.drop_left]
  rw [hlen]
  dsimp only
  rw [hassoc, htake, hget, hl, hts, hdrop, hdropU, hdropN]
  have c1 : ¬ (21 + u.length + ct.length < 21) := by omega
  have c2 : ¬ (21 + u.length + ct.length < 9 + u.length + 12) := by omega
  have htk : List.take 12 (nonce ++ ct) = nonce := by
    rw [← hn]; exact List.take_left _ _
  simp only [c1, c2, if_false, List.take_left, htk]


/-- The frame written by `encryptPayload`. -/
theorem issue_eq (lib : Lib) (userID ip : GoString) (timestamp : Int) (rnd : List Byte)
    (hrnd : 12 ≤ rnd.length) :
    issue lib userID ip timestamp rnd =
      .ok (hexEncode (putUint64 (toUint64 timestamp) ++ [Fin.ofNat userID.length] ++ userID ++
        rnd.take 12 ++
        lib.gcmSeal (derivedKey lib userID timestamp) (rnd.take 12)
          (lib.jsonMarshal { UserID := userID, IP := ip, Timestamp := timestamp }))) := by
  unfold issue
  rw [generateDeterministicKey_eq]
  simp only [encryptPayload, aesKeySizeOk_derivedKey, generateNonce, hrnd, if_true,
    Bool.not_true, Bool.false_eq_true, if_false]

/-- Decoding of an issued token, given that the cipher opens what it sealed
and the JSON decoder inverts the encoder at this payload. -/
theorem decodeToken_issue (lib : Lib) (userID ip : GoString) (timestamp : Int)
    (rnd : List Byte) (token : GoString)
    (hid : userID.length ≤ 255) (hts : IsInt64 timestamp) (hrnd : 12 ≤ rnd.length)
    (hopen : lib.gcmOpen (derivedKey lib userID timestamp) (rnd.take 12)
        (lib.gcmSeal (derivedKey lib userID timestamp) (rnd.take 12)
          (lib.jsonMarshal { UserID := userID, IP := ip, Timestamp := timestamp }))
      = some (lib.jsonMarshal { UserID := userID, IP := ip, Timestamp := timestamp }))
    (hjson : lib.jsonUnmarshal (lib.jsonMarshal { UserID := userID, IP := ip, Timestamp := timestamp })
      = some { UserID := userID, IP := ip, Timestamp := timestamp })
    (hissue : issue lib userID ip timestamp rnd = .ok token) :
    decodeToken lib token =
      .ok ({ timestamp := timestamp, userID := userID, nonce := rnd.take 12,
             ciphertext := lib.gcmSeal (derivedKey lib userID timestamp) (rnd.take 12)
               (lib.jsonMarshal { UserID := userID, IP := ip, Timestamp := timestamp }) },
           { UserID := userID, IP := ip, Timestamp := timestamp }) := by
  rw [issue_eq lib userID ip timestamp rnd hrnd] at hissue
  injection hissue with hissue
  subst hissue
  have hn : (rnd.take 12).length = 12 := by simp [List.length_take]; omega
  unfold decodeToken parseFrame
  rw [hexDecode_hexEncode]
  simp only [sliceFrame_frame timestamp userID (rnd.take 12) _ hts (by omega) hn,
    generateDeterministicKey_eq, aesKeySizeOk_derivedKey, hopen, hjson, Bool.not_true,
    Bool.false_eq_true, if_false]

/-- A decoded frame carries an identity shorter than 256 bytes. -/
theorem sliceFrame_userID_length (data : List Byte) (f : Frame)
    (h : sliceFrame data = .ok f) : f.userID.length < 256 := by
  unfold sliceFrame at h
  split at h
  · cases h
  · dsimp only at h
    split at h
    · cases h
    · injection h with h
      subst h
      have := (data.getD 8 0).isLt
      simp only [List.length_take]
      omega

/-! ## Verification lemmas -/

theorem parseFrame_error_of_hexDecode_none (token : GoString) (h : hexDecode token = none) :
    parseFrame token = .error .hexDecode := by
  unfold parseFrame; rw [h]

theorem decodeToken_parseFrame (lib : Lib) (token : GoString) (f : Frame) (p : Payload)
    (h : decodeToken lib token = .ok (f, p)) : parseFrame token = .ok f := by
  unfold decodeToken at h
  split at h
  · cases h
  · rename_i f' hf
    rw [generateDeterministicKey_eq] at h
    dsimp only at h
    split at h
    · cases h
    · split at h
      · cases h
      · split at h
        · cases h
        · injection h with h
          injection h with h1 h2
          subst h1
          exact hf

theorem hexDecode_isNone_of_decodeToken (lib : Lib) (token : GoString) (f : Frame) (p : Payload)
    (h : decodeToken lib token = .ok (f, p)) : (hexDecode token).isNone = false := by
  have hf := decodeToken_parseFrame lib token f p h
  cases hd : hexDecode token with
  | none => rw [parseFrame_error_of_hexDecode_none token hd] at hf; cases hf
  | some d => rfl

theorem find_record (users : List UserRecord) (r : UserRecord) (hr : r ∈ users)
    (huniq : (users.map UserRecord.UserID).Nodup) :
    users.find? (fun record => record.UserID == r.UserID && record.Timestamp == r.Timestamp)
      = some r := by
  cases h : users.find? (fun record => record.UserID == r.UserID && record.Timestamp == r.Timestamp) with
  | none =>
    have := List.find?_eq_none.mp h r hr
    simp at this
  | some x =>
    have hx := List.find?_some h
    have hmem := List.mem_of_find?_eq_some h
    simp only [Bool.and_eq_true, beq_iff_eq] at hx
    rw [List.inj_on_of_nodup_map huniq hmem hr hx.1]

theorem verifyHandler_of_decoded (lib : Lib) (db : VerifyDb) (token clientIP : GoString)
    (now : Time) (st : Store) (f : Frame) (p : Payload) (record : UserRecord)
    (hload : db.load = true)
    (hpub : isValidPublicIP lib clientIP = true)
    (hdec : decodeToken lib token = .ok (f, p)) (hip : p.IP = clientIP)
    (hfind : st.users.find? (fun record =>
      record.UserID == f.userID && record.Timestamp == f.timestamp) = some record) :
    verifyHandler lib db (.ok token) clientIP now st =
      if record.Limit ≤ 0 then
        (⟨403, { Success := false, Message := "使用次数不足",
                 UserID := record.UserID, Limit := 0 }⟩, st)
      else
        match updateUserLimit db.update st record.UserID (-1) now with
        | .error _ =>
          (⟨500, { Success := false, Message := "系统错误", UserID := [], Limit := 0 }⟩, st)
        | .ok st1 =>
          (⟨200, { Success := true, Message := "验证成功",
                   UserID := record.UserID, Limit := record.Limit - 1 }⟩, st1) := by
  have hhex := hexDecode_isNone_of_decodeToken lib token f p hdec
  have hv : decryptAndValidateToken lib db.load st token clientIP
      = { payload := some p, record := some record, err := none } := by
    unfold decryptAndValidateToken loadDatabase
    rw [hdec]
    simp only [hip, ne_eq, not_true_eq_false, if_false, hload, if_true, hfind]
  unfold verifyHandler
  simp only [hpub, hhex, hv, Bool.not_true, Bool.false_eq_true, if_false]

theorem decryptAndValidateToken_of_error (lib : Lib) (up : Bool) (st : Store)
    (token clientIP : GoString) (e : TokenError) (h : decodeToken lib token = .error e) :
    decryptAndValidateToken lib up st token clientIP =
      { payload := none, record := none, err := some e } := by
  unfold decryptAndValidateToken
  rw [h]

/-- A nil error comes with a payload and a record. -/
theorem decryptAndValidateToken_record (lib : Lib) (up : Bool) (st : Store)
    (token clientIP : GoString)
    (h : (decryptAndValidateToken lib up st token clientIP).err = none) :
    (decryptAndValidateToken lib up st token clientIP).record ≠ none ∧
    (decryptAndValidateToken lib up st token clientIP).payload ≠ none := by
  unfold decryptAndValidateToken at h ⊢
  split
  · rename_i e he
    rw [he] at h
    simp at h
  · rename_i f payload he
    rw [he] at h
    dsimp only at h ⊢
    split
    · rename_i hne
      simp [hne] at h
    · rename_i hne
      simp only [hne, if_false] at h
      split
      · rename_i e hl
        rw [hl] at h
        simp at h
      · rename_i records hl
        rw [hl] at h
        dsimp only at h ⊢
        split
        · simp
        · rename_i hf
          rw [hf] at h
          simp at h

theorem verifyHandler_of_error (lib : Lib) (db : VerifyDb) (token clientIP : GoString)
    (now : Time) (st : Store) (e : TokenError)
    (h : decryptAndValidateToken lib db.load st token clientIP =
      { payload := none, record := none, err := some e }) :
    (verifyHandler lib db (.ok token) clientIP now st).2 = st ∧
    (verifyHandler lib db (.ok token) clientIP now st).1.body.Success = false ∧
    ((verifyHandler lib db (.ok token) clientIP now st).1.status = 400 ∨
      (verifyHandler lib db (.ok token) clientIP now st).1.status = 401) := by
  unfold verifyHandler
  cases hpub : isValidPublicIP lib clientIP <;> cases hhex : hexDecode token <;>
    simp [h, hhex]

/-! ## Webhook lemmas -/

theorem requiredParams_any (params : Params) :
    requiredParams.any (fun param => !params.has param) = false ↔
      ∀ k ∈ [str "mchId", str "orderId", str "type", str "price", str "reallyPrice", str "sign"],
        (params.lookup k).isSome = true := by
  simp [requiredParams, Params.has]

theorem notifyHandler_admitted (lib : Lib) (cfg : Config) (db : NotifyDb) (params : Params)
    (now : Time) (rnd : List Byte) (st : Store)
    (h1 : requiredParams.any (fun param => !params.has param) = false)
    (h2 : params.get (str "mchId") = cfg.MchID)
    (h3 : params.get (str "sign") = generateMD5 lib (signString cfg params)) :
    (notifyHandler lib cfg db params now rnd st).1.status ≠ 400 ∧
    ((notifyHandler lib cfg db params now rnd st).1.status = 404 ↔
      resolveOrder db st params = none) := by
  unfold notifyHandler
  simp only [h1, h2, h3, Bool.false_eq_true, if_false, ne_eq, not_true_eq_false]
  cases hres : resolveOrder db st params with
  | none => simp
  | some order =>
    dsimp only
    split
    · simp
    · split
      · simp
      · split
        · split <;> simp
        · split <;> simp

theorem notifyHandler_paid (lib : Lib) (cfg : Config) (db : NotifyDb) (params : Params)
    (now : Time) (rnd : List Byte) (st : Store) (order : Order)
    (h1 : requiredParams.any (fun param => !params.has param) = false)
    (h2 : params.get (str "mchId") = cfg.MchID)
    (h3 : params.get (str "sign") = generateMD5 lib (signString cfg params))
    (hres : resolveOrder db st params = some order) (hpaid : order.Status = str "paid") :
    notifyHandler lib cfg db params now rnd st = (⟨200, "success"⟩, st) := by
  unfold notifyHandler
  simp only [h1, h2, h3, hres, hpaid, Bool.false_eq_true, if_false, ne_eq, not_true_eq_false,
    if_true]

/-! ## Tamper lemmas -/

theorem fromHexChar_lt (c : Byte) (v : Nat) (h : fromHexChar c = some v) : v < 16 := by
  unfold fromHexChar at h
  split at h
  · injection h with h; omega
  · split at h
    · injection h with h; omega
    · split at h
      · injection h with h; omega
      · cases h

theorem hexEncode_length (bs : List Byte) : (hexEncode bs).length = 2 * bs.length := by
  induction bs with
  | nil => rfl
  | cons b bs ih => simp only [hexEncode, List.length_cons, ih]; omega

theorem hexEncode_getD (bs : List Byte) (i : Nat) (hi : i < 2 * bs.length) :
    (hexEncode bs).getD i 0 = hexDigit (nibble (bs.getD (i / 2) 0) (i % 2)) := by
  induction bs generalizing i with
  | nil => simp at hi
  | cons b bs ih =>
    match i with
    | 0 => rfl
    | 1 => rfl
    | k + 2 =>
      have hk : k < 2 * bs.length := by simp only [List.length_cons] at hi; omega
      have e1 : (k + 2) / 2 = k / 2 + 1 := by omega
      have e2 : (k + 2) % 2 = k % 2 := by omega
      simp only [hexEncode, e1, e2, List.getD_cons_succ]
      exact ih k hk

theorem hexDecode_set_some (bs : List Byte) (i : Nat) (ch : Byte) (v : Nat)
    (hi : i < 2 * bs.length) (hv : fromHexChar ch = some v) :
    hexDecode ((hexEncode bs).set i ch) =
      some (bs.set (i / 2) (setNibble (bs.getD (i / 2) 0) (i % 2) v)) := by
  induction bs generalizing i with
  | nil => simp at hi
  | cons b bs ih =>
    have h1 : b.val / 16 < 16 := by have := b.isLt; omega
    have h2 : b.val % 16 < 16 := by omega
    match i with
    | 0 =>
      simp only [hexEncode, List.set_cons_zero, hexDecode, hv, fromHexChar_hexDigit _ h2,
        hexDecode_hexEncode]
      rfl
    | 1 =>
      simp only [hexEncode, List.set_cons_succ, List.set_cons_zero, hexDecode, hv,
        fromHexChar_hexDigit _ h1, hexDecode_hexEncode]
      rfl
    | k + 2 =>
      have hk : k < 2 * bs.length := by simp only [List.length_cons] at hi; omega
      have e1 : (k + 2) / 2 = k / 2 + 1 := by omega
      have e2 : (k + 2) % 2 = k % 2 := by omega
      simp only [hexEncode, List.set_cons_succ, hexDecode, fromHexChar_hexDigit _ h1,
        fromHexChar_hexDigit _ h2, ih k hk, e1, e2, List.getD_cons_succ, byte_recompose]

theorem hexDecode_set_none (bs : List Byte) (i : Nat) (ch : Byte)
    (hi : i < 2 * bs.length) (hv : fromHexChar ch = none) :
    hexDecode ((hexEncode bs).set i ch) = none := by
  induction bs generalizing i with
  | nil => simp at hi
  | cons b bs ih =>
    have h1 : b.val / 16 < 16 := by have := b.isLt; omega
    have h2 : b.val % 16 < 16 := by omega
    match i with
    | 0 =>
      simp only [hexEncode, List.set_cons_zero, hexDecode, hv]
    | 1 =>
      simp only [hexEncode, List.set_cons_succ, List.set_cons_zero, hexDecode, hv,
        fromHexChar_hexDigit _ h1]
    | k + 2 =>
      have hk : k < 2 * bs.length := by simp only [List.length_cons] at hi; omega
      simp only [hexEncode, List.set_cons_succ, hexDecode, fromHexChar_hexDigit _ h1,
        fromHexChar_hexDigit _ h2, ih k hk]

theorem setNibble_ne (b : Byte) (k v : Nat) (hv : v < 16) (hne : v ≠ nibble b k) :
    setNibble b k v ≠ b := by
  intro h
  have hval := congrArg Fin.val h
  unfold setNibble at hval
  unfold nibble at hne
  have := b.isLt
  split at hval
  · rename_i h0
    simp only [h0, if_true] at hne
    rw [ofNat_val] at hval
    omega
  · rename_i h0
    simp only [h0, if_false] at hne
    rw [ofNat_val] at hval
    omega


theorem decodeToken_tampered (lib : Lib) (userID ip : GoString) (timestamp : Int)
    (rnd : List Byte) (token : GoString) (i : Nat) (ch : Byte)
    (hid : userID.length ≤ 255) (hts : IsInt64 timestamp) (hrnd : 12 ≤ rnd.length)
    (hissue : issue lib userID ip timestamp rnd = .ok token)
    (hlo : 2 * (8 + 1 + userID.length + 12) ≤ i) (hhi : i < token.length)
    (hch : fromHexChar ch ≠ fromHexChar (token.getD i 0))
    (hrej : ∀ j, j < (lib.gcmSeal (derivedKey lib userID timestamp) (rnd.take 12)
          (lib.jsonMarshal { UserID := userID, IP := ip, Timestamp := timestamp })).length →
        ∀ b : Byte, b ≠ (lib.gcmSeal (derivedKey lib userID timestamp) (rnd.take 12)
          (lib.jsonMarshal { UserID := userID, IP := ip, Timestamp := timestamp })).getD j 0 →
        lib.gcmOpen (derivedKey lib userID timestamp) (rnd.take 12)
          ((lib.gcmSeal (derivedKey lib userID timestamp) (rnd.take 12)
            (lib.jsonMarshal { UserID := userID, IP := ip, Timestamp := timestamp })).set j b) = none) :
    decodeToken lib (token.set i ch) =
      .error (if (fromHexChar ch).isSome then .decrypt else .hexDecode) ∧
    (hexDecode (token.set i ch)).isNone = !(fromHexChar ch).isSome := by
  rw [issue_eq lib userID ip timestamp rnd hrnd] at hissue
  injection hissue with hissue
  subst hissue
  generalize hct : lib.gcmSeal (derivedKey lib userID timestamp) (rnd.take 12)
    (lib.jsonMarshal { UserID := userID, IP := ip, Timestamp := timestamp }) = ct at *
  have hn : (rnd.take 12).length = 12 := by simp [List.length_take]; omega
  generalize hnonce : rnd.take 12 = nonce at *
  have hhdr : (putUint64 (toUint64 timestamp) ++ [Fin.ofNat userID.length] ++ userID ++ nonce).length
      = 21 + userID.length := by
    simp [putUint64_length, hn]; omega
  generalize hH : putUint64 (toUint64 timestamp) ++ [Fin.ofNat userID.length] ++ userID ++ nonce
    = hdr at *
  rw [hexEncode_length, List.length_append] at hhi
  have hi2 : i < 2 * (hdr ++ ct).length := by rw [List.length_append]; exact hhi
  have hj : hdr.length ≤ i / 2 := by omega
  have hj2 : i / 2 - hdr.length < ct.length := by omega
  have hget : (hdr ++ ct).getD (i / 2) 0 = ct.getD (i / 2 - hdr.length) 0 := by
    rw [List.getD_append_right _ _ _ _ hj]
  cases hv : fromHexChar ch with
  | none =>
    have := hexDecode_set_none (hdr ++ ct) i ch hi2 hv
    simp [decodeToken, parseFrame, this]
  | some v =>
    have hdecode := hexDecode_set_some (hdr ++ ct) i ch v hi2 hv
    have hv16 := fromHexChar_lt ch v hv
    have hnib : v ≠ nibble ((hdr ++ ct).getD (i / 2) 0) (i % 2) := by
      intro heq
      apply hch
      rw [hv, hexEncode_getD _ i hi2, heq]
      have : nibble ((hdr ++ ct).getD (i / 2) 0) (i % 2) < 16 := by
        unfold nibble
        have := ((hdr ++ ct).getD (i / 2) 0).isLt
        split <;> omega
      rw [fromHexChar_hexDigit _ this]
    have hb := setNibble_ne ((hdr ++ ct).getD (i / 2) 0) (i % 2) v hv16 hnib
    have hset : (hdr ++ ct).set (i / 2) (setNibble ((hdr ++ ct).getD (i / 2) 0) (i % 2) v)
        = hdr ++ ct.set (i / 2 - hdr.length) (setNibble ((hdr ++ ct).getD (i / 2) 0) (i % 2) v) := by
      rw [List.set_append]
      have : ¬ i / 2 < hdr.length := by omega
      simp only [this, if_false]
    rw [hget] at hb
    have hopen := hrej _ hj2 _ hb
    rw [← hget] at hopen
    constructor
    · unfold decodeToken parseFrame
      rw [hdecode, hset, ← hH]
      simp only [sliceFrame_frame timestamp userID nonce _ hts (by omega) hn,
        generateDeterministicKey_eq, aesKeySizeOk_derivedKey, Bool.not_true,
        Bool.false_eq_true, if_false]
      rw [hH, hopen]
      simp
    · rw [hdecode]; simp

theorem byteSum_set (l : List Byte) (j : Nat) (b : Byte) (hj : j < l.length) :
    byteSum (l.set j b) + (l.getD j 0).val = byteSum l + b.val := by
  induction l generalizing j with
  | nil => simp at hj
  | cons a l ih =>
    match j with
    | 0 => simp [byteSum]; omega
    | k + 1 =>
      have hk : k < l.length := by simpa using hj
      have := ih k hk
      simp only [byteSum, List.set_cons_succ, List.map_cons, List.sum_cons,
        List.getD_cons_succ] at this ⊢
      omega

theorem demoTag_length (key nonce body : List Byte) : (demoTag key nonce body).length = 16 := by
  simp [demoTag]

theorem demoTag_head (key nonce body : List Byte) :
    (demoTag key nonce body).getD 0 0 =
      Fin.ofNat (byteSum key + 3 * byteSum nonce + 5 * byteSum body + body.length + 0) := by
  rfl

theorem demoTag_set_ne (key nonce body : List Byte) (j : Nat) (b : Byte) (hj : j < body.length)
    (hb : b ≠ body.getD j 0) :
    demoTag key nonce body ≠ demoTag key nonce (body.set j b) := by
  intro h
  have h0 := congrArg (fun l => (l.getD 0 0).val) h
  simp only [demoTag_head, ofNat_val, List.length_set] at h0
  have hs := byteSum_set body j b hj
  have hne : b.val ≠ (body.getD j 0).val := fun e => hb (Fin.ext e)
  have := b.isLt
  have := (body.getD j 0).isLt
  omega

theorem demoOpen_set_none (key nonce pt : List Byte) (j : Nat) (b : Byte)
    (hj : j < (demoSeal key nonce pt).length) (hb : b ≠ (demoSeal key nonce pt).getD j 0) :
    demoOpen key nonce ((demoSeal key nonce pt).set j b) = none := by
  unfold demoSeal at hj hb ⊢
  dsimp only at hj hb ⊢
  generalize pt.map (fun b => (Fin.ofNat (Nat.xor b.val (key.headD 0).val) : Byte)) = body at *
  have htl := demoTag_length key nonce body
  rw [List.length_append, htl] at hj
  unfold demoOpen
  have hlen : ((body ++ demoTag key nonce body).set j b).length = body.length + 16 := by
    simp [htl]
  rw [hlen]
  have h16 : ¬ body.length + 16 < 16 := by omega
  have hsub : body.length + 16 - 16 = body.length := by omega
  simp only [h16, if_false, hsub]
  by_cases hjb : j < body.length
  · have hset : (body ++ demoTag key nonce body).set j b = body.set j b ++ demoTag key nonce body := by
      rw [List.set_append]; simp [hjb]
    have hlb : (body.set j b).length = body.length := by simp
    rw [List.getD_append _ _ _ _ hjb] at hb
    rw [hset]
    have ht : List.take body.length (body.set j b ++ demoTag key nonce body) = body.set j b := by
      rw [← hlb]; exact List.take_left _ _
    have hd : List.drop body.length (body.set j b ++ demoTag key nonce body)
        = demoTag key nonce body := by
      rw [← hlb]; exact List.drop_left _ _
    rw [ht, hd]
    simp only [demoTag_set_ne key nonce body j b hjb hb, if_false]
  · have hjb' : body.length ≤ j := by omega
    have hset : (body ++ demoTag key nonce body).set j b
        = body ++ (demoTag key nonce body).set (j - body.length) b := by
      rw [List.set_append]; simp [hjb]
    rw [List.getD_append_right _ _ _ _ hjb'] at hb
    rw [hset, List.take_left, List.drop_left]
    have hne : (demoTag key nonce body).set (j - body.length) b ≠ demoTag key nonce body := by
      intro h
      have h1 := congrArg (fun l => l.getD (j - body.length) 0) h
      simp only at h1
      rw [List.getD_eq_getElem _ _ (by simp [htl]; omega), List.getElem_set_self] at h1
      exact hb h1
    simp only [hne, if_false]

/-! ## C1: round trip of the token codec -/

/-- C1 (amended): for every identity of at most 255 bytes, every origin and
every issuance time, `issue` returns a token whenever the random source
delivers the twelve nonce bytes, and decoding that token (frame parse, key
re-derivation, AEAD open, JSON decode) yields the identity and the issuance
time in the clear header and the payload `(identity, origin, issuance_time)`,
given that AEAD open inverts seal and JSON decode inverts JSON encode at this
payload. -/
theorem issue_decode_roundtrip (lib : Lib) (userID ip : GoString) (timestamp : Int)
    (rnd : List Byte)
    (hid : userID.length ≤ 255) (hts : IsInt64 timestamp) (hrnd : 12 ≤ rnd.length)
    (hopen : lib.gcmOpen (derivedKey lib userID timestamp) (rnd.take 12)
        (lib.gcmSeal (derivedKey lib userID timestamp) (rnd.take 12)
          (lib.jsonMarshal { UserID := userID, IP := ip, Timestamp := timestamp }))
      = some (lib.jsonMarshal { UserID := userID, IP := ip, Timestamp := timestamp }))
    (hjson : lib.jsonUnmarshal (lib.jsonMarshal { UserID := userID, IP := ip, Timestamp := timestamp })
      = some { UserID := userID, IP := ip, Timestamp := timestamp }) :
    ∃ token, issue lib userID ip timestamp rnd = .ok token ∧
      ∃ f, decodeToken lib token = .ok (f, { UserID := userID, IP := ip, Timestamp := timestamp }) ∧
        f.userID = userID ∧ f.timestamp = timestamp := by
  exact ⟨_, issue_eq lib userID ip timestamp rnd hrnd, _,
    decodeToken_issue lib userID ip timestamp rnd _ hid hts hrnd hopen hjson
      (issue_eq lib userID ip timestamp rnd hrnd), rfl, rfl⟩

set_option maxRecDepth 100000 in
/-- Witness of C1: identity `"42"`, origin `"203.0.113.9"`, time
`1700000000000`. -/
theorem issue_decode_roundtrip_witness :
    ∃ token, issue demoLib id42 origin0 ts0 rnd0 = .ok token ∧
      ∃ f, decodeToken demoLib token = .ok (f, { UserID := id42, IP := origin0, Timestamp := ts0 }) ∧
        f.userID = id42 ∧ f.timestamp = ts0 :=
  issue_decode_roundtrip demoLib id42 origin0 ts0 rnd0 (by decide) (by decide) (by decide)
    (by decide) (by decide)

set_option maxRecDepth 100000 in
/-- C1 as stated fails for an identity of 256 bytes: the length byte of the
frame wraps to 0, so the header read back names the empty identity, the key
re-derived from it is another key and decoding ends in the decryption error,
although open inverts seal and JSON decode inverts JSON encode at this
payload. -/
theorem roundtrip_fails_for_long_identity :
    demoLib.gcmOpen (derivedKey demoLib longID ts0) (rnd0.take 12)
        (demoLib.gcmSeal (derivedKey demoLib longID ts0) (rnd0.take 12)
          (demoLib.jsonMarshal { UserID := longID, IP := origin0, Timestamp := ts0 }))
      = some (demoLib.jsonMarshal { UserID := longID, IP := origin0, Timestamp := ts0 }) ∧
    demoLib.jsonUnmarshal (demoLib.jsonMarshal { UserID := longID, IP := origin0, Timestamp := ts0 })
      = some { UserID := longID, IP := origin0, Timestamp := ts0 } ∧
    ∃ token, issue demoLib longID origin0 ts0 rnd0 = .ok token ∧
      parseFrame token = .ok { timestamp := ts0, userID := [], nonce := longID.take 12,
                               ciphertext := longID.drop 12 ++ rnd0 ++
                                 demoLib.gcmSeal (derivedKey demoLib longID ts0) rnd0
                                   (demoLib.jsonMarshal { UserID := longID, IP := origin0, Timestamp := ts0 }) } ∧
      decodeToken demoLib token = .error .decrypt :=
  ⟨by decide, by decide, _, issue_eq demoLib longID origin0 ts0 rnd0 (by decide), by decide,
    by decide⟩

/-! ## C2: successful verification -/

/-- C3: for every token that decodes and decrypts to a payload with origin
`o` and every request origin `o'` other than `o`, `decryptAndValidateToken`
returns the origin-mismatch error whatever the store holds and whether or not
the database answers, and `verifyHandler` refuses (401, or 400 when `o'` is
not a public address) and leaves the store as it was. -/
theorem origin_mismatch_rejected (lib : Lib) (db : VerifyDb) (token o o' : GoString)
    (now : Time) (st : Store) (f : Frame) (p : Payload)
    (hdec : decodeToken lib token = .ok (f, p)) (hpo : p.IP = o) (hne : o' ≠ o) :
    (∀ up store, decryptAndValidateToken lib up store token o' =
      { payload := none, record := none, err := some (.ipMismatch o o') }) ∧
    (verifyHandler lib db (.ok token) o' now st).2 = st ∧
    (verifyHandler lib db (.ok token) o' now st).1.body.Success = false ∧
    (verifyHandler lib db (.ok token) o' now st).1.status =
      if isValidPublicIP lib o' then 401 else 400 := by
  have hv : ∀ up store, decryptAndValidateToken lib up store token o' =
      { payload := none, record := none, err := some (.ipMismatch o o') } := by
    intro up store
    subst hpo
    unfold decryptAndValidateToken
    rw [hdec]
    have : p.IP ≠ o' := fun h => hne h.symm
    simp only [ne_eq, this, not_false_eq_true, if_true]
  have hhex := hexDecode_isNone_of_decodeToken lib token f p hdec
  refine ⟨hv, ?_, ?_, ?_⟩ <;>
    · unfold verifyHandler
      cases hpub : isValidPublicIP lib o' <;>
        simp [hhex, hv]

set_option maxRecDepth 100000 in
/-- Witness of C3: the token issued for `"203.0.113.9"` presented from
`"198.51.100.7"`. -/
theorem origin_mismatch_rejected_witness :
    (∀ up store, decryptAndValidateToken demoLib up store token42 (str "198.51.100.7") =
      { payload := none, record := none,
        err := some (.ipMismatch origin0 (str "198.51.100.7")) }) ∧
    (verifyHandler demoLib VerifyDb.up (.ok token42) (str "198.51.100.7") 5
      (storeOf id42 3)).2 = storeOf id42 3 ∧
    (verifyHandler demoLib VerifyDb.up (.ok token42) (str "198.51.100.7") 5
      (storeOf id42 3)).1.body.Success = false ∧
    (verifyHandler demoLib VerifyDb.up (.ok token42) (str "198.51.100.7") 5
      (storeOf id42 3)).1.status =
      if isValidPublicIP demoLib (str "198.51.100.7") then 401 else 400 :=
  origin_mismatch_rejected demoLib VerifyDb.up token42 origin0 (str "198.51.100.7") 5
    (storeOf id42 3)
    { timestamp := ts0, userID := id42, nonce := rnd0,
      ciphertext := demoSeal (derivedKey demoLib id42 ts0) rnd0
        (demoMarshal { UserID := id42, IP := origin0, Timestamp := ts0 }) }
    { UserID := id42, IP := origin0, Timestamp := ts0 }
    (by decide) (by decide) (by decide)

/-! ## C4: credit exhaustion -/

/-- The value that the handler hands to `c.JSON` for an exhausted record: for
every token and request origin that pass the boundary check, decoding,
decryption, the origin check and the record lookup, if the matched record has
remaining credit at most 0 then the status is 403, the value holds the
identity and `Limit` 0, and the store is left unchanged. -/
theorem credit_exhausted (lib : Lib) (db : VerifyDb) (token clientIP : GoString)
    (now : Time) (st : Store) (f : Frame) (p : Payload) (record : UserRecord)
    (hload : db.load = true)
    (hpub : isValidPublicIP lib clientIP = true)
    (hdec : decodeToken lib token = .ok (f, p)) (hip : p.IP = clientIP)
    (hfind : st.users.find? (fun record =>
      record.UserID == f.userID && record.Timestamp == f.timestamp) = some record)
    (hc : record.Limit ≤ 0) :
    verifyHandler lib db (.ok token) clientIP now st =
      (⟨403, { Success := false, Message := "使用次数不足", UserID := f.userID, Limit := 0 }⟩, st) := by
  rw [verifyHandler_of_decoded lib db token clientIP now st f p record hload hpub hdec hip hfind]
  have hx := List.find?_some hfind
  simp only [Bool.and_eq_true, beq_iff_eq] at hx
  simp only [hc, if_true, hx.1]

set_option maxRecDepth 100000 in
/-- The token of `"42"` against a record with credit 0. -/
theorem credit_exhausted_witness :
    verifyHandler demoLib VerifyDb.up (.ok token42) origin0 5 (storeOf id42 0) =
      (⟨403, { Success := false, Message := "使用次数不足", UserID := id42, Limit := 0 }⟩,
        storeOf id42 0) :=
  credit_exhausted demoLib VerifyDb.up token42 origin0 5 (storeOf id42 0)
    { timestamp := ts0, userID := id42, nonce := rnd0,
      ciphertext := demoSeal (derivedKey demoLib id42 ts0) rnd0
        (demoMarshal { UserID := id42, IP := origin0, Timestamp := ts0 }) }
    { UserID := id42, IP := origin0, Timestamp := ts0 } (userRow id42 0)
    (by decide) (by decide) (by decide) (by decide) (by decide) (by decide)

/-- The body of the answer to an exhausted record has no member `limit`. -/
theorem credit_exhausted_body (lib : Lib) (db : VerifyDb) (token clientIP : GoString)
    (now : Time) (st : Store) (f : Frame) (p : Payload) (record : UserRecord)
    (hload : db.load = true)
    (hpub : isValidPublicIP lib clientIP = true)
    (hdec : decodeToken lib token = .ok (f, p)) (hip : p.IP = clientIP)
    (hfind : st.users.find? (fun record =>
      record.UserID == f.userID && record.Timestamp == f.timestamp) = some record)
    (hc : record.Limit ≤ 0) :
    (verifyHandler lib db (.ok token) clientIP now st).1.status = 403 ∧
    (marshalVerifyResponse (verifyHandler lib db (.ok token) clientIP now st).1.body).lookup
      "limit" = none := by
  rw [verifyHandler_of_decoded lib db token clientIP now st f p record hload hpub hdec hip hfind]
  simp only [hc, if_true]
  refine ⟨trivial, ?_⟩
  unfold marshalVerifyResponse
  dsimp only
  by_cases hu : record.UserID = []
  · rw [if_pos hu]; rfl
  · rw [if_neg hu]; rfl

set_option maxRecDepth 100000 in
/-- C4: the token of `"42"`, presented from its origin against the record of
`"42"` with credit 0, is answered 403 and the store is left as it is, but the
body that is written carries the members `success`, `message` and `user_id`
only: the remaining credit 0 that the handler sets is dropped by `omitempty`,
so the answer carries no remaining credit. -/
theorem exhausted_reply_without_limit :
    (verifyHandler demoLib VerifyDb.up (.ok token42) origin0 5 (storeOf id42 0)).1.status = 403 ∧
    (verifyHandler demoLib VerifyDb.up (.ok token42) origin0 5 (storeOf id42 0)).1.body.Limit = 0 ∧
    (verifyHandler demoLib VerifyDb.up (.ok token42) origin0 5 (storeOf id42 0)).2
      = storeOf id42 0 ∧
    marshalVerifyResponse
        (verifyHandler demoLib VerifyDb.up (.ok token42) origin0 5 (storeOf id42 0)).1.body =
      [("success", .bool false), ("message", .text "使用次数不足"),
       ("user_id", .string (str "42"))] ∧
    (marshalVerifyResponse
        (verifyHandler demoLib VerifyDb.up (.ok token42) origin0 5 (storeOf id42 0)).1.body).lookup
      "limit" = none := by
  decide

/-! ## C5: fail closed -/

/-- C5: for every token string that is not valid hex, or whose decoded frame
is shorter than 21 bytes or shorter than 9 + identity length + 12 bytes, or
whose AEAD open fails under the key re-derived from the clear header,
`decryptAndValidateToken` returns an error together with no payload and no
record, whatever the store holds, and `verifyHandler` refuses and changes
nothing in the store. -/
theorem fail_closed (lib : Lib) (db : VerifyDb) (token clientIP : GoString) (now : Time)
    (st : Store)
    (h : hexDecode token = none ∨
      (∃ data, hexDecode token = some data ∧
        (data.length < 21 ∨ data.length < 9 + (data.getD 8 0).val + 12)) ∨
      (∃ f, parseFrame token = .ok f ∧
        lib.gcmOpen (derivedKey lib f.userID f.timestamp) f.nonce f.ciphertext = none)) :
    (∀ up store, ∃ e, decryptAndValidateToken lib up store token clientIP =
        { payload := none, record := none, err := some e } ∧
        (e = .hexDecode ∨ e = .tooShort ∨ e = .badFormat ∨ e = .decrypt)) ∧
    (verifyHandler lib db (.ok token) clientIP now st).2 = st ∧
    (verifyHandler lib db (.ok token) clientIP now st).1.body.Success = false ∧
    ((verifyHandler lib db (.ok token) clientIP now st).1.status = 400 ∨
      (verifyHandler lib db (.ok token) clientIP now st).1.status = 401) := by
  have hdec : ∃ e, decodeToken lib token = .error e ∧
      (e = .hexDecode ∨ e = .tooShort ∨ e = .badFormat ∨ e = .decrypt) := by
    rcases h with h | ⟨data, hd, hlen⟩ | ⟨f, hf, hopen⟩
    · exact ⟨.hexDecode, by simp [decodeToken, parseFrame, h], Or.inl rfl⟩
    · by_cases h21 : data.length < 21
      · refine ⟨.tooShort, ?_, Or.inr (Or.inl rfl)⟩
        unfold decodeToken parseFrame sliceFrame
        simp only [hd, h21, if_true]
      · have h2 : data.length < 9 + (data.getD 8 0).val + 12 := by
          rcases hlen with h | h
          · exact absurd h h21
          · exact h
        refine ⟨.badFormat, ?_, Or.inr (Or.inr (Or.inl rfl))⟩
        unfold decodeToken parseFrame sliceFrame
        simp only [hd, h21, h2, if_true, if_false]
    · refine ⟨.decrypt, ?_, Or.inr (Or.inr (Or.inr rfl))⟩
      unfold decodeToken
      rw [hf]
      simp only [generateDeterministicKey_eq, aesKeySizeOk_derivedKey, hopen, Bool.not_true,
        Bool.false_eq_true, if_false]
  obtain ⟨e, he, hkind⟩ := hdec
  exact ⟨fun up store =>
      ⟨e, decryptAndValidateToken_of_error lib up store token clientIP e he, hkind⟩,
    verifyHandler_of_error lib db token clientIP now st e
      (decryptAndValidateToken_of_error lib db.load st token clientIP e he)⟩

set_option maxRecDepth 100000 in
/-- Witness of C5: the string `0g`, which is not valid hex. -/
theorem fail_closed_witness :
    (∀ up store, ∃ e, decryptAndValidateToken demoLib up store (str "0g") origin0 =
        { payload := none, record := none, err := some e } ∧
        (e = .hexDecode ∨ e = .tooShort ∨ e = .badFormat ∨ e = .decrypt)) ∧
    (verifyHandler demoLib VerifyDb.up (.ok (str "0g")) origin0 5 (storeOf id42 3)).2
      = storeOf id42 3 ∧
    (verifyHandler demoLib VerifyDb.up (.ok (str "0g")) origin0 5
      (storeOf id42 3)).1.body.Success = false ∧
    ((verifyHandler demoLib VerifyDb.up (.ok (str "0g")) origin0 5
        (storeOf id42 3)).1.status = 400 ∨
      (verifyHandler demoLib VerifyDb.up (.ok (str "0g")) origin0 5
        (storeOf id42 3)).1.status = 401) :=
  fail_closed demoLib VerifyDb.up (str "0g") origin0 5 (storeOf id42 3) (Or.inl (by decide))

/-! ## C6: tamper detection -/

/-- C6 (amended): for every token issued for an identity of at most 255
bytes and every string obtained from it by replacing one hex character of the
ciphertext region by a character that does not spell the same hex digit
(another digit value, or no hex digit at all), verification never succeeds
and never yields a payload: the answer is 400 (malformed) when the new
character is no hex digit and 401 otherwise, the error being the decryption
failure, and the store is unchanged.  The cipher is assumed to reject every
ciphertext that differs in one byte from the one it sealed under this key and
nonce. -/
theorem tamper_rejected (lib : Lib) (db : VerifyDb) (userID o : GoString) (t : Int)
    (rnd : List Byte) (now : Time) (st : Store) (token : GoString) (i : Nat) (ch : Byte)
    (hid : userID.length ≤ 255) (hts : IsInt64 t) (hrnd : 12 ≤ rnd.length)
    (hpub : isValidPublicIP lib o = true)
    (hissue : issue lib userID o t rnd = .ok token)
    (hlo : 2 * (8 + 1 + userID.length + 12) ≤ i) (hhi : i < token.length)
    (hch : fromHexChar ch ≠ fromHexChar (token.getD i 0))
    (hrej : ∀ j, j < (lib.gcmSeal (derivedKey lib userID t) (rnd.take 12)
          (lib.jsonMarshal { UserID := userID, IP := o, Timestamp := t })).length →
        ∀ b : Byte, b ≠ (lib.gcmSeal (derivedKey lib userID t) (rnd.take 12)
          (lib.jsonMarshal { UserID := userID, IP := o, Timestamp := t })).getD j 0 →
        lib.gcmOpen (derivedKey lib userID t) (rnd.take 12)
          ((lib.gcmSeal (derivedKey lib userID t) (rnd.take 12)
            (lib.jsonMarshal { UserID := userID, IP := o, Timestamp := t })).set j b) = none) :
    (∀ up store, decryptAndValidateToken lib up store (token.set i ch) o =
      { payload := none, record := none,
        err := some (if (fromHexChar ch).isSome then .decrypt else .hexDecode) }) ∧
    verifyHandler lib db (.ok (token.set i ch)) o now st =
      (⟨if (fromHexChar ch).isSome then 401 else 400,
        { Success := false,
          Message := if (fromHexChar ch).isSome then "Token无效或IP不匹配" else "Token格式无效",
          UserID := [], Limit := 0 }⟩, st) := by
  obtain ⟨hdec, hhex⟩ := decodeToken_tampered lib userID o t rnd token i ch hid hts hrnd hissue
    hlo hhi hch hrej
  have hv := fun up store =>
    decryptAndValidateToken_of_error lib up store (token.set i ch) o _ hdec
  refine ⟨hv, ?_⟩
  unfold verifyHandler
  cases hs : (fromHexChar ch).isSome
  · rw [hs] at hhex
    simp [hpub, hhex]
  · rw [hs] at hhex
    have := hv db.load st
    rw [hs] at this
    simp [hpub, hhex, this]

set_option maxRecDepth 100000 in
/-- Witness of C6: the character `d` at index 47 of the token of `"42"`
replaced by `0`. -/
theorem tamper_rejected_witness :
    (∀ up store, decryptAndValidateToken demoLib up store (token42.set 47 48) origin0 =
      { payload := none, record := none,
        err := some (if (fromHexChar 48).isSome then .decrypt else .hexDecode) }) ∧
    verifyHandler demoLib VerifyDb.up (.ok (token42.set 47 48)) origin0 5 (storeOf id42 3) =
      (⟨if (fromHexChar 48).isSome then 401 else 400,
        { Success := false,
          Message := if (fromHexChar 48).isSome then "Token无效或IP不匹配" else "Token格式无效",
          UserID := [], Limit := 0 }⟩, storeOf id42 3) :=
  tamper_rejected demoLib VerifyDb.up id42 origin0 ts0 rnd0 5 (storeOf id42 3) token42 47 48
    (by decide) (by decide) (by decide) (by decide)
    (issue_eq demoLib id42 origin0 ts0 rnd0 (by decide)) (by decide) (by decide) (by decide)
    (fun j hj b hb => demoOpen_set_none _ _ _ j b hj hb)

set_option maxRecDepth 100000 in
/-- C6 as stated fails: the character at index 47 of the token of `"42"`, in
the ciphertext region, is `d`; replacing it by the different character `D`
gives a string that decodes to the same bytes, and verification succeeds
exactly as for the original token. -/
theorem tamper_case_change_accepted :
    issue demoLib id42 origin0 ts0 rnd0 = .ok token42 ∧
    2 * (8 + 1 + id42.length + 12) ≤ 47 ∧ 47 < token42.length ∧
    token42.getD 47 0 = 100 ∧ (68 : Byte) ≠ 100 ∧
    verifyHandler demoLib VerifyDb.up (.ok token42) origin0 5 (storeOf id42 3) =
      (⟨200, { Success := true, Message := "验证成功", UserID := id42, Limit := 2 }⟩,
        { storeOf id42 3 with users := [{ userRow id42 3 with Limit := 2, UpdatedAt := 5 }] }) ∧
    verifyHandler demoLib VerifyDb.up (.ok (token42.set 47 68)) origin0 5 (storeOf id42 3) =
      (⟨200, { Success := true, Message := "验证成功", UserID := id42, Limit := 2 }⟩,
        { storeOf id42 3 with users := [{ userRow id42 3 with Limit := 2, UpdatedAt := 5 }] }) :=
  ⟨issue_eq demoLib id42 origin0 ts0 rnd0 (by decide), by decide, by decide, by decide,
    by decide, by decide, by decide⟩

/-! ## C7: replay of a notification -/

set_option maxRecDepth 100000 in
/-- C7 at the failing input: identity `"7"` has credit 10 and two pending
purchases (5 units, gateway order `E1`; 3 units, gateway order `E2`).  The
signed notification for `E2` is answered `success`, leaves `E2` paid and the
credit at 13; the identical notification delivered again is answered
`success` too, but it marks `E1` paid and raises the credit to 18. -/
theorem replay_pays_second_order :
    (notifyHandler demoLib cfg0 NotifyDb.up (signedNote (str "E2") (str "7")) 100 rnd0
      twoPurchases).1 = ⟨200, "success"⟩ ∧
    (notifyHandler demoLib cfg0 NotifyDb.up (signedNote (str "E2") (str "7")) 100 rnd0
      twoPurchases).2.orders.map (fun o => (o.OrderID, o.Status))
      = [(str "E1", str "pending"), (str "E2", str "paid")] ∧
    (notifyHandler demoLib cfg0 NotifyDb.up (signedNote (str "E2") (str "7")) 100 rnd0
      twoPurchases).2.users.map (fun r => (r.UserID, r.Limit)) = [(str "7", 13)] ∧
    (notifyHandler demoLib cfg0 NotifyDb.up (signedNote (str "E2") (str "7")) 200 rnd0
      (notifyHandler demoLib cfg0 NotifyDb.up (signedNote (str "E2") (str "7")) 100 rnd0
        twoPurchases).2).1 = ⟨200, "success"⟩ ∧
    (notifyHandler demoLib cfg0 NotifyDb.up (signedNote (str "E2") (str "7")) 200 rnd0
      (notifyHandler demoLib cfg0 NotifyDb.up (signedNote (str "E2") (str "7")) 100 rnd0
        twoPurchases).2).2.orders.map (fun o => (o.OrderID, o.Status))
      = [(str "E1", str "paid"), (str "E2", str "paid")] ∧
    (notifyHandler demoLib cfg0 NotifyDb.up (signedNote (str "E2") (str "7")) 200 rnd0
      (notifyHandler demoLib cfg0 NotifyDb.up (signedNote (str "E2") (str "7")) 100 rnd0
        twoPurchases).2).2.users.map (fun r => (r.UserID, r.Limit)) = [(str "7", 18)] := by
  decide

/-! ## C8: paid orders and their effects -/

set_option maxRecDepth 100000 in
/-- C8 at the failing input: identity `"7"` has a pending purchase of 5 units
(gateway order `E1`) and a later pending rebind order (gateway order `E2`).
The signed notification of the payment of `E1` is answered `success` and
marks the rebind order paid, while the binding (origin, token, issuance time)
and the credit of `"7"` stay as they were and the purchase stays pending. -/
theorem paid_rebind_never_applied :
    (notifyHandler demoLib cfg0 NotifyDb.up (signedNote (str "E1") (str "7")) 100 rnd0
      purchaseAndRebind).1 = ⟨200, "success"⟩ ∧
    (notifyHandler demoLib cfg0 NotifyDb.up (signedNote (str "E1") (str "7")) 100 rnd0
        purchaseAndRebind).2.orders.map (fun o => (o.PayID, o.Status))
      = [(str "RECHARGE_7_1", str "pending"), (str "CHANGE_IP_7_2", str "paid")] ∧
    (notifyHandler demoLib cfg0 NotifyDb.up (signedNote (str "E1") (str "7")) 100 rnd0
        purchaseAndRebind).2.users.map (fun r => (r.UserID, r.IP, r.Token, r.Timestamp, r.Limit))
      = purchaseAndRebind.users.map (fun r => (r.UserID, r.IP, r.Token, r.Timestamp, r.Limit)) := by
  decide

/-! ## C9: failure atomicity -/

set_option maxRecDepth 100000 in
/-- C9 at the failing inputs.  Identity `"7"` has credit 10 and one pending
purchase of 5 units; during the delivery of its signed notification the
statement that adds the credit fails: the answer is `fail` (500), yet the
order has been moved to paid, and the same notification delivered again, the
database now executing every statement, is answered `success` and changes
nothing, so the credit stays 10.  The same happens, with no statement
failing, for a pending purchase of identity `"9"`, which has no entitlement
record. -/
theorem failed_delivery_leaves_order_paid :
    (notifyHandler demoLib cfg0 effectDown (signedNote (str "E1") (str "7")) 100 rnd0
      onePurchase).1 = ⟨500, "fail"⟩ ∧
    (notifyHandler demoLib cfg0 effectDown (signedNote (str "E1") (str "7")) 100 rnd0
      onePurchase).2.orders.map (fun o => (o.PayID, o.Status))
      = [(str "RECHARGE_7_1", str "paid")] ∧
    (notifyHandler demoLib cfg0 effectDown (signedNote (str "E1") (str "7")) 100 rnd0
      onePurchase).2.users = onePurchase.users ∧
    notifyHandler demoLib cfg0 NotifyDb.up (signedNote (str "E1") (str "7")) 200 rnd0
        (notifyHandler demoLib cfg0 effectDown (signedNote (str "E1") (str "7")) 100 rnd0
          onePurchase).2
      = (⟨200, "success"⟩,
         (notifyHandler demoLib cfg0 effectDown (signedNote (str "E1") (str "7")) 100 rnd0
          onePurchase).2) ∧
    (notifyHandler demoLib cfg0 NotifyDb.up (signedNote (str "E9") (str "9")) 100 rnd0
      orphanPurchase).1 = ⟨500, "fail"⟩ ∧
    (notifyHandler demoLib cfg0 NotifyDb.up (signedNote (str "E9") (str "9")) 100 rnd0
        orphanPurchase).2.orders.map (fun o => (o.PayID, o.Status))
      = [(str "RECHARGE_9_1", str "paid")] ∧
    (notifyHandler demoLib cfg0 NotifyDb.up (signedNote (str "E9") (str "9")) 100 rnd0
      orphanPurchase).2.users = orphanPurchase.users ∧
    notifyHandler demoLib cfg0 NotifyDb.up (signedNote (str "E9") (str "9")) 200 rnd0
        (notifyHandler demoLib cfg0 NotifyDb.up (signedNote (str "E9") (str "9")) 100 rnd0
          orphanPurchase).2
      = (⟨200, "success"⟩,
         (notifyHandler demoLib cfg0 NotifyDb.up (signedNote (str "E9") (str "9")) 100 rnd0
          orphanPurchase).2) := by
  decide

/-! ## C10: admission gate of the webhook -/

/-- C10: `notifyHandler` passes its gate (answers anything but 400, the
answer then depending on order resolution) if and only if `mchId`, `orderId`,
`type`, `price`, `reallyPrice` and `sign` are all present, `mchId` equals the
configured merchant id and `sign` equals the lowercase hex MD5 of
`orderId ++ param ++ type ++ price ++ reallyPrice ++ secret`, an absent
`param` counting as the empty string; in every other case the answer is
`fail` with status 400 and the store is unchanged. -/
theorem notify_admission_gate (lib : Lib) (cfg : Config) (db : NotifyDb) (params : Params)
    (now : Time) (rnd : List Byte) (st : Store) :
    ((notifyHandler lib cfg db params now rnd st).1.status ≠ 400 ↔
      ((∀ k ∈ [str "mchId", str "orderId", str "type", str "price", str "reallyPrice", str "sign"],
          (params.lookup k).isSome = true) ∧
        (params.lookup (str "mchId")).getD [] = cfg.MchID ∧
        (params.lookup (str "sign")).getD [] =
          hexEncode (lib.md5 ((params.lookup (str "orderId")).getD [] ++
            (params.lookup (str "param")).getD [] ++ (params.lookup (str "type")).getD [] ++
            (params.lookup (str "price")).getD [] ++ (params.lookup (str "reallyPrice")).getD [] ++
            cfg.Secret)).val)) ∧
    ((notifyHandler lib cfg db params now rnd st).1.status = 400 →
      notifyHandler lib cfg db params now rnd st = (⟨400, "fail"⟩, st)) ∧
    ((notifyHandler lib cfg db params now rnd st).1.status ≠ 400 →
      ((notifyHandler lib cfg db params now rnd st).1.status = 404 ↔
        resolveOrder db st params = none)) := by
  rw [← requiredParams_any]
  by_cases h1 : requiredParams.any (fun param => !params.has param) = false
  · by_cases h2 : params.get (str "mchId") = cfg.MchID
    · by_cases h3 : params.get (str "sign") = generateMD5 lib (signString cfg params)
      · have h := notifyHandler_admitted lib cfg db params now rnd st h1 h2 h3
        exact ⟨⟨fun _ => ⟨h1, h2, h3⟩, fun _ => h.1⟩, fun h400 => absurd h400 h.1, fun _ => h.2⟩
      · have : notifyHandler lib cfg db params now rnd st = (⟨400, "fail"⟩, st) := by
          unfold notifyHandler
          simp only [h1, h2, h3, Bool.false_eq_true, if_false, ne_eq, not_true_eq_false,
            not_false_eq_true, if_true]
        rw [this]
        exact ⟨⟨fun h => absurd rfl h, fun h => absurd h.2.2 h3⟩, fun _ => rfl, fun h => absurd rfl h⟩
    · have : notifyHandler lib cfg db params now rnd st = (⟨400, "fail"⟩, st) := by
        unfold notifyHandler
        simp only [h1, h2, Bool.false_eq_true, if_false, ne_eq, not_false_eq_true, if_true]
      rw [this]
      exact ⟨⟨fun h => absurd rfl h, fun h => absurd h.2.1 h2⟩, fun _ => rfl, fun h => absurd rfl h⟩
  · have : notifyHandler lib cfg db params now rnd st = (⟨400, "fail"⟩, st) := by
      unfold notifyHandler
      have h1' : requiredParams.any (fun param => !params.has param) = true := by
        cases h : requiredParams.any (fun param => !params.has param)
        · exact absurd h h1
        · rfl
      simp only [h1', if_true]
    rw [this]
    exact ⟨⟨fun h => absurd rfl h, fun h => absurd h.1 h1⟩, fun _ => rfl, fun h => absurd rfl h⟩

/-! ## Lemmas on the paid transition -/

theorem pending_ne_paid : str "pending" ≠ str "paid" := by decide

/-- The handler behind the gate, for a resolved order that is not paid. -/
theorem notifyHandler_unpaid (lib : Lib) (cfg : Config) (db : NotifyDb) (params : Params)
    (now : Time) (rnd : List Byte) (st : Store) (order : Order)
    (h1 : requiredParams.any (fun param => !params.has param) = false)
    (h2 : params.get (str "mchId") = cfg.MchID)
    (h3 : params.get (str "sign") = generateMD5 lib (signString cfg params))
    (hres : resolveOrder db st params = some order) (hnp : order.Status ≠ str "paid") :
    notifyHandler lib cfg db params now rnd st =
      match updateOrderStatus db.updateStatus st order.PayID (str "paid")
          (lib.parseFloat (params.get (str "reallyPrice"))) (lib.atoi (params.get (str "type")))
          now with
      | .error _ => (⟨500, "fail"⟩, st)
      | .ok st1 =>
        if (str "CHANGE_IP_").isPrefixOf order.PayID &&
            decide (1 < (splitBy 124 (params.get (str "param"))).length) then
          match handleChangeIPSuccess lib db.effect order
              ((splitBy 124 (params.get (str "param"))).getD 1 []) now rnd st1 with
          | .error _ => (⟨500, "fail"⟩, st1)
          | .ok st2 => (⟨200, "success"⟩, st2)
        else
          match updateUserLimit db.effect st1 order.UserID order.Count now with
          | .error _ => (⟨500, "fail"⟩, st1)
          | .ok st2 => (⟨200, "success"⟩, st2) := by
  unfold notifyHandler
  simp only [h1, h2, h3, hres, hnp, Bool.false_eq_true, if_false, ne_eq, not_true_eq_false]

theorem updateUserLimit_orders (up : Bool) (st st2 : Store) (userID : GoString) (n : Int)
    (now : Time) (h : updateUserLimit up st userID n now = .ok st2) :
    st2.orders = st.orders ∧ st2.keys = st.keys ∧
    up = true ∧ (∃ r ∈ st.users, r.UserID = userID) ∧
    st2.users = st.users.map (fun r =>
      if r.UserID = userID then { r with Limit := r.Limit + n, UpdatedAt := now } else r) := by
  unfold updateUserLimit at h
  cases up
  · simp at h
  · simp only [Bool.not_true, Bool.false_eq_true, if_false] at h
    split at h
    · rename_i hany
      injection h with h
      subst h
      obtain ⟨r, hr, hru⟩ := List.any_eq_true.mp hany
      exact ⟨rfl, rfl, rfl, ⟨r, hr, by simpa using hru⟩, rfl⟩
    · cases h

theorem updateUserIPAndToken_ok (up : Bool) (st st2 : Store) (userID ip token : GoString)
    (t : Int) (now : Time) (h : updateUserIPAndToken up st userID ip token t now = .ok st2) :
    st2.orders = st.orders ∧ st2.keys = st.keys ∧
    up = true ∧ (∃ r ∈ st.users, r.UserID = userID) ∧
    st2.users = st.users.map (fun r =>
      if r.UserID = userID then
        { r with IP := ip, Token := token, Timestamp := t, UpdatedAt := now }
      else r) := by
  unfold updateUserIPAndToken at h
  cases up
  · simp at h
  · simp only [Bool.not_true, Bool.false_eq_true, if_false] at h
    split at h
    · rename_i hany
      injection h with h
      subst h
      obtain ⟨r, hr, hru⟩ := List.any_eq_true.mp hany
      exact ⟨rfl, rfl, rfl, ⟨r, hr, by simpa using hru⟩, rfl⟩
    · cases h

theorem handleChangeIPSuccess_ok (lib : Lib) (up : Bool) (order : Order) (newIP : GoString)
    (now : Time) (rnd : List Byte) (st st2 : Store)
    (h : handleChangeIPSuccess lib up order newIP now rnd st = .ok st2) :
    ∃ token, issue lib order.UserID newIP (Int.tdiv now 1000000) rnd = .ok token ∧
      updateUserIPAndToken up st order.UserID newIP token (Int.tdiv now 1000000) now = .ok st2 := by
  unfold handleChangeIPSuccess at h
  unfold issue
  dsimp only at h ⊢
  rw [generateDeterministicKey_eq] at h ⊢
  dsimp only at h ⊢
  split at h
  · cases h
  · rename_i token htok
    rw [htok]
    refine ⟨token, rfl, ?_⟩
    split at h
    · cases h
    · rename_i st1 hst1
      injection h with h
      subst h
      exact hst1

/-- The orders after a delivery that reaches the paid transition. -/
theorem notifyHandler_unpaid_orders (lib : Lib) (cfg : Config) (db : NotifyDb)
    (params : Params) (now : Time) (rnd : List Byte) (st : Store) (order : Order)
    (h1 : requiredParams.any (fun param => !params.has param) = false)
    (h2 : params.get (str "mchId") = cfg.MchID)
    (h3 : params.get (str "sign") = generateMD5 lib (signString cfg params))
    (hres : resolveOrder db st params = some order) (hnp : order.Status ≠ str "paid")
    (hup : db.updateStatus = true) :
    (notifyHandler lib cfg db params now rnd st).2.orders =
      st.orders.map (fun o =>
        if o.PayID = order.PayID then
          { o with Status := str "paid",
                   ReallyPrice := lib.parseFloat (params.get (str "reallyPrice")),
                   PayType := lib.atoi (params.get (str "type")),
                   PayTime := some now, UpdatedAt := now }
        else o) ∧
    (notifyHandler lib cfg db params now rnd st).2.keys = st.keys := by
  rw [notifyHandler_unpaid lib cfg db params now rnd st order h1 h2 h3 hres hnp]
  simp only [updateOrderStatus, hup, Bool.not_true, Bool.false_eq_true, if_false]
  split
  · split
    · exact ⟨rfl, rfl⟩
    · rename_i st2 hst2
      obtain ⟨token, _, hupd⟩ := handleChangeIPSuccess_ok lib _ _ _ _ _ _ _ hst2
      have := updateUserIPAndToken_ok _ _ _ _ _ _ _ _ hupd
      exact ⟨this.1, this.2.1⟩
  · split
    · exact ⟨rfl, rfl⟩
    · rename_i st2 hst2
      have := updateUserLimit_orders _ _ _ _ _ _ hst2
      exact ⟨this.1, this.2.1⟩

/-- The handler reads a notification through the fields `mchId`, `orderId`,
`param`, `type`, `reallyPrice` and through the comparison of `sign` with the
hash of the signed string: two admitted notifications that agree on these
fields are handled alike. -/
theorem notifyHandler_same_fields (lib : Lib) (cfg : Config) (db : NotifyDb)
    (params params2 : Params) (now : Time) (rnd : List Byte) (st : Store)
    (h1 : requiredParams.any (fun param => !params.has param) = false)
    (h2 : params.get (str "mchId") = cfg.MchID)
    (h3 : params.get (str "sign") = generateMD5 lib (signString cfg params))
    (k1 : requiredParams.any (fun param => !params2.has param) = false)
    (k3 : params2.get (str "sign") = generateMD5 lib (signString cfg params2))
    (hsame : ∀ k ∈ [str "mchId", str "orderId", str "param", str "type", str "reallyPrice"],
      params2.lookup k = params.lookup k) :
    notifyHandler lib cfg db params2 now rnd st = notifyHandler lib cfg db params now rnd st := by
  have hg : ∀ k ∈ [str "mchId", str "orderId", str "param", str "type", str "reallyPrice"],
      params2.get k = params.get k := by
    intro k hk
    unfold Params.get
    rw [hsame k hk]
  have g1 := hg (str "mchId") (by simp)
  have g2 := hg (str "orderId") (by simp)
  have g3 := hg (str "param") (by simp)
  have g4 := hg (str "type") (by simp)
  have g5 := hg (str "reallyPrice") (by simp)
  have k2 : params2.get (str "mchId") = cfg.MchID := by rw [g1]; exact h2
  have hres : resolveOrder db st params2 = resolveOrder db st params := by
    unfold resolveOrder
    rw [g2, g3]
  unfold notifyHandler
  simp only [h1, h2, h3, k1, k2, k3, hres, Bool.false_eq_true, if_false, ne_eq,
    not_true_eq_false]
  rw [g3, g4, g5]

/-! ## C11: the notified amount -/

/-- C11 (amended): for every validly signed notification that resolves to an
order that is not yet paid, whatever the notified price and the price
recorded on the order, the order is moved to paid as soon as the status
update is executed, the really-paid amount and the pay method of the
notification being recorded.  The notified price enters the signature only:
every other validly signed notification with the same `mchId`, `orderId`,
`param`, `type` and `reallyPrice` gets the same answer and leaves the same
store, whatever price it names. -/
theorem paid_whatever_price (lib : Lib) (cfg : Config) (db : NotifyDb) (params params2 : Params)
    (now : Time) (rnd : List Byte) (st : Store) (order : Order)
    (hpresent : ∀ k ∈ [str "mchId", str "orderId", str "type", str "price", str "reallyPrice",
      str "sign"], (params.lookup k).isSome = true)
    (hmch : params.get (str "mchId") = cfg.MchID)
    (hsign : params.get (str "sign") = generateMD5 lib (signString cfg params))
    (hres : resolveOrder db st params = some order) (hnp : order.Status ≠ str "paid")
    (hup : db.updateStatus = true)
    (hpresent2 : ∀ k ∈ [str "mchId", str "orderId", str "type", str "price", str "reallyPrice",
      str "sign"], (params2.lookup k).isSome = true)
    (hsign2 : params2.get (str "sign") = generateMD5 lib (signString cfg params2))
    (hsame : ∀ k ∈ [str "mchId", str "orderId", str "param", str "type", str "reallyPrice"],
      params2.lookup k = params.lookup k) :
    (notifyHandler lib cfg db params now rnd st).2.orders =
      st.orders.map (fun o =>
        if o.PayID = order.PayID then
          { o with Status := str "paid",
                   ReallyPrice := lib.parseFloat (params.get (str "reallyPrice")),
                   PayType := lib.atoi (params.get (str "type")),
                   PayTime := some now, UpdatedAt := now }
        else o) ∧
    notifyHandler lib cfg db params2 now rnd st = notifyHandler lib cfg db params now rnd st :=
  ⟨(notifyHandler_unpaid_orders lib cfg db params now rnd st order
      ((requiredParams_any params).mpr hpresent) hmch hsign hres hnp hup).1,
   notifyHandler_same_fields lib cfg db params params2 now rnd st
      ((requiredParams_any params).mpr hpresent) hmch hsign
      ((requiredParams_any params2).mpr hpresent2) hsign2 hsame⟩

set_option maxRecDepth 100000 in
/-- Witness of C11: the notification of price `0.01` for the pending purchase
of identity `"7"`, recorded at price 50, and the notification of price `50`
with the same really-paid amount. -/
theorem paid_whatever_price_witness :
    (signedNoteAmounts (str "E1") (str "7") (str "50") (str "0.01")).get (str "price")
      ≠ (signedNotePrice (str "E1") (str "7") (str "0.01")).get (str "price") ∧
    (notifyHandler demoLib cfg0 NotifyDb.up (signedNotePrice (str "E1") (str "7") (str "0.01"))
        100 rnd0 onePurchase).2.orders =
      onePurchase.orders.map (fun o =>
        if o.PayID = purchase7.PayID then
          { o with Status := str "paid",
                   ReallyPrice := demoLib.parseFloat
                     ((signedNotePrice (str "E1") (str "7") (str "0.01")).get (str "reallyPrice")),
                   PayType := demoLib.atoi
                     ((signedNotePrice (str "E1") (str "7") (str "0.01")).get (str "type")),
                   PayTime := some 100, UpdatedAt := 100 }
        else o) ∧
    notifyHandler demoLib cfg0 NotifyDb.up
        (signedNoteAmounts (str "E1") (str "7") (str "50") (str "0.01")) 100 rnd0 onePurchase =
      notifyHandler demoLib cfg0 NotifyDb.up (signedNotePrice (str "E1") (str "7") (str "0.01"))
        100 rnd0 onePurchase :=
  ⟨by decide,
   paid_whatever_price demoLib cfg0 NotifyDb.up (signedNotePrice (str "E1") (str "7") (str "0.01"))
    (signedNoteAmounts (str "E1") (str "7") (str "50") (str "0.01"))
    100 rnd0 onePurchase purchase7
    (by decide) (by decide) (by decide) (by decide) (by decide) (by decide)
    (by decide) (by decide) (by decide)⟩

set_option maxRecDepth 100000 in
/-- C11 as stated fails: the pending purchase of identity `"7"` is recorded at
price 50; the signed notification names price `0.01`, which the library reads
as another amount, and it is answered `success`, the order is moved to paid
and the 5 units are granted. -/
theorem paid_despite_other_price :
    onePurchase.orders.map (fun o => (o.PayID, o.Status, o.Price))
      = [(str "RECHARGE_7_1", str "pending", 50)] ∧
    demoLib.parseFloat ((signedNotePrice (str "E1") (str "7") (str "0.01")).get (str "price"))
      = 1 ∧
    (notifyHandler demoLib cfg0 NotifyDb.up (signedNotePrice (str "E1") (str "7") (str "0.01"))
        100 rnd0 onePurchase).1 = ⟨200, "success"⟩ ∧
    (notifyHandler demoLib cfg0 NotifyDb.up (signedNotePrice (str "E1") (str "7") (str "0.01"))
        100 rnd0 onePurchase).2.orders.map (fun o => (o.PayID, o.Status, o.Price))
      = [(str "RECHARGE_7_1", str "paid", 50)] ∧
    (notifyHandler demoLib cfg0 NotifyDb.up (signedNotePrice (str "E1") (str "7") (str "0.01"))
        100 rnd0 onePurchase).2.users.map (fun r => (r.UserID, r.Limit)) = [(str "7", 15)] := by
  decide

/-! ## C12: effect of a credit purchase -/

/-- C12: for every validly signed notification that resolves to a pending
credit-purchase order (no `CHANGE_IP_` pay id) with requested amount `n` of an
identity `U` that has an entitlement record, the acknowledgment is `success`
when the database executes the two updates, and after a success
acknowledgment the order is paid with the notified really-paid amount and pay
method recorded, the credit of `U` is its previous value plus `n`, and the
origin, token and issuance time of `U`, every other entitlement record and
the credit codes are unchanged. -/
theorem credit_purchase_effect (lib : Lib) (cfg : Config) (db : NotifyDb) (params : Params)
    (now : Time) (rnd : List Byte) (st : Store) (order : Order)
    (hpresent : ∀ k ∈ [str "mchId", str "orderId", str "type", str "price", str "reallyPrice",
      str "sign"], (params.lookup k).isSome = true)
    (hmch : params.get (str "mchId") = cfg.MchID)
    (hsign : params.get (str "sign") = generateMD5 lib (signString cfg params))
    (hres : resolveOrder db st params = some order) (hpend : order.Status = str "pending")
    (hkind : (str "CHANGE_IP_").isPrefixOf order.PayID = false)
    (hrec : ∃ r ∈ st.users, r.UserID = order.UserID) :
    ((notifyHandler lib cfg db params now rnd st).1 = ⟨200, "success"⟩ →
      (notifyHandler lib cfg db params now rnd st).2 =
        { users := st.users.map (fun r =>
            if r.UserID = order.UserID then
              { r with Limit := r.Limit + order.Count, UpdatedAt := now }
            else r),
          keys := st.keys,
          orders := st.orders.map (fun o =>
            if o.PayID = order.PayID then
              { o with Status := str "paid",
                       ReallyPrice := lib.parseFloat (params.get (str "reallyPrice")),
                       PayType := lib.atoi (params.get (str "type")),
                       PayTime := some now, UpdatedAt := now }
            else o) }) ∧
    (db.updateStatus = true → db.effect = true →
      (notifyHandler lib cfg db params now rnd st).1 = ⟨200, "success"⟩) := by
  have hnp : order.Status ≠ str "paid" := by rw [hpend]; exact pending_ne_paid
  rw [notifyHandler_unpaid lib cfg db params now rnd st order
    ((requiredParams_any params).mpr hpresent) hmch hsign hres hnp]
  have hany : st.users.any (fun r => r.UserID == order.UserID) = true := by
    obtain ⟨r, hr, hru⟩ := hrec
    exact List.any_eq_true.mpr ⟨r, hr, by simp [hru]⟩
  simp only [hkind, Bool.false_and, Bool.false_eq_true, if_false]
  cases hs : db.updateStatus <;> cases he : db.effect <;>
    simp [updateOrderStatus, updateUserLimit, hany]

set_option maxRecDepth 100000 in
/-- Witness of C12: the purchase of 5 units of identity `"7"`, credit 10. -/
theorem credit_purchase_effect_witness :
    ((notifyHandler demoLib cfg0 NotifyDb.up (signedNote (str "E1") (str "7")) 100 rnd0
        onePurchase).1 = ⟨200, "success"⟩ →
      (notifyHandler demoLib cfg0 NotifyDb.up (signedNote (str "E1") (str "7")) 100 rnd0
        onePurchase).2 =
        { users := onePurchase.users.map (fun r =>
            if r.UserID = purchase7.UserID then
              { r with Limit := r.Limit + purchase7.Count, UpdatedAt := 100 }
            else r),
          keys := onePurchase.keys,
          orders := onePurchase.orders.map (fun o =>
            if o.PayID = purchase7.PayID then
              { o with Status := str "paid",
                       ReallyPrice := demoLib.parseFloat
                         ((signedNote (str "E1") (str "7")).get (str "reallyPrice")),
                       PayType := demoLib.atoi ((signedNote (str "E1") (str "7")).get (str "type")),
                       PayTime := some 100, UpdatedAt := 100 }
            else o) }) ∧
    (NotifyDb.up.updateStatus = true → NotifyDb.up.effect = true →
      (notifyHandler demoLib cfg0 NotifyDb.up (signedNote (str "E1") (str "7")) 100 rnd0
        onePurchase).1 = ⟨200, "success"⟩) :=
  credit_purchase_effect demoLib cfg0 NotifyDb.up (signedNote (str "E1") (str "7")) 100 rnd0
    onePurchase purchase7
    (by decide) (by decide) (by decide) (by decide) (by decide) (by decide) (by decide)

/-! ## Lemmas on order resolution -/

theorem splitBy_headD (sep : Byte) (s : GoString) :
    (splitBy sep s).headD [] = s.takeWhile (fun c => c ≠ sep) := by
  induction s with
  | nil => rfl
  | cons c cs ih =>
    unfold splitBy
    rw [List.takeWhile_cons]
    by_cases hc : c = sep
    · subst hc
      have hp : decide (c ≠ c) = false := by simp
      simp only [if_true, List.headD_cons, hp, Bool.false_eq_true, if_false]
    · have hp : decide (c ≠ sep) = true := by simp [hc]
      simp only [hc, if_false, hp, if_true]
      rw [← ih]
      cases hsp : splitBy sep cs with
      | nil => rfl
      | cons p ps => rfl

theorem foldl_laterOrder_some (l : List Order) (b : Order) :
    ∃ o, l.foldl laterOrder (some b) = some o ∧ (o = b ∨ o ∈ l) ∧
      b.CreateTime ≤ o.CreateTime ∧ ∀ x ∈ l, x.CreateTime ≤ o.CreateTime := by
  induction l generalizing b with
  | nil => exact ⟨b, rfl, Or.inl rfl, le_refl _, by simp⟩
  | cons a l ih =>
    simp only [List.foldl_cons, laterOrder]
    by_cases hlt : b.CreateTime < a.CreateTime
    · simp only [hlt, if_true]
      obtain ⟨o, ho, hmem, hle, hall⟩ := ih a
      refine ⟨o, ho, ?_, le_trans (le_of_lt hlt) hle, ?_⟩
      · rcases hmem with h | h
        · exact Or.inr (by simp [h])
        · exact Or.inr (by simp [h])
      · intro x hx
        rcases List.mem_cons.mp hx with h | h
        · rw [h]; exact hle
        · exact hall x h
    · simp only [hlt, if_false]
      obtain ⟨o, ho, hmem, hle, hall⟩ := ih b
      refine ⟨o, ho, ?_, hle, ?_⟩
      · rcases hmem with h | h
        · exact Or.inl h
        · exact Or.inr (by simp [h])
      · intro x hx
        rcases List.mem_cons.mp hx with h | h
        · rw [h]; exact le_trans (not_lt.mp hlt) hle
        · exact hall x h

theorem foldl_laterOrder_none (l : List Order) :
    (l = [] → l.foldl laterOrder none = none) ∧
    (l ≠ [] → ∃ o, l.foldl laterOrder none = some o ∧ o ∈ l ∧
      ∀ x ∈ l, x.CreateTime ≤ o.CreateTime) := by
  constructor
  · intro h; rw [h]; rfl
  · intro h
    cases l with
    | nil => exact absurd rfl h
    | cons a l =>
      obtain ⟨o, ho, hmem, hle, hall⟩ := foldl_laterOrder_some l a
      refine ⟨o, ho, ?_, ?_⟩
      · rcases hmem with h | h
        · simp [h]
        · simp [h]
      · intro x hx
        rcases List.mem_cons.mp hx with h | h
        · rw [h]; exact hle
        · exact hall x h

/-! ## C13: effect of a rebind -/

theorem find_record_map (users : List UserRecord) (g : UserRecord → UserRecord)
    (hg : ∀ x, (g x).UserID = x.UserID) (r : UserRecord) (hr : r ∈ users)
    (huniq : (users.map UserRecord.UserID).Nodup) :
    (users.map g).find? (fun record =>
      record.UserID == (g r).UserID && record.Timestamp == (g r).Timestamp) = some (g r) := by
  apply find_record
  · exact List.mem_map.mpr ⟨r, hr, rfl⟩
  · have : (users.map g).map UserRecord.UserID = users.map UserRecord.UserID := by
      rw [List.map_map]
      apply List.map_congr_left
      intro x _
      exact hg x
    rw [this]
    exact huniq

/-- C13 (amended): for every validly signed notification that resolves to a
pending rebind order (pay id `CHANGE_IP_…`) of identity `U` and names a new
origin `O2` after the first `|` of `param`, after the success acknowledgment
every record of `U` has bound origin `O2`, issuance time `T2` (the clock in
milliseconds) and token `issue(U, O2, T2)`, the credit of `U`, every other
record and the credit codes are unchanged and the order is paid: this holds
for every `O2`, public or not, and every store.  And if `O2` is a public
address, `U` has at most 255 bytes, the store has one record per identity,
open inverts seal and JSON decode inverts JSON encode at the new payload,
then verifying the stored token from `O2` answers 200 whenever the credit of
`U` is positive. -/
theorem rebind_effect (lib : Lib) (cfg : Config) (db : NotifyDb) (params : Params)
    (now later : Time) (rnd : List Byte) (st : Store) (order : Order)
    (u O2 : GoString) (rest : List GoString)
    (hpresent : ∀ k ∈ [str "mchId", str "orderId", str "type", str "price", str "reallyPrice",
      str "sign"], (params.lookup k).isSome = true)
    (hmch : params.get (str "mchId") = cfg.MchID)
    (hsign : params.get (str "sign") = generateMD5 lib (signString cfg params))
    (hres : resolveOrder db st params = some order) (hpend : order.Status = str "pending")
    (hkind : (str "CHANGE_IP_").isPrefixOf order.PayID = true)
    (hparts : splitBy 124 (params.get (str "param")) = u :: O2 :: rest)
    (hack : (notifyHandler lib cfg db params now rnd st).1 = ⟨200, "success"⟩) :
    ∃ token, issue lib order.UserID O2 (Int.tdiv now 1000000) rnd = .ok token ∧
      (notifyHandler lib cfg db params now rnd st).2 =
        { users := st.users.map (fun r =>
            if r.UserID = order.UserID then
              { r with IP := O2, Token := token, Timestamp := Int.tdiv now 1000000,
                       UpdatedAt := now }
            else r),
          keys := st.keys,
          orders := st.orders.map (fun o =>
            if o.PayID = order.PayID then
              { o with Status := str "paid",
                       ReallyPrice := lib.parseFloat (params.get (str "reallyPrice")),
                       PayType := lib.atoi (params.get (str "type")),
                       PayTime := some now, UpdatedAt := now }
            else o) } ∧
      (isValidPublicIP lib O2 = true → order.UserID.length ≤ 255 →
        IsInt64 (Int.tdiv now 1000000) →
        lib.gcmOpen (derivedKey lib order.UserID (Int.tdiv now 1000000)) (rnd.take 12)
            (lib.gcmSeal (derivedKey lib order.UserID (Int.tdiv now 1000000)) (rnd.take 12)
              (lib.jsonMarshal
                { UserID := order.UserID, IP := O2, Timestamp := Int.tdiv now 1000000 }))
          = some (lib.jsonMarshal
                { UserID := order.UserID, IP := O2, Timestamp := Int.tdiv now 1000000 }) →
        lib.jsonUnmarshal (lib.jsonMarshal
            { UserID := order.UserID, IP := O2, Timestamp := Int.tdiv now 1000000 })
          = some { UserID := order.UserID, IP := O2, Timestamp := Int.tdiv now 1000000 } →
        (st.users.map UserRecord.UserID).Nodup →
        ∀ r ∈ st.users, r.UserID = order.UserID → 0 < r.Limit →
          (verifyHandler lib VerifyDb.up (.ok token) O2 later
            (notifyHandler lib cfg db params now rnd st).2).1 =
            ⟨200, { Success := true, Message := "验证成功", UserID := order.UserID,
                    Limit := r.Limit - 1 }⟩) := by
  have hnp : order.Status ≠ str "paid" := by rw [hpend]; exact pending_ne_paid
  have hrw := notifyHandler_unpaid lib cfg db params now rnd st order
    ((requiredParams_any params).mpr hpresent) hmch hsign hres hnp
  rw [hrw] at hack ⊢
  have hlen : decide (1 < (splitBy 124 (params.get (str "param"))).length) = true := by
    rw [hparts]; simp
  have hget : (splitBy 124 (params.get (str "param"))).getD 1 [] = O2 := by
    rw [hparts]; rfl
  simp only [hkind, hlen, Bool.and_self, if_true, hget] at hack ⊢
  cases hs : updateOrderStatus db.updateStatus st order.PayID (str "paid")
      (lib.parseFloat (params.get (str "reallyPrice"))) (lib.atoi (params.get (str "type")))
      now with
  | error e =>
    rw [hs] at hack
    simp at hack
  | ok st1 =>
    rw [hs] at hack
    dsimp only at hack ⊢
    have hst1 : st1 = { st with orders := st.orders.map (fun o =>
        if o.PayID = order.PayID then
          { o with Status := str "paid",
                   ReallyPrice := lib.parseFloat (params.get (str "reallyPrice")),
                   PayType := lib.atoi (params.get (str "type")),
                   PayTime := some now, UpdatedAt := now }
        else o) } := by
      unfold updateOrderStatus at hs
      split at hs
      · cases hs
      · injection hs with hs
        exact hs.symm
    cases he : handleChangeIPSuccess lib db.effect order O2 now rnd st1 with
    | error e =>
      rw [he] at hack
      simp at hack
    | ok st2 =>
      dsimp only
      obtain ⟨token, htok, hupd⟩ := handleChangeIPSuccess_ok lib _ _ _ _ _ _ _ he
      obtain ⟨ho, hk, _, _, hu⟩ := updateUserIPAndToken_ok _ _ _ _ _ _ _ _ hupd
      have hst2 : st2 = Store.mk (st.users.map (fun r =>
            if r.UserID = order.UserID then
              { r with IP := O2, Token := token, Timestamp := Int.tdiv now 1000000,
                       UpdatedAt := now }
            else r)) st.keys (st.orders.map (fun o =>
            if o.PayID = order.PayID then
              { o with Status := str "paid",
                       ReallyPrice := lib.parseFloat (params.get (str "reallyPrice")),
                       PayType := lib.atoi (params.get (str "type")),
                       PayTime := some now, UpdatedAt := now }
            else o)) := by
        cases st2
        simp only [Store.mk.injEq]
        simp only at ho hk hu
        rw [hst1] at ho hk hu
        exact ⟨hu, hk, ho⟩
      refine ⟨token, htok, hst2, ?_⟩
      intro hpub hid hts hopen hjson huniq r hr hru hpos
      have hdec := decodeToken_issue lib order.UserID O2 (Int.tdiv now 1000000) rnd token hid hts
        (by
          unfold issue at htok
          rw [generateDeterministicKey_eq] at htok
          simp only [encryptPayload, aesKeySizeOk_derivedKey, generateNonce, Bool.not_true,
            Bool.false_eq_true, if_false] at htok
          by_contra hcon
          simp [hcon] at htok) hopen hjson htok
      have hfind := find_record_map st.users (fun r =>
            if r.UserID = order.UserID then
              { r with IP := O2, Token := token, Timestamp := Int.tdiv now 1000000,
                       UpdatedAt := now }
            else r) (by intro x; dsimp only; split <;> rfl) r hr huniq
      simp only [hru, if_true] at hfind
      rw [hst2]
      rw [verifyHandler_of_decoded lib VerifyDb.up token O2 later _ _ _ _ rfl hpub hdec rfl hfind]
      have hnot : ¬ r.Limit ≤ 0 := by omega
      have hany : (st.users.map (fun r =>
            if r.UserID = order.UserID then
              { r with IP := O2, Token := token, Timestamp := Int.tdiv now 1000000,
                       UpdatedAt := now }
            else r)).any (fun x => x.UserID == order.UserID) = true := by
        apply List.any_eq_true.mpr
        refine ⟨_, List.mem_map.mpr ⟨r, hr, rfl⟩, ?_⟩
        simp [hru]
      simp only [hnot, if_false, updateUserLimit, VerifyDb.up, Bool.not_true, Bool.false_eq_true,
        hru, hany, if_true]

set_option maxRecDepth 100000 in
/-- Witness of C13: the rebind of identity `"7"` (credit 10) to
`"198.51.100.7"`, with the verification that follows; and the rebind of the
same identity to `"10.0.0.1"`, where the part on the record applies. -/
theorem rebind_effect_witness :
    (∃ token, issue demoLib rebindOrder7.UserID (str "198.51.100.7") (Int.tdiv nowNs 1000000) rnd0
        = .ok token ∧
      (notifyHandler demoLib cfg0 NotifyDb.up rebindNote nowNs rnd0 oneRebind).2 =
        { users := oneRebind.users.map (fun r =>
            if r.UserID = rebindOrder7.UserID then
              { r with IP := str "198.51.100.7", Token := token,
                       Timestamp := Int.tdiv nowNs 1000000, UpdatedAt := nowNs }
            else r),
          keys := oneRebind.keys,
          orders := oneRebind.orders.map (fun o =>
            if o.PayID = rebindOrder7.PayID then
              { o with Status := str "paid",
                       ReallyPrice := demoLib.parseFloat (rebindNote.get (str "reallyPrice")),
                       PayType := demoLib.atoi (rebindNote.get (str "type")),
                       PayTime := some nowNs, UpdatedAt := nowNs }
            else o) } ∧
      ∀ r ∈ oneRebind.users, r.UserID = rebindOrder7.UserID → 0 < r.Limit →
        (verifyHandler demoLib VerifyDb.up (.ok token) (str "198.51.100.7") 7
          (notifyHandler demoLib cfg0 NotifyDb.up rebindNote nowNs rnd0 oneRebind).2).1 =
          ⟨200, { Success := true, Message := "验证成功", UserID := rebindOrder7.UserID,
                  Limit := r.Limit - 1 }⟩) ∧
    (∃ token, issue demoLib rebindOrder7.UserID (str "10.0.0.1") (Int.tdiv nowNs 1000000) rnd0
        = .ok token ∧
      (notifyHandler demoLib cfg0 NotifyDb.up (signedNote (str "E1") (str "7|10.0.0.1")) nowNs
          rnd0 oneRebind).2.users =
        oneRebind.users.map (fun r =>
          if r.UserID = rebindOrder7.UserID then
            { r with IP := str "10.0.0.1", Token := token,
                     Timestamp := Int.tdiv nowNs 1000000, UpdatedAt := nowNs }
          else r)) :=
  ⟨(rebind_effect demoLib cfg0 NotifyDb.up rebindNote nowNs 7 rnd0 oneRebind rebindOrder7
      (str "7") (str "198.51.100.7") []
      (by decide) (by decide) (by decide) (by decide) (by decide) (by decide) (by decide)
      (by decide)).imp (fun _ h =>
        ⟨h.1, h.2.1, h.2.2 (by decide) (by decide) (by decide) (by decide) (by decide)
          (by decide)⟩),
   (rebind_effect demoLib cfg0 NotifyDb.up (signedNote (str "E1") (str "7|10.0.0.1")) nowNs 7
      rnd0 oneRebind rebindOrder7 (str "7") (str "10.0.0.1") []
      (by decide) (by decide) (by decide) (by decide) (by decide) (by decide) (by decide)
      (by decide)).imp (fun _ h => ⟨h.1, congrArg Store.users h.2.1⟩)⟩

set_option maxRecDepth 100000 in
/-- C13 as stated fails for a new origin that is not a public address: the
signed rebind notification of identity `"7"` (credit 10) for `10.0.0.1` is
answered `success` and the record is bound to `10.0.0.1` with the freshly
issued token, but verifying that token from `10.0.0.1` is refused with 400 at
the boundary. -/
theorem rebind_to_private_origin :
    (notifyHandler demoLib cfg0 NotifyDb.up (signedNote (str "E1") (str "7|10.0.0.1")) nowNs rnd0
      oneRebind).1 = ⟨200, "success"⟩ ∧
    (afterRebind (str "10.0.0.1")).users.map (fun r => (r.UserID, r.IP, r.Timestamp, r.Limit))
      = [(str "7", str "10.0.0.1", 1800000000000, 10)] ∧
    issue demoLib (str "7") (str "10.0.0.1") 1800000000000 rnd0
      = .ok (tokenOf (afterRebind (str "10.0.0.1")) (str "7")) ∧
    verifyHandler demoLib VerifyDb.up (.ok (tokenOf (afterRebind (str "10.0.0.1")) (str "7")))
        (str "10.0.0.1") 7 (afterRebind (str "10.0.0.1")) =
      (⟨400, { Success := false, Message := "无法获取有效的公网IP", UserID := [], Limit := 0 }⟩,
        afterRebind (str "10.0.0.1")) := by
  decide

/-! ## C14: a rebind invalidates the old tokens -/

/-- C14: after a rebind of identity `U` to a new origin with a new issuance
time `T2`, every token that decodes to the identity `U`, an issuance time
`T1` other than `T2` and the origin `O1`, presented from `O1`, is refused
with the not-found error, because no record matches `(U, T1)`; the answer is
401 and the store, so the credit, is unchanged. -/
theorem old_token_not_found (lib : Lib) (up : Bool) (db : VerifyDb) (order : Order)
    (O1 O2 token : GoString) (now later : Time) (rnd : List Byte) (st st2 : Store)
    (f : Frame) (p : Payload)
    (hdec : decodeToken lib token = .ok (f, p)) (hfu : f.userID = order.UserID)
    (hpo : p.IP = O1)
    (hrebind : handleChangeIPSuccess lib up order O2 now rnd st = .ok st2)
    (hne : Int.tdiv now 1000000 ≠ f.timestamp)
    (hpub : isValidPublicIP lib O1 = true) :
    decryptAndValidateToken lib true st2 token O1 =
      { payload := none, record := none, err := some .notFound } ∧
    verifyHandler lib db (.ok token) O1 later st2 =
      (⟨401, { Success := false, Message := "Token无效或IP不匹配", UserID := [], Limit := 0 }⟩,
        st2) := by
  obtain ⟨tok, _, hupd⟩ := handleChangeIPSuccess_ok lib _ _ _ _ _ _ _ hrebind
  obtain ⟨_, _, _, _, hu⟩ := updateUserIPAndToken_ok _ _ _ _ _ _ _ _ hupd
  have hfind : st2.users.find? (fun record =>
      record.UserID == f.userID && record.Timestamp == f.timestamp) = none := by
    rw [hu]
    apply List.find?_eq_none.mpr
    intro x hx
    obtain ⟨y, _, hy⟩ := List.mem_map.mp hx
    by_cases hyu : y.UserID = order.UserID
    · simp only [hyu, if_true] at hy
      subst hy
      simp [hne]
    · simp only [hyu, if_false] at hy
      subst hy
      simp [hfu, hyu]
  have hhex := hexDecode_isNone_of_decodeToken lib token f p hdec
  have hv : ∀ b, ∃ e, decryptAndValidateToken lib b st2 token O1 =
      { payload := none, record := none, err := some e } ∧ (b = true → e = .notFound) := by
    intro b
    unfold decryptAndValidateToken loadDatabase
    rw [hdec]
    cases b
    · exact ⟨.loadDatabase, by simp [hpo], by simp⟩
    · exact ⟨.notFound, by simp [hpo, hfind], fun _ => rfl⟩
  constructor
  · obtain ⟨e, he, hk⟩ := hv true
    rw [he, hk rfl]
  · obtain ⟨e, he, _⟩ := hv db.load
    unfold verifyHandler
    simp [hpub, hhex, he]

set_option maxRecDepth 100000 in
/-- Witness of C14: identity `"42"`, bound to `"203.0.113.9"` at
`1700000000000`, is rebound to `"198.51.100.7"` at `1800000000000`; the old
token is presented from `"203.0.113.9"`. -/
theorem old_token_not_found_witness :
    decryptAndValidateToken demoLib true rebound42 token42 origin0 =
      { payload := none, record := none, err := some .notFound } ∧
    verifyHandler demoLib VerifyDb.up (.ok token42) origin0 7 rebound42 =
      (⟨401, { Success := false, Message := "Token无效或IP不匹配", UserID := [], Limit := 0 }⟩,
        rebound42) :=
  old_token_not_found demoLib true VerifyDb.up
    (pendingOrder (str "CHANGE_IP_42_1") id42 0 1 (str "E4")) origin0 (str "198.51.100.7") token42
    nowNs 7 rnd0 (storeOf id42 3) rebound42
    { timestamp := ts0, userID := id42, nonce := rnd0,
      ciphertext := demoSeal (derivedKey demoLib id42 ts0) rnd0
        (demoMarshal { UserID := id42, IP := origin0, Timestamp := ts0 }) }
    { UserID := id42, IP := origin0, Timestamp := ts0 }
    (by decide) (by decide) (by decide) (by decide) (by decide) (by decide)

/-! ## C15: order resolution -/

/-- C15: for every notification that passed the gate, with `u` the part of
`param` before the first `|`: when `u` is not empty and a pending order of
`u` exists, the target order is a pending order of `u` created no earlier
than any other pending order of `u`; otherwise it is the (first) order whose
gateway order id equals `orderId`; and when no order is resolved the answer
is `fail` with status 404 and the store is unchanged.  The two queries are
taken to be executed by the database. -/
theorem order_resolution (lib : Lib) (cfg : Config) (db : NotifyDb) (params : Params)
    (now : Time) (rnd : List Byte) (st : Store)
    (hpresent : ∀ k ∈ [str "mchId", str "orderId", str "type", str "price", str "reallyPrice",
      str "sign"], (params.lookup k).isSome = true)
    (hmch : params.get (str "mchId") = cfg.MchID)
    (hsign : params.get (str "sign") = generateMD5 lib (signString cfg params)) :
    ((params.get (str "param")).takeWhile (fun c => c ≠ 124) ≠ [] →
      (∃ x ∈ st.orders, x.UserID = (params.get (str "param")).takeWhile (fun c => c ≠ 124) ∧
        x.Status = str "pending") →
      ∃ o, resolveOrder NotifyDb.up st params = some o ∧ o ∈ st.orders ∧
        o.UserID = (params.get (str "param")).takeWhile (fun c => c ≠ 124) ∧
        o.Status = str "pending" ∧
        ∀ x ∈ st.orders, x.UserID = (params.get (str "param")).takeWhile (fun c => c ≠ 124) →
          x.Status = str "pending" → x.CreateTime ≤ o.CreateTime) ∧
    (((params.get (str "param")).takeWhile (fun c => c ≠ 124) = [] ∨
        ¬ ∃ x ∈ st.orders, x.UserID = (params.get (str "param")).takeWhile (fun c => c ≠ 124) ∧
          x.Status = str "pending") →
      resolveOrder NotifyDb.up st params =
        st.orders.find? (fun o => o.OrderID == params.get (str "orderId"))) ∧
    (resolveOrder db st params = none →
      notifyHandler lib cfg db params now rnd st = (⟨404, "fail"⟩, st)) := by
  refine ⟨?_, ?_, ?_⟩
  · intro hu ⟨x, hx, hxu, hxs⟩
    have hne : st.orders.filter (fun o =>
        o.UserID == (params.get (str "param")).takeWhile (fun c => c ≠ 124) &&
          o.Status == str "pending") ≠ [] := by
      intro h
      have : x ∈ st.orders.filter (fun o =>
          o.UserID == (params.get (str "param")).takeWhile (fun c => c ≠ 124) &&
            o.Status == str "pending") := by
        simp [List.mem_filter, hx, hxu, hxs]
      rw [h] at this
      simp at this
    obtain ⟨o, ho, hmem, hall⟩ := (foldl_laterOrder_none _).2 hne
    have hmem' := List.mem_filter.mp hmem
    simp only [Bool.and_eq_true, beq_iff_eq] at hmem'
    refine ⟨o, ?_, hmem'.1, hmem'.2.1, hmem'.2.2, ?_⟩
    · unfold resolveOrder
      simp only [splitBy_headD, hu, ne_eq, not_false_eq_true, if_true,
        getLatestPendingOrderByUserID, NotifyDb.up, ho]
    · intro y hy hyu hys
      exact hall y (by simp [List.mem_filter, hy, hyu, hys])
  · intro h
    unfold resolveOrder
    dsimp only
    rw [splitBy_headD]
    have hfirst : (if (params.get (str "param")).takeWhile (fun c => c ≠ 124) ≠ [] then
          match getLatestPendingOrderByUserID NotifyDb.up.latestPending st
              ((params.get (str "param")).takeWhile (fun c => c ≠ 124)) with
          | .ok o => o
          | .error _ => none
        else none) = none := by
      by_cases hu : (params.get (str "param")).takeWhile (fun c => c ≠ 124) = []
      · simp only [hu, ne_eq, not_true_eq_false, if_false]
      · have hnil : st.orders.filter (fun o =>
            o.UserID == (params.get (str "param")).takeWhile (fun c => c ≠ 124) &&
              o.Status == str "pending") = [] := by
          apply List.filter_eq_nil_iff.mpr
          intro y hy hp
          simp only [Bool.and_eq_true, beq_iff_eq] at hp
          rcases h with h | h
          · exact hu h
          · exact h ⟨y, hy, hp.1, hp.2⟩
        simp only [hu, ne_eq, not_false_eq_true, if_true, getLatestPendingOrderByUserID,
          NotifyDb.up, hnil, List.foldl_nil]
    rw [hfirst]
    simp only [getOrderByEpayOrderID, NotifyDb.up, if_true]
  · intro hnone
    unfold notifyHandler
    simp only [(requiredParams_any params).mpr hpresent, hmch, hsign, hnone, Bool.false_eq_true,
      if_false, ne_eq, not_true_eq_false]

set_option maxRecDepth 100000 in
/-- Witness of C15: the notification for gateway order `E2` of identity `"7"`
against the two pending purchases. -/
theorem order_resolution_witness :
    (((signedNote (str "E2") (str "7")).get (str "param")).takeWhile (fun c => c ≠ 124) ≠ [] →
      (∃ x ∈ twoPurchases.orders,
        x.UserID = ((signedNote (str "E2") (str "7")).get (str "param")).takeWhile
          (fun c => c ≠ 124) ∧ x.Status = str "pending") →
      ∃ o, resolveOrder NotifyDb.up twoPurchases (signedNote (str "E2") (str "7")) = some o ∧
        o ∈ twoPurchases.orders ∧
        o.UserID = ((signedNote (str "E2") (str "7")).get (str "param")).takeWhile
          (fun c => c ≠ 124) ∧
        o.Status = str "pending" ∧
        ∀ x ∈ twoPurchases.orders,
          x.UserID = ((signedNote (str "E2") (str "7")).get (str "param")).takeWhile
            (fun c => c ≠ 124) →
          x.Status = str "pending" → x.CreateTime ≤ o.CreateTime) ∧
    ((((signedNote (str "E2") (str "7")).get (str "param")).takeWhile (fun c => c ≠ 124) = [] ∨
        ¬ ∃ x ∈ twoPurchases.orders,
          x.UserID = ((signedNote (str "E2") (str "7")).get (str "param")).takeWhile
            (fun c => c ≠ 124) ∧ x.Status = str "pending") →
      resolveOrder NotifyDb.up twoPurchases (signedNote (str "E2") (str "7")) =
        twoPurchases.orders.find? (fun o =>
          o.OrderID == (signedNote (str "E2") (str "7")).get (str "orderId"))) ∧
    (resolveOrder NotifyDb.up twoPurchases (signedNote (str "E2") (str "7")) = none →
      notifyHandler demoLib cfg0 NotifyDb.up (signedNote (str "E2") (str "7")) 100 rnd0
        twoPurchases = (⟨404, "fail"⟩, twoPurchases)) :=
  order_resolution demoLib cfg0 NotifyDb.up (signedNote (str "E2") (str "7")) 100 rnd0
    twoPurchases (by decide) (by decide) (by decide)

/-! ## C16: redemption of a credit code -/

theorem find_key (keys : List KeyRecord) (kr : KeyRecord) (hr : kr ∈ keys)
    (huniq : (keys.map KeyRecord.Key).Nodup) :
    keys.find? (fun k => k.Key == kr.Key) = some kr := by
  cases h : keys.find? (fun k => k.Key == kr.Key) with
  | none =>
    have := List.find?_eq_none.mp h kr hr
    simp at this
  | some x =>
    have hx := List.find?_some h
    have hmem := List.mem_of_find?_eq_some h
    simp only [beq_iff_eq] at hx
    rw [List.inj_on_of_nodup_map huniq hmem hr hx]

/-- C16: for every ledger (one row per code) containing code `k` unused with
grant amount `g`, and every identity, `useKey`, the database executing its
statements, returns `g` and leaves the row of `k` with `used = true`,
`used_by = identity` and the time of use; every other code, the entitlement
records and the orders are unchanged: the ledger does not grant the credit. -/
theorem redeem_success (st : Store) (kr : KeyRecord) (k identity : GoString) (g : Int)
    (now : Time)
    (hr : kr ∈ st.keys) (hk : kr.Key = k) (hunused : kr.Used = false) (hg : kr.AddLimit = g)
    (huniq : (st.keys.map KeyRecord.Key).Nodup) :
    useKey KeyDb.up st k identity now =
      (.ok g,
       { users := st.users,
         keys := st.keys.map (fun x =>
           if x = kr then { kr with Used := true, UsedBy := some identity, UsedAt := some now }
           else x),
         orders := st.orders }) := by
  subst hk hg
  have hfind := find_key st.keys kr hr huniq
  have hmap : st.keys.map (markUsed kr.Key identity now) = st.keys.map (fun x =>
      if x = kr then { kr with Used := true, UsedBy := some identity, UsedAt := some now }
      else x) := by
    apply List.map_congr_left
    intro x hx
    unfold markUsed
    by_cases hxr : x = kr
    · subst hxr
      simp only [if_true]
    · have hne : x.Key ≠ kr.Key := fun h => hxr (List.inj_on_of_nodup_map huniq hx hr h)
      simp only [hne, hxr, if_false]
  unfold useKey
  simp only [KeyDb.up, Bool.not_true, Bool.false_eq_true, if_false, hfind, hunused, hmap]

set_option maxRecDepth 100000 in
/-- Witness of C16: identity `"42"` redeems `"k1"`, worth 20. -/
theorem redeem_success_witness :
    useKey KeyDb.up ledger0 (str "k1") id42 9 =
      (.ok 20,
       { users := ledger0.users,
         keys := ledger0.keys.map (fun x =>
           if x = freshKey (str "k1") 20 then
             { freshKey (str "k1") 20 with Used := true, UsedBy := some id42, UsedAt := some 9 }
           else x),
         orders := ledger0.orders }) :=
  redeem_success ledger0 (freshKey (str "k1") 20) (str "k1") id42 20 9
    (by decide) (by decide) (by decide) (by decide) (by decide)

/-! ## C17: a code is used once -/

theorem useKey_cases (db : KeyDb) (st : Store) (k identity : GoString) (now : Time) :
    (∃ e, useKey db st k identity now = (.error e, st)) ∨
    (∃ row, st.keys.find? (fun y => y.Key == k) = some row ∧ row.Used = false ∧
      useKey db st k identity now =
        (.ok row.AddLimit, { st with keys := st.keys.map (markUsed k identity now) })) := by
  unfold useKey
  by_cases h1 : (!db.beginTx) = true
  · rw [if_pos h1]; exact Or.inl ⟨_, rfl⟩
  rw [if_neg h1]
  by_cases h2 : (!db.query) = true
  · rw [if_pos h2]; exact Or.inl ⟨_, rfl⟩
  rw [if_neg h2]
  cases hf : st.keys.find? (fun y => y.Key == k) with
  | none => exact Or.inl ⟨_, rfl⟩
  | some row =>
    dsimp only
    by_cases h3 : row.Used = true
    · rw [if_pos h3]; exact Or.inl ⟨_, rfl⟩
    rw [if_neg h3]
    by_cases h4 : (!db.update) = true
    · rw [if_pos h4]; exact Or.inl ⟨_, rfl⟩
    rw [if_neg h4]
    by_cases h5 : (!db.commit) = true
    · rw [if_pos h5]; exact Or.inl ⟨_, rfl⟩
    rw [if_neg h5]
    exact Or.inr ⟨row, rfl, by simpa using h3, rfl⟩

theorem useKey_error_unchanged (db : KeyDb) (st : Store) (k identity : GoString) (now : Time)
    (e : KeyError) (h : (useKey db st k identity now).1 = .error e) :
    (useKey db st k identity now).2 = st := by
  rcases useKey_cases db st k identity now with ⟨e2, he⟩ | ⟨row, _, _, hok⟩
  · rw [he]
  · rw [hok] at h
    cases h

/-- Once every row of code `k` is used by `first`, a redemption request
leaves it so. -/
theorem useKey_keeps_used (db : KeyDb) (st : Store) (k first key identity : GoString)
    (now : Time)
    (hex : ∃ x ∈ st.keys, x.Key = k)
    (hall : ∀ x ∈ st.keys, x.Key = k → x.Used = true ∧ x.UsedBy = some first) :
    (∃ x ∈ (useKey db st key identity now).2.keys, x.Key = k) ∧
    (∀ x ∈ (useKey db st key identity now).2.keys, x.Key = k →
      x.Used = true ∧ x.UsedBy = some first) := by
  cases hres : (useKey db st key identity now).1 with
  | error e =>
    rw [useKey_error_unchanged db st key identity now e hres]
    exact ⟨hex, hall⟩
  | ok g =>
    rcases useKey_cases db st key identity now with ⟨e2, he⟩ | ⟨row, hf, hunused, hok⟩
    · rw [he] at hres
      cases hres
    have hkey : key ≠ k := by
      intro hkk
      subst hkk
      have hrk := List.find?_some hf
      have hrm := List.mem_of_find?_eq_some hf
      simp only [beq_iff_eq] at hrk
      have hused := (hall row hrm hrk).1
      rw [hunused] at hused
      cases hused
    have hkeys : (useKey db st key identity now).2.keys =
        st.keys.map (markUsed key identity now) := by
      rw [hok]
    rw [hkeys]
    have hfix : ∀ x : KeyRecord, x.Key = k → markUsed key identity now x = x := by
      intro x hxk
      unfold markUsed
      have : x.Key ≠ key := by rw [hxk]; exact fun h => hkey h.symm
      simp only [this, if_false]
    have hkeyOf : ∀ x : KeyRecord, (markUsed key identity now x).Key = x.Key := by
      intro x
      unfold markUsed
      split <;> rfl
    constructor
    · obtain ⟨x, hx, hxk⟩ := hex
      exact ⟨x, List.mem_map.mpr ⟨x, hx, hfix x hxk⟩, hxk⟩
    · intro y hy hyk
      obtain ⟨x, hx, hxy⟩ := List.mem_map.mp hy
      have hxk : x.Key = k := by rw [← hkeyOf x, hxy]; exact hyk
      rw [hfix x hxk] at hxy
      subst hxy
      exact hall x hx hxk

theorem redeemAll_keeps_used (ops : List RedeemOp) (st : Store) (k first : GoString)
    (hex : ∃ x ∈ st.keys, x.Key = k)
    (hall : ∀ x ∈ st.keys, x.Key = k → x.Used = true ∧ x.UsedBy = some first) :
    (∃ x ∈ (redeemAll ops st).keys, x.Key = k) ∧
    (∀ x ∈ (redeemAll ops st).keys, x.Key = k → x.Used = true ∧ x.UsedBy = some first) := by
  induction ops generalizing st with
  | nil => exact ⟨hex, hall⟩
  | cons op ops ih =>
    have h := useKey_keeps_used op.db st k first op.key op.userID op.now hex hall
    exact ih _ h.1 h.2

theorem useKey_used (st : Store) (k first identity : GoString) (now : Time)
    (hex : ∃ x ∈ st.keys, x.Key = k)
    (hall : ∀ x ∈ st.keys, x.Key = k → x.Used = true ∧ x.UsedBy = some first) :
    useKey KeyDb.up st k identity now = (.error .alreadyUsed, st) := by
  obtain ⟨x, hx, hxk⟩ := hex
  unfold useKey
  cases hf : st.keys.find? (fun y => y.Key == k) with
  | none =>
    have := List.find?_eq_none.mp hf x hx
    simp [hxk] at this
  | some row =>
    have hrk := List.find?_some hf
    have hrm := List.mem_of_find?_eq_some hf
    simp only [beq_iff_eq] at hrk
    have hused := (hall row hrm hrk).1
    simp only [KeyDb.up, Bool.not_true, Bool.false_eq_true, if_false, hused, if_true]

/-- C17: on a ledger with one row per code and a database that executes the
statements, `useKey` fails with the not-found error exactly when the code is
not in the ledger and with the already-used error exactly when the code is in
the ledger with `used = true`; every failing call leaves the store unchanged;
and after one successful redemption of `k` by `identity`, whatever redemption
requests follow, the rows of `k` stay used with `used_by = identity` and a
further redemption of `k` by any identity fails with the already-used error. -/
theorem single_use (st : Store) (k identity : GoString) (now : Time)
    (huniq : (st.keys.map KeyRecord.Key).Nodup) :
    ((useKey KeyDb.up st k identity now).1 = .error .notFound ↔ ∀ x ∈ st.keys, x.Key ≠ k) ∧
    ((useKey KeyDb.up st k identity now).1 = .error .alreadyUsed ↔
      ∃ x ∈ st.keys, x.Key = k ∧ x.Used = true) ∧
    (∀ db e, (useKey db st k identity now).1 = .error e →
      (useKey db st k identity now).2 = st) ∧
    (∀ g, (useKey KeyDb.up st k identity now).1 = .ok g →
      ∀ (ops : List RedeemOp) (other : GoString) (later : Time),
        useKey KeyDb.up (redeemAll ops (useKey KeyDb.up st k identity now).2) k other later =
          (.error .alreadyUsed, redeemAll ops (useKey KeyDb.up st k identity now).2) ∧
        (∃ x ∈ (redeemAll ops (useKey KeyDb.up st k identity now).2).keys, x.Key = k) ∧
        ∀ x ∈ (redeemAll ops (useKey KeyDb.up st k identity now).2).keys, x.Key = k →
          x.Used = true ∧ x.UsedBy = some identity) := by
  have hcases : ∀ row, st.keys.find? (fun y => y.Key == k) = some row →
      row ∈ st.keys ∧ row.Key = k := by
    intro row hf
    have hrk := List.find?_some hf
    simp only [beq_iff_eq] at hrk
    exact ⟨List.mem_of_find?_eq_some hf, hrk⟩
  refine ⟨?_, ?_, ?_, ?_⟩
  · unfold useKey
    simp only [KeyDb.up, Bool.not_true, Bool.false_eq_true, if_false]
    cases hf : st.keys.find? (fun y => y.Key == k) with
    | none =>
      simp only [true_iff]
      intro x hx hxk
      have := List.find?_eq_none.mp hf x hx
      simp [hxk] at this
    | some row =>
      obtain ⟨hrm, hrk⟩ := hcases row hf
      constructor
      · intro h
        dsimp only at h
        split at h <;> cases h
      · intro h
        exact absurd hrk (h row hrm)
  · unfold useKey
    simp only [KeyDb.up, Bool.not_true, Bool.false_eq_true, if_false]
    cases hf : st.keys.find? (fun y => y.Key == k) with
    | none =>
      constructor
      · intro h; cases h
      · intro ⟨x, hx, hxk, _⟩
        have := List.find?_eq_none.mp hf x hx
        simp [hxk] at this
    | some row =>
      obtain ⟨hrm, hrk⟩ := hcases row hf
      dsimp only
      constructor
      · intro h
        split at h
        · rename_i hu
          exact ⟨row, hrm, hrk, hu⟩
        · cases h
      · intro ⟨x, hx, hxk, hxu⟩
        have : x = row := List.inj_on_of_nodup_map huniq hx hrm (by rw [hxk, hrk])
        subst this
        simp only [hxu, if_true]
  · intro db e h
    exact useKey_error_unchanged db st k identity now e h
  · intro g hg ops other later
    have hstate : (∃ x ∈ (useKey KeyDb.up st k identity now).2.keys, x.Key = k) ∧
        (∀ x ∈ (useKey KeyDb.up st k identity now).2.keys, x.Key = k →
          x.Used = true ∧ x.UsedBy = some identity) := by
      unfold useKey at hg ⊢
      simp only [KeyDb.up, Bool.not_true, Bool.false_eq_true, if_false] at hg ⊢
      cases hf : st.keys.find? (fun y => y.Key == k) with
      | none => rw [hf] at hg; cases hg
      | some row =>
        obtain ⟨hrm, hrk⟩ := hcases row hf
        rw [hf] at hg
        dsimp only at hg ⊢
        split at hg
        · cases hg
        · rename_i hu
          simp only [hu, Bool.false_eq_true, if_false]
          constructor
          · refine ⟨markUsed k identity now row, List.mem_map.mpr ⟨row, hrm, rfl⟩, ?_⟩
            unfold markUsed
            simp only [hrk, if_true]
          · intro y hy hyk
            obtain ⟨x, _, hxy⟩ := List.mem_map.mp hy
            unfold markUsed at hxy
            by_cases hxk : x.Key = k
            · simp only [hxk, if_true] at hxy
              subst hxy
              exact ⟨rfl, rfl⟩
            · simp only [hxk, if_false] at hxy
              subst hxy
              exact absurd hyk hxk
    have hfinal := redeemAll_keeps_used ops _ k identity hstate.1 hstate.2
    exact ⟨useKey_used _ k identity other later hfinal.1 hfinal.2, hfinal.1, hfinal.2⟩

set_option maxRecDepth 100000 in
/-- Witness of C17: the ledger with the unused codes `"k1"` and `"k2"`. -/
theorem single_use_witness :
    ((useKey KeyDb.up ledger0 (str "k1") id42 9).1 = .error .notFound ↔
      ∀ x ∈ ledger0.keys, x.Key ≠ str "k1") ∧
    ((useKey KeyDb.up ledger0 (str "k1") id42 9).1 = .error .alreadyUsed ↔
      ∃ x ∈ ledger0.keys, x.Key = str "k1" ∧ x.Used = true) ∧
    (∀ db e, (useKey db ledger0 (str "k1") id42 9).1 = .error e →
      (useKey db ledger0 (str "k1") id42 9).2 = ledger0) ∧
    (∀ g, (useKey KeyDb.up ledger0 (str "k1") id42 9).1 = .ok g →
      ∀ (ops : List RedeemOp) (other : GoString) (later : Time),
        useKey KeyDb.up (redeemAll ops (useKey KeyDb.up ledger0 (str "k1") id42 9).2) (str "k1")
            other later =
          (.error .alreadyUsed, redeemAll ops (useKey KeyDb.up ledger0 (str "k1") id42 9).2) ∧
        (∃ x ∈ (redeemAll ops (useKey KeyDb.up ledger0 (str "k1") id42 9).2).keys,
          x.Key = str "k1") ∧
        ∀ x ∈ (redeemAll ops (useKey KeyDb.up ledger0 (str "k1") id42 9).2).keys,
          x.Key = str "k1" → x.Used = true ∧ x.UsedBy = some id42) :=
  single_use ledger0 (str "k1") id42 9 (by decide)

/-! ## C18: concurrent verification -/

/-- The two stages of a request, run without interruption, are `verifyHandler`. -/
theorem verifyHandler_stages (lib : Lib) (db : VerifyDb) (req : Except String GoString)
    (clientIP : GoString) (now : Time) (st : Store) :
    verifyHandler lib db req clientIP now st =
      match verifyCheck lib db req clientIP st with
      | .replied reply => (reply, st)
      | .matched matchedRecord => verifyCharge db matchedRecord now st := by
  unfold verifyHandler verifyCheck verifyCharge
  cases req with
  | error e => rfl
  | ok token =>
    dsimp only
    split
    · rfl
    · split
      · rfl
      · split
        · rfl
        · rfl
        · split
          · rfl
          · rfl

set_option maxRecDepth 100000 in
/-- C18 (code defect): two requests present the valid token of identity `"42"`,
whose record has credit 1.  When one runs after the other, the first is
answered 200 and the second 403, and the stored credit is 0.  When both pass
the credit check before either decrements (schedule 0, 1, 0, 1), both are
answered 200 with remaining credit 0 and the stored credit is -1. -/
theorem concurrent_verify_overdraws :
    (verifyRun demoLib token42 origin0 nowNs [0, 0, 1, 1]
        ⟨storeOf id42 1, [none, none]⟩).statuses = [some 200, some 403] ∧
    (verifyRun demoLib token42 origin0 nowNs [0, 0, 1, 1]
        ⟨storeOf id42 1, [none, none]⟩).store.users.map UserRecord.Limit = [0] ∧
    (verifyRun demoLib token42 origin0 nowNs [0, 1, 0, 1]
        ⟨storeOf id42 1, [none, none]⟩).attempts =
      [some (.replied ⟨200, { Success := true, Message := "验证成功", UserID := id42,
                               Limit := 0 }⟩),
       some (.replied ⟨200, { Success := true, Message := "验证成功", UserID := id42,
                               Limit := 0 }⟩)] ∧
    (verifyRun demoLib token42 origin0 nowNs [0, 1, 0, 1]
        ⟨storeOf id42 1, [none, none]⟩).store.users.map UserRecord.Limit = [-1] := by
  decide

/-! ## C19: concurrent redemption -/

theorem getElem?_set_cases {α : Type} (l : List α) (i j : Nat) (v : α) (hi : i < l.length) :
    (l.set i v)[j]? = if j = i then some v else l[j]? := by
  by_cases h : j = i
  · subst h
    rw [List.getElem?_set_self hi, if_pos rfl]
  · rw [List.getElem?_set_ne (fun e => h e.symm), if_neg h]

theorem redeemStart_inv (st : Store) (key : GoString) (ids : List GoString) (row : KeyRecord) :
    RedeemInv st key ids row (redeemStart st ids) := by
  have hget : ∀ i : Nat, (List.replicate ids.length (none : Option RedeemStage))[i]? = none ∨
      (List.replicate ids.length (none : Option RedeemStage))[i]? = some none := by
    intro i
    rw [List.getElem?_replicate]
    split
    · exact Or.inr rfl
    · exact Or.inl rfl
  refine ⟨List.length_replicate _ _, ?_, Or.inl ⟨rfl, ?_⟩⟩
  · intro i
    unfold redeemStart
    dsimp only
    rcases hget i with h | h <;> rw [h] <;> simp [holdsLock]
  · intro i
    unfold redeemStart
    dsimp only
    rcases hget i with h | h <;> rw [h] <;> trivial

theorem redeemStep_inv (st : Store) (key : GoString) (ids : List GoString) (row : KeyRecord)
    (now : Time) (i : Nat) (s : RedeemRun)
    (hrow : st.keys.find? (fun k => k.Key == key) = some row) (hunused : row.Used = false)
    (h : RedeemInv st key ids row s) :
    RedeemInv st key ids row (redeemStep key ids now i s) := by
  obtain ⟨hlen, hlock, hphase⟩ := h
  have hrowmem : row ∈ st.keys ∧ row.Key = key := by
    have hrk := List.find?_some hrow
    simp only [beq_iff_eq] at hrk
    exact ⟨List.mem_of_find?_eq_some hrow, hrk⟩
  unfold redeemStep
  cases hai : s.attempts[i]? with
  | none => exact ⟨hlen, hlock, hphase⟩
  | some a =>
    have hi : i < s.attempts.length := (List.getElem?_eq_some.mp hai).1
    have hEarly : ∀ (v : Option RedeemStage) (g : Int), Early g (some v) →
        (∀ j : Nat, Early g s.attempts[j]?) → ∀ j : Nat, Early g (s.attempts.set i v)[j]? := by
      intro v g hv hall j
      rw [getElem?_set_cases _ _ _ _ hi]
      split
      · exact hv
      · exact hall j
    have hLate : ∀ (v : Option RedeemStage) (w : Nat), Late (some v) →
        (∀ j : Nat, j ≠ w → Late s.attempts[j]?) → ∀ j : Nat, j ≠ w → Late (s.attempts.set i v)[j]? := by
      intro v w hv hall j hj
      rw [getElem?_set_cases _ _ _ _ hi]
      split
      · exact hv
      · exact hall j hj
    have hwin : ∀ (v : Option RedeemStage) (w : Nat), w ≠ i →
        (s.attempts.set i v)[w]? = s.attempts[w]? := by
      intro v w hw
      rw [getElem?_set_cases _ _ _ _ hi, if_neg hw]
    cases a with
    | none =>
      dsimp only
      cases hf : s.store.keys.find? (fun k => k.Key == key) with
      | none =>
        exfalso
        rcases hphase with ⟨hst, _⟩ | ⟨w, _, _, ⟨x, hx, hxk⟩, _, _⟩
        · rw [hst, hrow] at hf
          cases hf
        · have := List.find?_eq_none.mp hf x hx
          simp [hxk] at this
      | some r =>
        dsimp only
        cases hl : s.lock with
        | some j =>
          simp only [Option.isSome_some, if_true]
          exact ⟨hlen, hlock, hphase⟩
        | none =>
          simp only [Option.isSome_none, Bool.false_eq_true, if_false]
          have hfree : ∀ j : Nat, holdsLock s.attempts[j]? = false := by
            intro j
            cases hh : holdsLock s.attempts[j]? with
            | false => rfl
            | true =>
              have := (hlock j).mpr hh
              rw [hl] at this
              cases this
          refine ⟨by rw [List.length_set]; exact hlen, ?_, ?_⟩
          · intro j
            dsimp only
            rw [getElem?_set_cases _ _ _ _ hi]
            by_cases hj : j = i
            · subst hj
              simp [holdsLock]
            · rw [if_neg hj, hfree j]
              simp only [Option.some.injEq, Bool.false_eq_true, iff_false]
              exact fun e => hj e.symm
          · rcases hphase with ⟨hst, hall⟩ | ⟨w, hw, haw, hex, hused, hall⟩
            · left
              refine ⟨hst, hEarly _ _ ?_ hall⟩
              rw [hst, hrow] at hf
              cases hf
              exact ⟨rfl, hunused⟩
            · right
              have hwi : w ≠ i := by
                intro e
                subst e
                rw [hai] at haw
                cases haw
              refine ⟨w, hw, by dsimp only; rw [hwin _ w hwi]; exact haw, hex, hused,
                hLate _ w ?_ hall⟩
              have hrk := List.find?_some hf
              simp only [beq_iff_eq] at hrk
              exact (hused r (List.mem_of_find?_eq_some hf) hrk).1
    | some stage =>
      have hothers : s.lock = some i → ∀ j : Nat, j ≠ i → holdsLock s.attempts[j]? = false := by
        intro hli j hj
        cases hh : holdsLock s.attempts[j]? with
        | false => rfl
        | true =>
          have := (hlock j).mpr hh
          rw [hli] at this
          exact absurd (Option.some.inj this).symm hj
      have hreleased : s.lock = some i → ∀ (v : Except KeyError Int) (j : Nat),
          release i s.lock = some j ↔
            holdsLock (s.attempts.set i (some (.returned v)))[j]? = true := by
        intro hli v j
        rw [hli]
        unfold release
        rw [if_pos rfl, getElem?_set_cases _ _ _ _ hi]
        by_cases hj : j = i
        · subst hj
          simp [holdsLock]
        · rw [if_neg hj, hothers hli j hj]
          simp
      cases stage with
      | locked a u =>
        dsimp only
        have hli : s.lock = some i := (hlock i).mpr (by rw [hai]; rfl)
        cases u with
        | true =>
          simp only [if_true]
          refine ⟨by rw [List.length_set]; exact hlen, hreleased hli _, ?_⟩
          rcases hphase with ⟨hst, hall⟩ | ⟨w, hw, haw, hex, hused, hall⟩
          · exfalso
            have := hall i
            rw [hai] at this
            exact Bool.noConfusion this.2
          · right
            have hwi : w ≠ i := by
              intro e
              subst e
              rw [hai] at haw
              cases haw
            exact ⟨w, hw, by dsimp only; rw [hwin _ w hwi]; exact haw, hex, hused,
              hLate _ w rfl hall⟩
        | false =>
          simp only [Bool.false_eq_true, if_false]
          refine ⟨by rw [List.length_set]; exact hlen, ?_, ?_⟩
          · intro j
            dsimp only
            rw [getElem?_set_cases _ _ _ _ hi]
            by_cases hj : j = i
            · subst hj
              simp [holdsLock, hli]
            · rw [if_neg hj]
              exact hlock j
          · rcases hphase with ⟨hst, hall⟩ | ⟨w, hw, haw, hex, hused, hall⟩
            · left
              refine ⟨hst, hEarly _ _ ?_ hall⟩
              have := hall i
              rw [hai] at this
              exact this.1
            · exfalso
              have hwi : i ≠ w := by
                intro e
                subst e
                rw [hai] at haw
                cases haw
              have := hall i hwi
              rw [hai] at this
              exact Bool.noConfusion this
      | updated a =>
        dsimp only
        have hli : s.lock = some i := (hlock i).mpr (by rw [hai]; rfl)
        refine ⟨by rw [List.length_set]; exact hlen, hreleased hli _, ?_⟩
        rcases hphase with ⟨hst, hall⟩ | ⟨w, hw, haw, hex, hused, hall⟩
        · right
          have hag : a = row.AddLimit := by
            have := hall i
            rw [hai] at this
            exact this
          refine ⟨i, by rw [← hlen]; exact hi, ?_, ?_, ?_, ?_⟩
          · dsimp only
            rw [List.getElem?_set_self hi, hag]
          · dsimp only
            rw [hst]
            refine ⟨markUsed key (ids.getD i []) now row,
              List.mem_map.mpr ⟨row, hrowmem.1, rfl⟩, ?_⟩
            unfold markUsed
            simp only [hrowmem.2, if_true]
          · intro y hy hyk
            dsimp only at hy
            obtain ⟨x, _, hxy⟩ := List.mem_map.mp hy
            unfold markUsed at hxy
            by_cases hxk : x.Key = key
            · simp only [hxk, if_true] at hxy
              subst hxy
              exact ⟨rfl, rfl⟩
            · simp only [hxk, if_false] at hxy
              subst hxy
              exact absurd hyk hxk
          · intro j hj
            dsimp only
            rw [hwin _ j hj]
            have he := hall j
            have hn := hothers hli j hj
            cases hj2 : s.attempts[j]? with
            | none => trivial
            | some v =>
              rw [hj2] at he hn
              cases v with
              | none => trivial
              | some sg =>
                cases sg with
                | locked _ _ => exact Bool.noConfusion hn
                | updated _ => exact Bool.noConfusion hn
                | returned r => exact he.elim
        · exfalso
          have hwi : i ≠ w := by
            intro e
            subst e
            rw [hai] at haw
            cases haw
          have := hall i hwi
          rw [hai] at this
          exact this
      | returned r => exact ⟨hlen, hlock, hphase⟩

theorem redeemRun_inv (st : Store) (key : GoString) (ids : List GoString) (row : KeyRecord)
    (now : Time) (schedule : List Nat) (s : RedeemRun)
    (hrow : st.keys.find? (fun k => k.Key == key) = some row) (hunused : row.Used = false)
    (h : RedeemInv st key ids row s) :
    RedeemInv st key ids row (redeemRun key ids now schedule s) := by
  induction schedule generalizing s with
  | nil => exact h
  | cons i rest ih => exact ih _ (redeemStep_inv st key ids row now i s hrow hunused h)

theorem finished_returned (s : RedeemRun) (hfin : s.finished = true) (i : Nat)
    (hi : i < s.attempts.length) : ∃ r, s.attempts[i]? = some (some (.returned r)) := by
  unfold RedeemRun.finished at hfin
  have h := List.all_eq_true.mp hfin s.attempts[i] (List.getElem_mem hi)
  rw [List.getElem?_eq_getElem hi]
  cases hv : s.attempts[i] with
  | none => rw [hv] at h; cases h
  | some sg =>
    rw [hv] at h
    cases sg with
    | locked _ _ => cases h
    | updated _ => cases h
    | returned r => exact ⟨r, rfl⟩

/-- A call that runs its three statements without another call in between
behaves as `useKey`. -/
theorem redeem_alone (key : GoString) (ids : List GoString) (now : Time) (i : Nat)
    (s : RedeemRun) (hl : s.lock = none) (hai : s.attempts[i]? = some none) :
    redeemRun key ids now [i, i, i] s =
      { store := (useKey KeyDb.up s.store key (ids.getD i []) now).2, lock := none,
        attempts := s.attempts.set i
          (some (.returned (useKey KeyDb.up s.store key (ids.getD i []) now).1)) } := by
  have hi : i < s.attempts.length := (List.getElem?_eq_some.mp hai).1
  obtain ⟨store, lock, attempts⟩ := s
  dsimp only at hl hai hi
  subst hl
  unfold redeemRun useKey
  simp only [List.foldl, KeyDb.up, Bool.not_true, Bool.false_eq_true, if_false]
  cases hf : store.keys.find? (fun k => k.Key == key) with
  | none =>
    simp only [redeemStep, hai, hf, List.getElem?_set_self hi]
  | some row =>
    cases hu : row.Used with
    | true =>
      simp only [redeemStep, hai, hf, hu, List.getElem?_set_self hi, List.length_set,
        Option.isSome_none, Bool.false_eq_true, if_false, if_true, release, List.set_set]
    | false =>
      simp only [redeemStep, hai, hf, hu, List.getElem?_set_self hi, List.length_set,
        Option.isSome_none, Bool.false_eq_true, if_false, if_true, release, List.set_set]

theorem inTurn_upto (st : Store) (key : GoString) (ids : List GoString) (now : Time)
    (k : Nat) (hk : k ≤ ids.length) :
    (redeemRun key ids now (inTurn k) (redeemStart st ids)).lock = none ∧
    (redeemRun key ids now (inTurn k) (redeemStart st ids)).attempts.length = ids.length ∧
    ∀ j : Nat, j < ids.length →
      (j < k → ∃ r, (redeemRun key ids now (inTurn k) (redeemStart st ids)).attempts[j]? =
        some (some (.returned r))) ∧
      (k ≤ j → (redeemRun key ids now (inTurn k) (redeemStart st ids)).attempts[j]? =
        some none) := by
  induction k with
  | zero =>
    refine ⟨rfl, List.length_replicate _ _, ?_⟩
    intro j hj
    refine ⟨fun h => absurd h (Nat.not_lt_zero j), fun _ => ?_⟩
    show (List.replicate ids.length (none : Option RedeemStage))[j]? = some none
    rw [List.getElem?_replicate, if_pos hj]
  | succ k ih =>
    obtain ⟨hl, hlen, hall⟩ := ih (Nat.le_of_succ_le hk)
    have hkk : k < ids.length := hk
    have hrun : redeemRun key ids now (inTurn (k + 1)) (redeemStart st ids) =
        redeemRun key ids now [k, k, k]
          (redeemRun key ids now (inTurn k) (redeemStart st ids)) := by
      unfold inTurn redeemRun
      rw [List.range_succ, List.flatMap_append, List.foldl_append, List.flatMap_singleton]
    have hidle := (hall k hkk).2 (Nat.le_refl k)
    have hik : k < (redeemRun key ids now (inTurn k) (redeemStart st ids)).attempts.length := by
      rw [hlen]; exact hkk
    rw [hrun, redeem_alone key ids now k _ hl hidle]
    refine ⟨rfl, by dsimp only; rw [List.length_set]; exact hlen, ?_⟩
    intro j hj
    dsimp only
    rw [getElem?_set_cases _ _ _ _ hik]
    by_cases hjk : j = k
    · subst hjk
      rw [if_pos rfl]
      exact ⟨fun _ => ⟨_, rfl⟩, fun h => absurd h (Nat.not_succ_le_self j)⟩
    · rw [if_neg hjk]
      refine ⟨fun h => (hall j hj).1 (by omega), fun h => (hall j hj).2 (by omega)⟩

theorem inTurn_finishes (st : Store) (key : GoString) (ids : List GoString) (now : Time) :
    (redeemRun key ids now (inTurn ids.length) (redeemStart st ids)).finished = true := by
  obtain ⟨_, hlen, hall⟩ := inTurn_upto st key ids now ids.length (Nat.le_refl _)
  unfold RedeemRun.finished
  apply List.all_eq_true.mpr
  intro a ha
  obtain ⟨j, hj, hja⟩ := List.mem_iff_getElem.mp ha
  obtain ⟨r, hr⟩ := (hall j (by rw [← hlen]; exact hj)).1 (by rw [← hlen]; exact hj)
  rw [List.getElem?_eq_getElem hj, hja] at hr
  rw [Option.some.inj hr]

/-- C19: for every store in which the first row of code `key` is unused, every
non-empty list of identities, one call of `useKey` each, and every schedule
of the statements of these calls after which all calls have returned (the
database giving `SELECT ... FOR UPDATE` its row-lock meaning): exactly one
call `w` returns the grant amount, every other call returns the already-used
error, and the rows of the code are used with `used_by` the identity of `w`.
Such schedules exist for every number of calls (the calls in turn), and a call
whose statements run without another call in between is `useKey`. -/
theorem concurrent_redeem (st : Store) (key : GoString) (ids : List GoString) (now : Time)
    (schedule : List Nat) (row : KeyRecord)
    (hrow : st.keys.find? (fun k => k.Key == key) = some row) (hunused : row.Used = false)
    (hids : ids ≠ [])
    (hfin : (redeemRun key ids now schedule (redeemStart st ids)).finished = true) :
    (∃ w, w < ids.length ∧
      (redeemRun key ids now schedule (redeemStart st ids)).attempts[w]? =
        some (some (.returned (.ok row.AddLimit))) ∧
      (∀ i : Nat, i < ids.length → i ≠ w →
        (redeemRun key ids now schedule (redeemStart st ids)).attempts[i]? =
          some (some (.returned (.error .alreadyUsed)))) ∧
      (∃ x ∈ (redeemRun key ids now schedule (redeemStart st ids)).store.keys, x.Key = key) ∧
      (∀ x ∈ (redeemRun key ids now schedule (redeemStart st ids)).store.keys, x.Key = key →
        x.Used = true ∧ x.UsedBy = some (ids.getD w []))) ∧
    (redeemRun key ids now (inTurn ids.length) (redeemStart st ids)).finished = true ∧
    (∀ i : Nat, i < ids.length →
      redeemRun key ids now [i, i, i] (redeemStart st ids) =
        { store := (useKey KeyDb.up st key (ids.getD i []) now).2, lock := none,
          attempts := (redeemStart st ids).attempts.set i
            (some (.returned (useKey KeyDb.up st key (ids.getD i []) now).1)) }) := by
  refine ⟨?_, inTurn_finishes st key ids now, ?_⟩
  · obtain ⟨hlen, _, hphase⟩ := redeemRun_inv st key ids row now schedule _ hrow hunused
      (redeemStart_inv st key ids row)
    have hret := finished_returned _ hfin
    rcases hphase with ⟨_, hall⟩ | ⟨w, hw, haw, hex, hused, hall⟩
    · exfalso
      have hpos : 0 < ids.length := List.length_pos.mpr hids
      obtain ⟨r, hr⟩ := hret 0 (by rw [hlen]; exact hpos)
      have := hall 0
      rw [hr] at this
      exact this
    · refine ⟨w, hw, haw, ?_, hex, hused⟩
      intro i hi hiw
      obtain ⟨r, hr⟩ := hret i (by rw [hlen]; exact hi)
      have := hall i hiw
      rw [hr] at this
      rw [hr]
      have hre : r = .error .alreadyUsed := this
      rw [hre]
  · intro i hi
    refine redeem_alone key ids now i (redeemStart st ids) rfl ?_
    show (List.replicate ids.length (none : Option RedeemStage))[i]? = some none
    rw [List.getElem?_replicate, if_pos hi]

/-- The outcome of `race3`: the second call takes the lock first and wins. -/
theorem race3_outcome :
    (redeemRun (str "k1") ids3 9 race3 (redeemStart ledger0 ids3)).attempts =
      [some (.returned (.error .alreadyUsed)), some (.returned (.ok 20)),
       some (.returned (.error .alreadyUsed))] ∧
    (redeemRun (str "k1") ids3 9 race3 (redeemStart ledger0 ids3)).store.keys.map
      KeyRecord.UsedBy = [some (str "7"), none] := by
  decide

set_option maxRecDepth 100000 in
/-- Witness of C19: three identities redeem `"k1"` at once under `race3`. -/
theorem concurrent_redeem_witness :
    (∃ w, w < ids3.length ∧
      (redeemRun (str "k1") ids3 9 race3 (redeemStart ledger0 ids3)).attempts[w]? =
        some (some (.returned (.ok (freshKey (str "k1") 20).AddLimit))) ∧
      (∀ i : Nat, i < ids3.length → i ≠ w →
        (redeemRun (str "k1") ids3 9 race3 (redeemStart ledger0 ids3)).attempts[i]? =
          some (some (.returned (.error .alreadyUsed)))) ∧
      (∃ x ∈ (redeemRun (str "k1") ids3 9 race3 (redeemStart ledger0 ids3)).store.keys,
        x.Key = str "k1") ∧
      (∀ x ∈ (redeemRun (str "k1") ids3 9 race3 (redeemStart ledger0 ids3)).store.keys,
        x.Key = str "k1" → x.Used = true ∧ x.UsedBy = some (ids3.getD w []))) ∧
    (redeemRun (str "k1") ids3 9 (inTurn ids3.length) (redeemStart ledger0 ids3)).finished =
      true ∧
    (∀ i : Nat, i < ids3.length →
      redeemRun (str "k1") ids3 9 [i, i, i] (redeemStart ledger0 ids3) =
        { store := (useKey KeyDb.up ledger0 (str "k1") (ids3.getD i []) 9).2, lock := none,
          attempts := (redeemStart ledger0 ids3).attempts.set i
            (some (.returned (useKey KeyDb.up ledger0 (str "k1") (ids3.getD i []) 9).1)) }) :=
  concurrent_redeem ledger0 (str "k1") ids3 9 race3 (freshKey (str "k1") 20)
    (by decide) (by decide) (by decide) (by decide)

/-! ## C20: key derivation -/

theorem decimal_samples :
    decimal 1700000000000 = str "1700000000000" ∧ decimal 0 = str "0" ∧
    decimal (-5) = str "-5" ∧ decimal (-9223372036854775808) = str "-9223372036854775808" := by
  decide

/-- C20: for every identity and issuance time, `generateDeterministicKey`
returns no error but a key of 32 bytes, made of the 16-byte MD5 digest of
`identity ++ "_" ++ decimal(t)` followed by the same 16 bytes; it has no
input besides the identity and the time, so equal arguments give equal
keys. -/
theorem key_derivation (lib : Lib) (userID : GoString) (timestamp : Int) :
    generateDeterministicKey lib userID timestamp =
      .ok ((lib.md5 (userID ++ str "_" ++ decimal timestamp)).val ++
           (lib.md5 (userID ++ str "_" ++ decimal timestamp)).val) ∧
    (lib.md5 (userID ++ str "_" ++ decimal timestamp)).val.length = 16 ∧
    ((lib.md5 (userID ++ str "_" ++ decimal timestamp)).val ++
      (lib.md5 (userID ++ str "_" ++ decimal timestamp)).val).length = 32 ∧
    (∀ userID2 timestamp2, userID2 = userID → timestamp2 = timestamp →
      generateDeterministicKey lib userID2 timestamp2 =
        generateDeterministicKey lib userID timestamp) := by
  refine ⟨generateDeterministicKey_eq lib userID timestamp,
    (lib.md5 (userID ++ str "_" ++ decimal timestamp)).property, ?_, ?_⟩
  · exact derivedKey_length lib userID timestamp
  · intro u2 t2 hu ht
    rw [hu, ht]

/-! ## Lemmas on the frame layout -/

theorem hexDigit_lower (n : Nat) (h : n < 16) : isLowerHex (hexDigit n) = true := by
  interval_cases n <;> rfl

theorem hexEncode_lower (bs : List Byte) : ∀ c ∈ hexEncode bs, isLowerHex c = true := by
  induction bs with
  | nil => intro c hc; cases hc
  | cons b bs ih =>
    intro c hc
    have h1 : b.val / 16 < 16 := by have := b.isLt; omega
    have h2 : b.val % 16 < 16 := by omega
    simp only [hexEncode, List.mem_cons] at hc
    rcases hc with h | h | h
    · rw [h]; exact hexDigit_lower _ h1
    · rw [h]; exact hexDigit_lower _ h2
    · exact ih c h

/-! ## C21: layout of the token -/

/-- C21: for every payload whose identity has at most 255 bytes, every key of
an AES size and every random source that delivers twelve bytes,
`encryptPayload` returns a token whose hex decoding is the 8-byte big-endian
issuance time, one byte equal to the length of the identity, the identity,
the 12-byte nonce and the sealed JSON payload; the token consists of lowercase
hex digits and, the seal adding its 16-byte tag to the plaintext, has length
`2*(8+1+|identity|+12+|JSON|+16)`, hence at least `2*(8+1+|identity|+12+16)`. -/
theorem token_layout (lib : Lib) (payload : Payload) (key rnd : List Byte)
    (hid : payload.UserID.length ≤ 255) (hkey : aesKeySizeOk key = true)
    (hrnd : 12 ≤ rnd.length)
    (hseal : (lib.gcmSeal key (rnd.take 12) (lib.jsonMarshal payload)).length =
      (lib.jsonMarshal payload).length + 16) :
    ∃ token, encryptPayload lib payload key rnd = .ok token ∧
      hexDecode token = some (putUint64 (toUint64 payload.Timestamp) ++
        [Fin.ofNat payload.UserID.length] ++ payload.UserID ++ rnd.take 12 ++
        lib.gcmSeal key (rnd.take 12) (lib.jsonMarshal payload)) ∧
      (putUint64 (toUint64 payload.Timestamp)).length = 8 ∧
      getUint64 (putUint64 (toUint64 payload.Timestamp)) = toUint64 payload.Timestamp ∧
      (IsInt64 payload.Timestamp →
        toInt64 (getUint64 (putUint64 (toUint64 payload.Timestamp))) = payload.Timestamp) ∧
      (Fin.ofNat payload.UserID.length : Byte).val = payload.UserID.length ∧
      (rnd.take 12).length = 12 ∧
      (∀ c ∈ token, isLowerHex c = true) ∧
      token.length =
        2 * (8 + 1 + payload.UserID.length + 12 + (lib.jsonMarshal payload).length + 16) ∧
      2 * (8 + 1 + payload.UserID.length + 12 + 16) ≤ token.length := by
  have hlt : toUint64 payload.Timestamp < 18446744073709551616 := by
    unfold toUint64
    omega
  have hnonce : (rnd.take 12).length = 12 := by
    rw [List.length_take]
    omega
  have hlen : (hexEncode (putUint64 (toUint64 payload.Timestamp) ++
        [Fin.ofNat payload.UserID.length] ++ payload.UserID ++ rnd.take 12 ++
        lib.gcmSeal key (rnd.take 12) (lib.jsonMarshal payload))).length =
      2 * (8 + 1 + payload.UserID.length + 12 + (lib.jsonMarshal payload).length + 16) := by
    rw [hexEncode_length]
    simp only [List.length_append, putUint64_length, List.length_singleton, hnonce, hseal]
    omega
  refine ⟨hexEncode (putUint64 (toUint64 payload.Timestamp) ++
        [Fin.ofNat payload.UserID.length] ++ payload.UserID ++ rnd.take 12 ++
        lib.gcmSeal key (rnd.take 12) (lib.jsonMarshal payload)), ?_, hexDecode_hexEncode _,
    putUint64_length _, getUint64_putUint64 _ hlt, ?_, ?_, hnonce, hexEncode_lower _, hlen, ?_⟩
  · unfold encryptPayload generateNonce
    simp only [hkey, Bool.not_true, Bool.false_eq_true, if_false, hrnd, if_true]
  · intro hts
    rw [getUint64_putUint64 _ hlt]
    exact toInt64_toUint64 _ hts
  · rw [ofNat_val]
    omega
  · rw [hlen]
    omega

set_option maxRecDepth 100000 in
/-- Witness of C21: identity `"42"`, origin `"203.0.113.9"`, time
`1700000000000`; the token has at least `2*(8+1+2+12+16)` characters. -/
theorem token_layout_witness :
    ∃ token, encryptPayload demoLib { UserID := id42, IP := origin0, Timestamp := ts0 }
        (derivedKey demoLib id42 ts0) rnd0 = .ok token ∧
      hexDecode token = some (putUint64 (toUint64 ts0) ++ [Fin.ofNat id42.length] ++ id42 ++
        rnd0.take 12 ++
        demoLib.gcmSeal (derivedKey demoLib id42 ts0) (rnd0.take 12)
          (demoLib.jsonMarshal { UserID := id42, IP := origin0, Timestamp := ts0 })) ∧
      (putUint64 (toUint64 ts0)).length = 8 ∧
      getUint64 (putUint64 (toUint64 ts0)) = toUint64 ts0 ∧
      (IsInt64 ts0 → toInt64 (getUint64 (putUint64 (toUint64 ts0))) = ts0) ∧
      (Fin.ofNat id42.length : Byte).val = id42.length ∧
      (rnd0.take 12).length = 12 ∧
      (∀ c ∈ token, isLowerHex c = true) ∧
      token.length =
        2 * (8 + 1 + id42.length + 12 +
          (demoLib.jsonMarshal { UserID := id42, IP := origin0, Timestamp := ts0 }).length + 16) ∧
      2 * (8 + 1 + id42.length + 12 + 16) ≤ token.length :=
  token_layout demoLib { UserID := id42, IP := origin0, Timestamp := ts0 }
    (derivedKey demoLib id42 ts0) rnd0 (by decide) (by decide) (by decide) (by decide)

/-! ## Lemmas on accepted requests -/

/-- What a 200 answer of `verifyHandler` implies. -/
theorem verifyHandler_ok_inv (lib : Lib) (db : VerifyDb) (token clientIP : GoString)
    (now : Time) (st : Store)
    (h : (verifyHandler lib db (.ok token) clientIP now st).1.status = 200) :
    isValidPublicIP lib clientIP = true ∧
    ∃ f p record, decodeToken lib token = .ok (f, p) ∧ p.IP = clientIP ∧
      st.users.find? (fun record =>
        record.UserID == f.userID && record.Timestamp == f.timestamp) = some record ∧
      0 < record.Limit ∧
      (verifyHandler lib db (.ok token) clientIP now st).1.body.UserID = record.UserID := by
  unfold verifyHandler at h ⊢
  dsimp only at h ⊢
  cases hpub : isValidPublicIP lib clientIP with
  | false => simp [hpub] at h
  | true =>
    refine ⟨rfl, ?_⟩
    simp only [hpub, Bool.not_true, Bool.false_eq_true, if_false] at h ⊢
    cases hhex : (hexDecode token).isNone with
    | true => simp [hhex] at h
    | false =>
      simp only [hhex, Bool.false_eq_true, if_false] at h ⊢
      unfold decryptAndValidateToken loadDatabase at h ⊢
      cases hdec : decodeToken lib token with
      | error e => rw [hdec] at h; simp at h
      | ok fp =>
        obtain ⟨f, p⟩ := fp
        rw [hdec] at h
        simp only at h ⊢
        by_cases hip : p.IP = clientIP
        · simp only [hip, ne_eq, not_true_eq_false, if_false] at h ⊢
          cases hload : db.load with
          | false => simp [hload] at h
          | true =>
            simp only [hload, if_true] at h ⊢
            cases hfind : st.users.find? (fun record =>
                record.UserID == f.userID && record.Timestamp == f.timestamp) with
            | none => simp [hfind] at h
            | some record =>
              simp only [hfind] at h ⊢
              by_cases hl : record.Limit ≤ 0
              · simp [hl] at h
              · simp only [hl, if_false] at h ⊢
                refine ⟨f, p, record, rfl, hip, hfind, not_le.mp hl, ?_⟩
                cases hu : updateUserLimit db.update st record.UserID (-1) now with
                | error e => rw [hu] at h; simp at h
                | ok st1 => rfl
        · simp [hip] at h

/-- A token that decodes from hex and is refused by `decryptAndValidateToken`
is answered 401. -/
theorem verifyHandler_unauthorized (lib : Lib) (db : VerifyDb) (token clientIP : GoString)
    (now : Time) (st : Store) (e : TokenError)
    (hpub : isValidPublicIP lib clientIP = true) (hhex : (hexDecode token).isNone = false)
    (h : (decryptAndValidateToken lib db.load st token clientIP).err = some e) :
    verifyHandler lib db (.ok token) clientIP now st =
      (⟨401, { Success := false, Message := "Token无效或IP不匹配", UserID := [], Limit := 0 }⟩,
        st) := by
  unfold verifyHandler
  simp only [hpub, hhex, Bool.not_true, Bool.false_eq_true, if_false, h]

/-! ## C22: the clear header and the payload -/

/-- C22 (amended): for every token that verification accepts, the identity and
the issuance time of the clear header are the ones under whose derived key
the ciphertext opens, the ones of the matched entitlement record and the
identity of the answer; the identity and issuance time inside the decrypted
payload take no part. -/
theorem header_matches_record (lib : Lib) (db : VerifyDb) (token clientIP : GoString)
    (now : Time) (st : Store)
    (h : (verifyHandler lib db (.ok token) clientIP now st).1.status = 200) :
    ∃ f p record plaintext, parseFrame token = .ok f ∧
      lib.gcmOpen (derivedKey lib f.userID f.timestamp) f.nonce f.ciphertext = some plaintext ∧
      lib.jsonUnmarshal plaintext = some p ∧
      record ∈ st.users ∧ record.UserID = f.userID ∧ record.Timestamp = f.timestamp ∧
      (verifyHandler lib db (.ok token) clientIP now st).1.body.UserID = f.userID := by
  obtain ⟨_, f, p, record, hdec, _, hfind, _, hbody⟩ :=
    verifyHandler_ok_inv lib db token clientIP now st h
  have hf := decodeToken_parseFrame lib token f p hdec
  have hk := List.find?_some hfind
  simp only [Bool.and_eq_true, beq_iff_eq] at hk
  unfold decodeToken at hdec
  rw [hf] at hdec
  simp only [generateDeterministicKey_eq] at hdec
  split at hdec
  · cases hdec
  · cases ho : lib.gcmOpen (derivedKey lib f.userID f.timestamp) f.nonce f.ciphertext with
    | none => rw [ho] at hdec; cases hdec
    | some plaintext =>
      rw [ho] at hdec
      dsimp only at hdec
      cases hj : lib.jsonUnmarshal plaintext with
      | none => rw [hj] at hdec; cases hdec
      | some q =>
        rw [hj] at hdec
        dsimp only at hdec
        injection hdec with hdec
        injection hdec with _ hq
        subst hq
        exact ⟨f, q, record, plaintext, hf, ho, hj, List.mem_of_find?_eq_some hfind,
          hk.1, hk.2, by rw [hbody, hk.1]⟩

set_option maxRecDepth 100000 in
/-- Witness of C22: the token of identity `"42"` presented from its origin. -/
theorem header_matches_record_witness :
    ∃ f p record plaintext, parseFrame token42 = .ok f ∧
      demoLib.gcmOpen (derivedKey demoLib f.userID f.timestamp) f.nonce f.ciphertext
        = some plaintext ∧
      demoLib.jsonUnmarshal plaintext = some p ∧
      record ∈ (storeOf id42 3).users ∧ record.UserID = f.userID ∧
      record.Timestamp = f.timestamp ∧
      (verifyHandler demoLib VerifyDb.up (.ok token42) origin0 7 (storeOf id42 3)).1.body.UserID
        = f.userID :=
  header_matches_record demoLib VerifyDb.up token42 origin0 7 (storeOf id42 3) (by decide)

set_option maxRecDepth 100000 in
/-- C22 as stated fails: the token whose clear header names identity `"42"` at
time `1700000000000` and whose sealed payload names identity `"99"` at time 5
is accepted from `203.0.113.9` and charged to `"42"`. -/
theorem accepted_with_other_payload_identity :
    (decodeToken demoLib mixedToken).map (fun r => (r.1.userID, r.1.timestamp, r.2)) =
      .ok (id42, ts0, { UserID := str "99", IP := origin0, Timestamp := 5 }) ∧
    verifyHandler demoLib VerifyDb.up (.ok mixedToken) origin0 7 (storeOf id42 3) =
      (⟨200, { Success := true, Message := "验证成功", UserID := id42, Limit := 2 }⟩,
        { users := [{ userRow id42 3 with Limit := 2, UpdatedAt := 7 }], keys := [],
          orders := [] }) := by
  decide

/-! ## C23: validation of the request origin -/

theorem to4_length (ip v : List Byte) (h : to4 ip = some v) : v.length = 4 := by
  unfold to4 at h
  split at h
  · rename_i h4
    injection h with h
    rw [← h, h4]
  · split at h
    · rename_i h16
      injection h with h
      rw [← h, List.length_drop, h16.1]
    · cases h

set_option maxRecDepth 100000 in
theorem land_255 : ∀ a : Byte, Nat.land a.val 255 = a.val := by decide

set_option maxRecDepth 100000 in
theorem land_240 : ∀ b : Byte,
    (Nat.land 16 240 == Nat.land b.val 240) = (decide (16 ≤ b.val) && decide (b.val ≤ 31)) := by
  decide

theorem nat_beq_comm (x y : Nat) : (x == y) = (y == x) := by
  rw [Bool.eq_iff_iff, beq_iff_eq, beq_iff_eq]
  exact eq_comm

theorem land_0 (a : Nat) : Nat.land a 0 = 0 := Nat.and_zero a

theorem privateRanges_v4 (a b c d : Byte) :
    privateRanges.any (fun network => networkContains network [a, b, c, d]) =
      inPrivateRange a.val b.val := by
  have h4 : to4 [a, b, c, d] = some [a, b, c, d] := rfl
  simp only [privateRanges, networkContains, List.any_cons, List.any_nil, h4, Option.getD_some,
    List.length_cons, List.length_nil, ne_eq, not_true_eq_false, if_false, List.range,
    List.range.loop, List.all_cons, List.all_nil, List.getD_cons_zero, List.getD_cons_succ,
    Bool.and_true, Bool.or_false, inPrivateRange]
  have e255 : ∀ n : Byte, Nat.land n.val (255 : Byte).val = n.val := land_255
  have e0 : ∀ n : Byte, Nat.land n.val (0 : Byte).val = 0 := fun n => Nat.and_zero _
  have e240 := land_240 b
  have c10 : Nat.land (10 : Byte).val (255 : Byte).val = 10 := rfl
  have c172 : Nat.land (172 : Byte).val (255 : Byte).val = 172 := rfl
  have c192 : Nat.land (192 : Byte).val (255 : Byte).val = 192 := rfl
  have c168 : Nat.land (168 : Byte).val (255 : Byte).val = 168 := rfl
  have c127 : Nat.land (127 : Byte).val (255 : Byte).val = 127 := rfl
  have c16 : (16 : Byte).val = 16 := rfl
  have c240 : (240 : Byte).val = 240 := rfl
  simp only [e255, e0, c10, c172, c192, c168, c127, c16, c240, e240, beq_self_eq_true,
    Bool.and_true]
  have v10 : ((10 : Byte).val == a.val) = (a.val == 10) := nat_beq_comm 10 a.val
  have v172 : ((172 : Byte).val == a.val) = (a.val == 172) := nat_beq_comm 172 a.val
  have v192 : ((192 : Byte).val == a.val) = (a.val == 192) := nat_beq_comm 192 a.val
  have v127 : ((127 : Byte).val == a.val) = (a.val == 127) := nat_beq_comm 127 a.val
  have v168 : ((168 : Byte).val == b.val) = (b.val == 168) := nat_beq_comm 168 b.val
  rw [v10, v172, v192, v127, v168]
  simp only [Bool.or_assoc]

theorem networkContains_to4 (network : List Byte × List Byte) (ip v : List Byte)
    (h : to4 ip = some v) : networkContains network ip = networkContains network v := by
  have hv : to4 v = some v := by
    unfold to4
    rw [if_pos (to4_length ip v h)]
  unfold networkContains
  rw [h, hv]
  rfl

theorem isPrivateIP_iff (lib : Lib) (s : GoString) (ip : List Byte)
    (h : lib.parseIP s = some ip) :
    isPrivateIP lib s = true ↔
      ∃ a b c d : Byte, to4 ip = some [a, b, c, d] ∧ inPrivateRange a.val b.val = true := by
  unfold isPrivateIP
  rw [h]
  dsimp only
  cases h4 : to4 ip with
  | some v =>
    have hlen := to4_length ip v h4
    match v, hlen with
    | [a, b, c, d], _ =>
      have hany : privateRanges.any (fun network => networkContains network ip) =
          privateRanges.any (fun network => networkContains network [a, b, c, d]) := by
        congr 1
        funext network
        exact networkContains_to4 network ip _ h4
      rw [hany, privateRanges_v4]
      constructor
      · intro hr
        exact ⟨a, b, c, d, rfl, hr⟩
      · intro ⟨a2, b2, c2, d2, he, hr⟩
        injection he with he
        injection he with ha he
        injection he with hb he
        rw [ha, hb]
        exact hr
  | none =>
    have hne : ip.length ≠ 4 := by
      intro h4len
      unfold to4 at h4
      rw [if_pos h4len] at h4
      cases h4
    constructor
    · intro hr
      exfalso
      simp only [privateRanges, networkContains, h4, Option.getD_none, List.any_cons,
        List.any_nil, List.length_cons, List.length_nil, ne_eq, hne, not_false_eq_true,
        if_true, Bool.or_false, Bool.false_eq_true] at hr
    · intro ⟨_, _, _, _, he, _⟩
      cases he

/-- C23 (amended): a string that does not parse as an IP literal is not a
valid public origin; a string that parses is refused exactly when the address
is an IPv4 address (written as IPv4 or as IPv4-mapped IPv6 literal) in
`10.0.0.0/8`, `172.16.0.0/12`, `192.168.0.0/16` or `127.0.0.0/8`, every other
parsable address counts as public; and `POST /verify` from an origin that is
refused is answered 400 whatever the token, the store unchanged. -/
theorem origin_validation (lib : Lib) (s : GoString) :
    (lib.parseIP s = none → isValidPublicIP lib s = false) ∧
    (∀ ip, lib.parseIP s = some ip →
      (isValidPublicIP lib s = false ↔
        ∃ a b c d : Byte, to4 ip = some [a, b, c, d] ∧ inPrivateRange a.val b.val = true)) ∧
    (isValidPublicIP lib s = false →
      ∀ (db : VerifyDb) (token : GoString) (now : Time) (st : Store),
        verifyHandler lib db (.ok token) s now st =
          (⟨400, { Success := false, Message := "无法获取有效的公网IP", UserID := [],
                   Limit := 0 }⟩, st)) := by
  refine ⟨?_, ?_, ?_⟩
  · intro h
    unfold isValidPublicIP
    rw [h]
  · intro ip h
    rw [← isPrivateIP_iff lib s ip h]
    unfold isValidPublicIP
    rw [h]
    dsimp only
    cases isPrivateIP lib s <;> simp
  · intro h db token now st
    unfold verifyHandler
    simp only [h, Bool.not_false, if_true]

set_option maxRecDepth 100000 in
/-- Witness of C23: the origin `10.1.2.3` is refused. -/
theorem origin_validation_witness :
    isValidPublicIP demoLib (str "10.1.2.3") = false ∧
    ∀ (db : VerifyDb) (token : GoString) (now : Time) (st : Store),
      verifyHandler demoLib db (.ok token) (str "10.1.2.3") now st =
        (⟨400, { Success := false, Message := "无法获取有效的公网IP", UserID := [],
                 Limit := 0 }⟩, st) :=
  ⟨by decide, (origin_validation demoLib (str "10.1.2.3")).2.2 (by decide)⟩

set_option maxRecDepth 100000 in
/-- C23 as stated fails for IPv6 literals: the loopback address `::1` and the
unique local address `fd00::1` parse, are in none of the four IPv4 networks,
and count as valid public origins; a request from `::1` is not answered 400
but goes on to the token. -/
theorem ipv6_loopback_counts_public :
    lib6.parseIP (str "::1") = some loopback6 ∧
    isPrivateIP lib6 (str "::1") = false ∧
    isValidPublicIP lib6 (str "::1") = true ∧
    isValidPublicIP lib6 (str "fd00::1") = true ∧
    verifyHandler lib6 VerifyDb.up (.ok token42) (str "::1") 7 (storeOf id42 3) =
      (⟨401, { Success := false, Message := "Token无效或IP不匹配", UserID := [], Limit := 0 }⟩,
        storeOf id42 3) := by
  decide

/-! ## C24: status of a refused token -/

/-- C24 (amended): for every request from a valid public origin, a token that
is not valid hex is answered 400; a token that is valid hex is answered 401
when its frame is shorter than the minimum header or than its declared
identity length requires, when the ciphertext does not open, and when the
origin of the payload is not the request origin.  The store is unchanged in
each case. -/
theorem token_failure_status (lib : Lib) (db : VerifyDb) (token clientIP : GoString)
    (now : Time) (st : Store) (hpub : isValidPublicIP lib clientIP = true) :
    (hexDecode token = none →
      verifyHandler lib db (.ok token) clientIP now st =
        (⟨400, { Success := false, Message := "Token格式无效", UserID := [], Limit := 0 }⟩,
          st)) ∧
    (∀ data, hexDecode token = some data →
      (data.length < 21 ∨ data.length < 9 + (data.getD 8 0).val + 12) →
      verifyHandler lib db (.ok token) clientIP now st =
        (⟨401, { Success := false, Message := "Token无效或IP不匹配", UserID := [],
                 Limit := 0 }⟩, st)) ∧
    (∀ f, parseFrame token = .ok f →
      lib.gcmOpen (derivedKey lib f.userID f.timestamp) f.nonce f.ciphertext = none →
      verifyHandler lib db (.ok token) clientIP now st =
        (⟨401, { Success := false, Message := "Token无效或IP不匹配", UserID := [],
                 Limit := 0 }⟩, st)) ∧
    (∀ f p, decodeToken lib token = .ok (f, p) → p.IP ≠ clientIP →
      verifyHandler lib db (.ok token) clientIP now st =
        (⟨401, { Success := false, Message := "Token无效或IP不匹配", UserID := [],
                 Limit := 0 }⟩, st)) := by
  refine ⟨?_, ?_, ?_, ?_⟩
  · intro h
    unfold verifyHandler
    simp only [hpub, h, Bool.not_true, Bool.false_eq_true, if_false, Option.isNone_none, if_true]
  · intro data hd hshort
    have hhex : (hexDecode token).isNone = false := by rw [hd]; rfl
    have hslice : ∃ e, sliceFrame data = .error e := by
      unfold sliceFrame
      by_cases h1 : data.length < 21
      · rw [if_pos h1]; exact ⟨_, rfl⟩
      · rw [if_neg h1]
        dsimp only
        rcases hshort with h | h
        · exact absurd h h1
        · rw [if_pos h]; exact ⟨_, rfl⟩
    obtain ⟨e, he⟩ := hslice
    have hdec : decodeToken lib token = .error e := by
      unfold decodeToken parseFrame
      rw [hd]
      dsimp only
      rw [he]
    refine verifyHandler_unauthorized lib db token clientIP now st e hpub hhex ?_
    rw [decryptAndValidateToken_of_error lib db.load st token clientIP e hdec]
  · intro f hf hopen
    have hhex : (hexDecode token).isNone = false := by
      cases hd : hexDecode token with
      | none =>
        rw [parseFrame_error_of_hexDecode_none token hd] at hf
        cases hf
      | some data => rfl
    have hdec : decodeToken lib token = .error .decrypt := by
      unfold decodeToken
      rw [hf]
      simp only [generateDeterministicKey_eq, aesKeySizeOk_derivedKey, Bool.not_true,
        Bool.false_eq_true, if_false, hopen]
    refine verifyHandler_unauthorized lib db token clientIP now st .decrypt hpub hhex ?_
    rw [decryptAndValidateToken_of_error lib db.load st token clientIP _ hdec]
  · intro f p hdec hip
    have hhex := hexDecode_isNone_of_decodeToken lib token f p hdec
    refine verifyHandler_unauthorized lib db token clientIP now st
      (.ipMismatch p.IP clientIP) hpub hhex ?_
    unfold decryptAndValidateToken
    rw [hdec]
    simp only [ne_eq, hip, not_false_eq_true, if_true]

set_option maxRecDepth 100000 in
/-- Witness of C24: requests from `203.0.113.9`. -/
theorem token_failure_status_witness :
    isValidPublicIP demoLib origin0 = true ∧
    (hexDecode (str "xyz") = none →
      verifyHandler demoLib VerifyDb.up (.ok (str "xyz")) origin0 7 (storeOf id42 3) =
        (⟨400, { Success := false, Message := "Token格式无效", UserID := [], Limit := 0 }⟩,
          storeOf id42 3)) :=
  ⟨by decide,
    (token_failure_status demoLib VerifyDb.up (str "xyz") origin0 7 (storeOf id42 3)
      (by decide)).1⟩

set_option maxRecDepth 100000 in
/-- C24 as stated fails for frames that are too short: the token `00` (a
frame of one byte), the empty token and a frame of 21 bytes that announces an
identity of 200 bytes are valid hex and are answered 401, not 400. -/
theorem short_frame_answered_401 :
    hexDecode (str "00") = some [0] ∧
    (verifyHandler demoLib VerifyDb.up (.ok (str "00")) origin0 7 (storeOf id42 3)).1.status
      = 401 ∧
    (verifyHandler demoLib VerifyDb.up (.ok []) origin0 7 (storeOf id42 3)).1.status = 401 ∧
    sliceFrame overlongFrame = .error .badFormat ∧
    (verifyHandler demoLib VerifyDb.up (.ok (hexEncode overlongFrame)) origin0 7
      (storeOf id42 3)).1.status = 401 := by
  decide

/-! ## C25: issuance of a credit code -/

/-- C25 (amended): `addKey` executed at time `now` derives the code as the
lowercase hex MD5, 32 characters, of `"<unix seconds of now>_<issuer>"`.  When
the driver reaches the database and the code does not violate the uniqueness
of `key_code`, it returns the code and appends a row with that code, the
grant amount, the issuer and `used = false`; otherwise it returns an error and
the ledger is unchanged.  The code depends on the second and the issuer only:
a call by the same issuer within the same second derives the same code. -/
theorem credit_code_issuance (lib : Lib) (up unique : Bool) (st : Store)
    (addLimit adminID : Int) (now : Time) :
    generateKey lib adminID now =
      hexEncode (lib.md5 (decimal (now / 1000000000) ++ str "_" ++ decimal adminID)).val ∧
    (generateKey lib adminID now).length = 32 ∧
    (∀ c ∈ generateKey lib adminID now, isLowerHex c = true) ∧
    (up = true → (unique = true → ∀ k ∈ st.keys, k.Key ≠ generateKey lib adminID now) →
      addKey lib up unique st addLimit adminID now =
        (.ok (generateKey lib adminID now),
         { users := st.users,
           keys := st.keys ++
             [{ Key := generateKey lib adminID now, AddLimit := addLimit, Used := false,
                UsedBy := none, CreatedBy := decimal adminID, CreatedAt := now,
                UsedAt := none }],
           orders := st.orders })) ∧
    ((up = false ∨ (unique = true ∧ ∃ k ∈ st.keys, k.Key = generateKey lib adminID now)) →
      addKey lib up unique st addLimit adminID now = (.error (), st)) ∧
    (∀ later : Time, later / 1000000000 = now / 1000000000 →
      generateKey lib adminID later = generateKey lib adminID now) := by
  refine ⟨rfl, ?_, ?_, ?_, ?_, ?_⟩
  · unfold generateKey
    dsimp only
    rw [hexEncode_length, (lib.md5 _).property]
  · exact hexEncode_lower _
  · intro hup hfresh
    unfold addKey
    have hany : (unique && st.keys.any (fun k => k.Key == generateKey lib adminID now)) = false := by
      cases hu : unique with
      | false => rfl
      | true =>
        rw [Bool.true_and]
        apply Bool.eq_false_iff.mpr
        intro hany
        obtain ⟨k, hk, hkk⟩ := List.any_eq_true.mp hany
        exact hfresh hu k hk (beq_iff_eq.mp hkk)
    simp only [hup, hany, Bool.not_true, Bool.false_eq_true, if_false]
  · intro h
    unfold addKey
    rcases h with hup | ⟨hu, k, hk, hkk⟩
    · simp only [hup, Bool.not_false, if_true]
    · have hany : st.keys.any (fun k => k.Key == generateKey lib adminID now) = true :=
        List.any_eq_true.mpr ⟨k, hk, beq_iff_eq.mpr hkk⟩
      cases up <;> simp only [hu, hany, Bool.and_self, Bool.not_true, Bool.not_false, if_true,
        Bool.false_eq_true, if_false]
  · intro later hl
    unfold generateKey unixSeconds
    rw [hl]

set_option maxRecDepth 100000 in
/-- C25 as stated fails: administrator 1 issues a code at `nowNs` and again
one nanosecond later.  Without a uniqueness constraint the second call
returns the code that is already in the ledger, which then holds it twice;
with the constraint the second call returns an error and issues nothing. -/
theorem same_second_same_code :
    (addKey demoLib true false (ledgerAfterIssue false) 5 1 (nowNs + 1)).1 =
      .ok (generateKey demoLib 1 nowNs) ∧
    (ledgerAfterIssue false).keys.map KeyRecord.Key = [generateKey demoLib 1 nowNs] ∧
    (addKey demoLib true false (ledgerAfterIssue false) 5 1 (nowNs + 1)).2.keys.map
      KeyRecord.Key = [generateKey demoLib 1 nowNs, generateKey demoLib 1 nowNs] ∧
    addKey demoLib true true (ledgerAfterIssue true) 5 1 (nowNs + 1) =
      (.error (), ledgerAfterIssue true) := by
  decide

/-! ## Decimal numerals -/

theorem mem_clearUserState (states : UserStates) (u : Int) (e : Int × UserState)
    (h : e ∈ clearUserState states u) : e ∈ states ∧ e.1 ≠ u := by
  unfold clearUserState at h
  obtain ⟨hm, hp⟩ := List.mem_filter.mp h
  exact ⟨hm, by simpa using hp⟩

theorem mem_putUserState (states : UserStates) (u : Int) (s : UserState) (e : Int × UserState)
    (h : e ∈ putUserState states u s) : e = (u, s) ∨ (e ∈ states ∧ e.1 ≠ u) := by
  unfold putUserState at h
  rcases List.mem_cons.mp h with h1 | h1
  · exact Or.inl h1
  · exact Or.inr (mem_clearUserState states u e h1)

theorem getUserState_mem (states : UserStates) (u : Int) (s : UserState)
    (h : getUserState states u = some s) : (u, s) ∈ states := by
  unfold getUserState at h
  cases hf : states.find? (fun e => e.1 == u) with
  | none => rw [hf] at h; cases h
  | some e =>
    rw [hf] at h
    have hk := List.find?_some hf
    have hm := List.mem_of_find?_eq_some hf
    simp only [beq_iff_eq] at hk
    injection h with h
    have : e = (u, s) := by
      cases e
      simp only [Prod.mk.injEq]
      exact ⟨hk, h⟩
    rw [← this]
    exact hm

theorem waiting_names :
    str "waiting_ip" ≠ str "waiting_key_limit" ∧ str "waiting_key" ≠ str "waiting_key_limit" ∧
    str "waiting_recharge_count" ≠ str "waiting_key_limit" ∧
    str "waiting_change_ip" ≠ str "waiting_key_limit" ∧
    str "waiting_key" ≠ str "waiting_ip" ∧ str "waiting_key_limit" ≠ str "waiting_ip" ∧
    str "waiting_recharge_count" ≠ str "waiting_ip" ∧
    str "waiting_change_ip" ≠ str "waiting_ip" := by
  decide

/-! ## Lemmas on first issuance -/

theorem KeepsIssue_trans (w1 w2 w3 : World) (h12 : KeepsIssue w1 w2) (h23 : KeepsIssue w2 w3) :
    KeepsIssue w1 w3 := by
  refine ⟨h23.1.trans h12.1, ?_⟩
  intro e he hs
  obtain ⟨s, hmem, hst⟩ := h23.2 e he hs
  exact h12.2 (e.1, s) hmem hst

theorem MintInv_store (cfg : Config) (w : World) (st : Store) (h : MintInv cfg w) :
    MintInv cfg { store := st, userStates := w.userStates, addKeyCalls := w.addKeyCalls } :=
  ⟨h.1, h.2⟩

theorem MintInv_clear (cfg : Config) (w : World) (st : Store) (u : Int) (h : MintInv cfg w) :
    MintInv cfg { store := st, userStates := clearUserState w.userStates u,
                  addKeyCalls := w.addKeyCalls } :=
  ⟨fun e he => h.1 e (mem_clearUserState _ _ _ he).1, h.2⟩

theorem MintInv_put (cfg : Config) (w : World) (st : Store) (u : Int) (s : UserState)
    (h : MintInv cfg w) (hs : EntryOk cfg (u, s)) :
    MintInv cfg { store := st, userStates := putUserState w.userStates u s,
                  addKeyCalls := w.addKeyCalls } := by
  refine ⟨fun e he => ?_, h.2⟩
  rcases mem_putUserState _ _ _ _ he with h1 | h1
  · rw [h1]; exact hs
  · exact h.1 e h1.1

theorem MintInv_set (cfg : Config) (w : World) (st : Store) (u : Int) (name : GoString)
    (m : Int) (h : MintInv cfg w)
    (hname : name = str "waiting_key_limit" → isAdmin cfg u = true) :
    MintInv cfg { store := st, userStates := setUserState w.userStates u name m,
                  addKeyCalls := w.addKeyCalls } := by
  unfold setUserState
  refine MintInv_put cfg w st u _ h ⟨hname, ?_⟩
  intro n hn
  cases hn

theorem generateTokenForUser_mint (bot : Bot) (env : ChatEnv) (u : Int) (ip : GoString)
    (w : World) (h : MintInv bot.cfg w) :
    MintInv bot.cfg (generateTokenForUser bot env u ip w) := by
  unfold generateTokenForUser
  repeat (any_goals (first | split | dsimp only))
  all_goals exact MintInv_clear bot.cfg w _ u h

theorem handleIPInput_mint (bot : Bot) (env : ChatEnv) (u : Int) (ip : GoString) (w : World)
    (h : MintInv bot.cfg w) : MintInv bot.cfg (handleIPInput bot env u ip w) := by
  unfold handleIPInput
  repeat (any_goals (first | split | dsimp only))
  all_goals first
    | exact h
    | exact MintInv_clear bot.cfg w _ u h
    | exact generateTokenForUser_mint bot env u ip w h

theorem handleKeyInput_mint (cfg : Config) (env : ChatEnv) (u : Int) (key : GoString)
    (w : World) (h : MintInv cfg w) : MintInv cfg (handleKeyInput env u key w) := by
  unfold handleKeyInput
  repeat (any_goals (first | split | dsimp only))
  all_goals first
    | exact h
    | exact MintInv_store cfg w _ h
    | exact MintInv_clear cfg w _ u h

theorem handleKeyLimitInput_mint (bot : Bot) (u : Int) (text : GoString) (w : World)
    (h : MintInv bot.cfg w)
    (hst : ∀ s, getUserState w.userStates u = some s → s.State = str "waiting_key_limit") :
    MintInv bot.cfg (handleKeyLimitInput bot u text w) := by
  unfold handleKeyLimitInput
  cases hg : getUserState w.userStates u with
  | none => exact h
  | some s =>
    dsimp only
    cases bot.parseInt text with
    | none => exact h
    | some limit =>
      dsimp only
      by_cases hl : limit ≤ 0
      · rw [if_pos hl]; exact h
      · rw [if_neg hl]
        refine MintInv_put bot.cfg w _ u _ h ⟨fun _ => ?_, ?_⟩
        · exact (h.1 (u, s) (getUserState_mem _ _ _ hg)).1 (hst s hg)
        · intro n hn
          injection hn with hn
          exact ⟨by rw [← hn]; exact not_le.mp hl, hst s hg⟩

theorem handleRechargeCountInput_mint (bot : Bot) (u : Int) (text : GoString) (w : World)
    (h : MintInv bot.cfg w) : MintInv bot.cfg (handleRechargeCountInput bot u text w) := by
  unfold handleRechargeCountInput
  cases hg : getUserState w.userStates u with
  | none => exact h
  | some s =>
    dsimp only
    cases bot.parseInt text with
    | none => exact h
    | some count =>
      dsimp only
      by_cases hl : count ≤ 0
      · rw [if_pos hl]; exact h
      · rw [if_neg hl]
        exact MintInv_put bot.cfg w _ u _ h (h.1 (u, s) (getUserState_mem _ _ _ hg))

theorem handleChangeIPInput_mint (bot : Bot) (env : ChatEnv) (u : Int) (newIP : GoString)
    (w : World) (h : MintInv bot.cfg w) :
    MintInv bot.cfg (handleChangeIPInput bot env u newIP w) := by
  unfold handleChangeIPInput
  cases hg : getUserState w.userStates u with
  | none => exact h
  | some s =>
    dsimp only
    repeat (any_goals (first | split | dsimp only))
    all_goals first
      | exact h
      | exact MintInv_clear bot.cfg w _ u h
      | exact MintInv_put bot.cfg w _ u _ h (h.1 (u, s) (getUserState_mem _ _ _ hg))

theorem createOrder_mint (cfg : Config) (env : ChatEnv) (u : Int) (order : Order) (w : World)
    (h : MintInv cfg w) : MintInv cfg (createOrder env u order w) := by
  unfold createOrder
  repeat (any_goals (first | split | dsimp only))
  all_goals exact MintInv_clear cfg w _ u h

theorem handleConfirmRecharge_mint (cfg : Config) (env : ChatEnv) (u c m : Int) (w : World)
    (h : MintInv cfg w) : MintInv cfg (handleConfirmRecharge env u c m w) := by
  unfold handleConfirmRecharge
  repeat (any_goals (first | split | dsimp only))
  all_goals first
    | exact MintInv_clear cfg w _ u h
    | exact createOrder_mint cfg env u _ w h

theorem handleConfirmChangeIP_mint (cfg : Config) (env : ChatEnv) (u c m : Int) (w : World)
    (h : MintInv cfg w) : MintInv cfg (handleConfirmChangeIP env u c m w) := by
  unfold handleConfirmChangeIP
  repeat (any_goals (first | split | dsimp only))
  all_goals first
    | exact MintInv_clear cfg w _ u h
    | exact createOrder_mint cfg env u _ w h

theorem handleConfirmGenKey_mint (bot : Bot) (env : ChatEnv) (u : Int) (w : World)
    (h : MintInv bot.cfg w) : MintInv bot.cfg (handleConfirmGenKey bot env u w) := by
  unfold handleConfirmGenKey
  cases hg : getUserState w.userStates u with
  | none => exact MintInv_clear bot.cfg w _ u h
  | some s =>
    dsimp only
    cases hl : s.Data.limit with
    | none => exact MintInv_clear bot.cfg w _ u h
    | some addLimit =>
      dsimp only
      have hs := h.1 (u, s) (getUserState_mem _ _ _ hg)
      have hpos := hs.2 addLimit hl
      refine ⟨fun e he => h.1 e (mem_clearUserState _ _ _ he).1, ?_⟩
      intro c hc
      rcases List.mem_append.mp hc with h1 | h1
      · exact h.2 c h1
      · rw [List.mem_singleton.mp h1]
        exact ⟨hs.1 hpos.2, hpos.1⟩

theorem handleUserStateInput_mint (bot : Bot) (env : ChatEnv) (u : Int) (text : GoString)
    (s : UserState) (w : World) (h : MintInv bot.cfg w)
    (hs : getUserState w.userStates u = some s) :
    MintInv bot.cfg (handleUserStateInput bot env u text s w) := by
  unfold handleUserStateInput
  split
  · exact handleIPInput_mint bot env u text w h
  · split
    · exact handleKeyInput_mint bot.cfg env u text w h
    · split
      · rename_i hk
        refine handleKeyLimitInput_mint bot u text w h ?_
        intro s2 hs2
        rw [hs] at hs2
        injection hs2 with hs2
        rw [← hs2]
        exact hk
      · split
        · exact handleRechargeCountInput_mint bot u text w h
        · split
          · exact handleChangeIPInput_mint bot env u text w h
          · exact h

theorem handleMessage_mint (bot : Bot) (env : ChatEnv) (u : Int) (text : GoString) (w : World)
    (h : MintInv bot.cfg w) : MintInv bot.cfg (handleMessage bot env u text w) := by
  unfold handleMessage
  dsimp only
  split
  · exact MintInv_clear bot.cfg w _ u h
  · cases hs : getUserState w.userStates u with
    | none => exact h
    | some s => exact handleUserStateInput_mint bot env u text s w h hs

theorem handleGetTokenButton_mint (cfg : Config) (env : ChatEnv) (u m : Int) (w : World)
    (h : MintInv cfg w) : MintInv cfg (handleGetTokenButton env u m w) := by
  unfold handleGetTokenButton
  repeat (any_goals (first | split | dsimp only))
  all_goals first
    | exact h
    | exact MintInv_set cfg w _ u _ m h (fun e => absurd e waiting_names.1)

theorem handleUseKeyButton_mint (cfg : Config) (env : ChatEnv) (u m : Int) (w : World)
    (h : MintInv cfg w) : MintInv cfg (handleUseKeyButton env u m w) := by
  unfold handleUseKeyButton
  repeat (any_goals (first | split | dsimp only))
  all_goals first
    | exact h
    | exact MintInv_set cfg w _ u _ m h (fun e => absurd e waiting_names.2.1)

theorem handleRechargeButton_mint (cfg : Config) (env : ChatEnv) (u m : Int) (w : World)
    (h : MintInv cfg w) : MintInv cfg (handleRechargeButton env u m w) := by
  unfold handleRechargeButton
  repeat (any_goals (first | split | dsimp only))
  all_goals first
    | exact h
    | exact MintInv_set cfg w _ u _ m h (fun e => absurd e waiting_names.2.2.1)

theorem handleChangeIPButton_mint (cfg : Config) (env : ChatEnv) (u m : Int) (w : World)
    (h : MintInv cfg w) : MintInv cfg (handleChangeIPButton env u m w) := by
  unfold handleChangeIPButton
  repeat (any_goals (first | split | dsimp only))
  all_goals first
    | exact h
    | exact MintInv_set cfg w _ u _ m h (fun e => absurd e waiting_names.2.2.2.1)

theorem handleGenKeyButton_mint (bot : Bot) (u m : Int) (w : World)
    (h : MintInv bot.cfg w) : MintInv bot.cfg (handleGenKeyButton bot u m w) := by
  unfold handleGenKeyButton
  cases hadm : isAdmin bot.cfg u with
  | false => exact h
  | true => exact MintInv_set bot.cfg w _ u _ m h (fun _ => hadm)

theorem handleCallbackQuery_mint (bot : Bot) (env : ChatEnv) (u c m : Int) (data : GoString)
    (w : World) (h : MintInv bot.cfg w) :
    MintInv bot.cfg (handleCallbackQuery bot env u c m data w) := by
  unfold handleCallbackQuery
  by_cases h0 : data = str "main_menu"
  · rw [if_pos h0]; exact MintInv_clear bot.cfg w _ u h
  rw [if_neg h0]
  by_cases h1 : data = str "get_token"
  · rw [if_pos h1]; exact handleGetTokenButton_mint bot.cfg env u m w h
  rw [if_neg h1]
  by_cases h2 : data = str "account_info"
  · rw [if_pos h2]; exact h
  rw [if_neg h2]
  by_cases h3 : data = str "use_key"
  · rw [if_pos h3]; exact handleUseKeyButton_mint bot.cfg env u m w h
  rw [if_neg h3]
  by_cases h4 : data = str "recharge"
  · rw [if_pos h4]; exact handleRechargeButton_mint bot.cfg env u m w h
  rw [if_neg h4]
  by_cases h5 : data = str "change_ip"
  · rw [if_pos h5]; exact handleChangeIPButton_mint bot.cfg env u m w h
  rw [if_neg h5]
  by_cases h6 : data = str "confirm_recharge"
  · rw [if_pos h6]; exact handleConfirmRecharge_mint bot.cfg env u c m w h
  rw [if_neg h6]
  by_cases h7 : data = str "confirm_change_ip"
  · rw [if_pos h7]; exact handleConfirmChangeIP_mint bot.cfg env u c m w h
  rw [if_neg h7]
  by_cases h8 : (str "check_order_").isPrefixOf data = true
  · rw [if_pos h8]; exact h
  rw [if_neg h8]
  by_cases h9 : data = str "admin_menu"
  · rw [if_pos h9]; exact h
  rw [if_neg h9]
  by_cases h10 : data = str "gen_key"
  · rw [if_pos h10]; exact handleGenKeyButton_mint bot u m w h
  rw [if_neg h10]
  by_cases h11 : data = str "confirm_gen_key"
  · rw [if_pos h11]; exact handleConfirmGenKey_mint bot env u w h
  rw [if_neg h11]
  exact h

theorem handleEvent_mint (bot : Bot) (e : Event) (w : World) (h : MintInv bot.cfg w) :
    MintInv bot.cfg (handleEvent bot e w) := by
  cases e with
  | message env u text => exact handleMessage_mint bot env u text w h
  | callback env u c m data => exact handleCallbackQuery_mint bot env u c m data w h
  | timerExpired u => exact MintInv_clear bot.cfg w _ u h
  | verify db req ip now => exact MintInv_store bot.cfg w _ h
  | notify db params now rnd => exact MintInv_store bot.cfg w _ h

theorem runEvents_mint (bot : Bot) (events : List Event) (w : World) (h : MintInv bot.cfg w) :
    MintInv bot.cfg (runEvents bot events w) := by
  induction events generalizing w with
  | nil => exact h
  | cons e rest ih => exact ih _ (handleEvent_mint bot e w h)

theorem MintInv_empty (cfg : Config) : MintInv cfg World.empty :=
  ⟨fun e he => (by cases he), fun c hc => (by cases hc)⟩

theorem isAdmin_iff (cfg : Config) (u : Int) : isAdmin cfg u = true ↔ u ∈ cfg.AdminIDs := by
  unfold isAdmin
  rw [List.any_eq_true]
  constructor
  · intro ⟨a, ha, hau⟩
    rw [← beq_iff_eq.mp hau]
    exact ha
  · intro h
    exact ⟨u, h, beq_iff_eq.mpr rfl⟩

/-! ## C27: who issues credit codes -/

/-- C27: for a fixed list of administrators and every sequence of events
(text messages, buttons, timer expiries, `/verify` and `/notify` requests)
from the start of the program, every call of `addKey` is made for a user of
the configured list and with an amount greater than 0.  This holds because in
every state reached, the conversation state `waiting_key_limit` is held by
administrators only (it is set by `handleGenKeyButton` after `isAdmin`) and
a value under `Data["limit"]` is positive and held in that state only (it is
written by `handleKeyLimitInput` after the parse and the test `limit > 0`);
and `handleConfirmGenKey` calls `addKey` only with the value under
`Data["limit"]` of the pending state of the user, for that user. -/
theorem only_admins_issue (bot : Bot) (events : List Event) :
    (∀ c ∈ (runEvents bot events World.empty).addKeyCalls,
      c.2 ∈ bot.cfg.AdminIDs ∧ 0 < c.1) ∧
    (∀ e ∈ (runEvents bot events World.empty).userStates,
      (e.2.State = str "waiting_key_limit" → e.1 ∈ bot.cfg.AdminIDs) ∧
      (∀ n, e.2.Data.limit = some n → 0 < n ∧ e.2.State = str "waiting_key_limit")) ∧
    (∀ (env : ChatEnv) (u : Int) (w : World),
      (handleConfirmGenKey bot env u w).addKeyCalls = w.addKeyCalls ∨
      ∃ s n, getUserState w.userStates u = some s ∧ s.Data.limit = some n ∧
        (handleConfirmGenKey bot env u w).addKeyCalls = w.addKeyCalls ++ [(n, u)]) := by
  have h := runEvents_mint bot events World.empty (MintInv_empty bot.cfg)
  refine ⟨?_, ?_, ?_⟩
  · intro c hc
    exact ⟨(isAdmin_iff bot.cfg c.2).mp (h.2 c hc).1, (h.2 c hc).2⟩
  · intro e he
    exact ⟨fun hs => (isAdmin_iff bot.cfg e.1).mp ((h.1 e he).1 hs), (h.1 e he).2⟩
  · intro env u w
    unfold handleConfirmGenKey
    cases hg : getUserState w.userStates u with
    | none => exact Or.inl rfl
    | some s =>
      dsimp only
      cases hl : s.Data.limit with
      | none => exact Or.inl rfl
      | some n => exact Or.inr ⟨s, n, rfl, hl, rfl⟩

set_option maxRecDepth 100000 in
/-- A run in which `addKey` is reached: administrator 1 asks for a code, enters
20 and confirms; user 7, who is no administrator, does the same and reaches
nothing. -/
theorem mintRun_eval :
    (runEvents bot0 mintRun World.empty).addKeyCalls = [(20, 1)] ∧
    (runEvents bot0 mintRun World.empty).store.keys.map
      (fun k => (k.AddLimit, k.CreatedBy, k.Used)) = [(20, str "1", false)] ∧
    (runEvents bot0 outsiderRun World.empty).addKeyCalls = [] ∧
    (runEvents bot0 outsiderRun World.empty).store.keys = [] := by
  decide

/-! ## C28: the frame parse stays within bounds -/

theorem goSlice_eq (data : List Byte) (lo hi : Nat) (h1 : lo ≤ hi) (h2 : hi ≤ data.length) :
    goSlice data lo hi = some ((data.drop lo).take (hi - lo)) := by
  unfold goSlice
  rw [if_pos ⟨h1, h2⟩]

theorem goIndex_eq (data : List Byte) (i : Nat) (h : i < data.length) :
    goIndex data i = some (data.getD i 0) := by
  unfold goIndex
  rw [List.getD_eq_getElem?_getD, List.getElem?_eq_getElem h]
  rfl

theorem frame_parts (data : List Byte) (n : Nat) (h : 9 + n + 12 ≤ data.length) :
    data = data.take 8 ++ [data.getD 8 0] ++ (data.drop 9).take n ++
      (data.drop (9 + n)).take 12 ++ data.drop (9 + n + 12) := by
  have h8 : data.drop 8 = data.getD 8 0 :: data.drop 9 := by
    have hlt : 8 < data.length := by omega
    rw [List.drop_eq_getElem_cons hlt, List.getD_eq_getElem?_getD, List.getElem?_eq_getElem hlt]
    rfl
  have h9 : data.drop 9 = (data.drop 9).take n ++ data.drop (9 + n) := by
    rw [← List.drop_drop, List.take_append_drop]
  have h12 : data.drop (9 + n) = (data.drop (9 + n)).take 12 ++ data.drop (9 + n + 12) := by
    rw [← List.drop_drop (n := 12), List.take_append_drop]
  calc data = data.take 8 ++ data.drop 8 := (List.take_append_drop 8 data).symm
    _ = data.take 8 ++ (data.getD 8 0 :: data.drop 9) := by rw [h8]
    _ = data.take 8 ++ [data.getD 8 0] ++ data.drop 9 := by simp
    _ = data.take 8 ++ [data.getD 8 0] ++ ((data.drop 9).take n ++ data.drop (9 + n)) := by
        rw [← h9]
    _ = data.take 8 ++ [data.getD 8 0] ++ ((data.drop 9).take n ++
          ((data.drop (9 + n)).take 12 ++ data.drop (9 + n + 12))) := by rw [← h12]
    _ = _ := by simp only [List.append_assoc]

/-- C28: for every byte string, the frame parse of `decryptAndValidateToken`
never panics: with the bounds checks of the run time made explicit it returns
what the parse returns.  When both length checks pass (`len >= 21` and
`len >= 9 + L + 12`, `L` the byte at offset 8), the index 8 and the slices
`[0,8)`, `[9,9+L)`, `[9+L,9+L+12)` and `[9+L+12,len)` are within bounds, the
parse returns them as timestamp bytes, identity, nonce and ciphertext, the
identity has `L` bytes, the nonce exactly 12, and the four parts together
with the length byte are the whole frame. -/
theorem frame_parse_total (data : List Byte) :
    sliceFrameChecked data = some (sliceFrame data) ∧
    (21 ≤ data.length → 9 + (data.getD 8 0).val + 12 ≤ data.length →
      goIndex data 8 = some (data.getD 8 0) ∧
      goSlice data 0 8 = some (data.take 8) ∧
      goSlice data 9 (9 + (data.getD 8 0).val) =
        some ((data.drop 9).take (data.getD 8 0).val) ∧
      goSlice data (9 + (data.getD 8 0).val) (9 + (data.getD 8 0).val + 12) =
        some ((data.drop (9 + (data.getD 8 0).val)).take 12) ∧
      goSlice data (9 + (data.getD 8 0).val + 12) data.length =
        some (data.drop (9 + (data.getD 8 0).val + 12)) ∧
      sliceFrame data = .ok
        { timestamp := toInt64 (getUint64 (data.take 8)),
          userID := (data.drop 9).take (data.getD 8 0).val,
          nonce := (data.drop (9 + (data.getD 8 0).val)).take 12,
          ciphertext := data.drop (9 + (data.getD 8 0).val + 12) } ∧
      (data.take 8).length = 8 ∧
      ((data.drop 9).take (data.getD 8 0).val).length = (data.getD 8 0).val ∧
      ((data.drop (9 + (data.getD 8 0).val)).take 12).length = 12 ∧
      (data.drop (9 + (data.getD 8 0).val + 12)).length =
        data.length - (9 + (data.getD 8 0).val + 12) ∧
      data = data.take 8 ++ [data.getD 8 0] ++ (data.drop 9).take (data.getD 8 0).val ++
        (data.drop (9 + (data.getD 8 0).val)).take 12 ++
        data.drop (9 + (data.getD 8 0).val + 12)) := by
  have hs08 : 21 ≤ data.length → goSlice data 0 8 = some (data.take 8) := by
    intro h
    rw [goSlice_eq data 0 8 (by omega) (by omega)]
    rfl
  have hs9 : ∀ n, 9 + n + 12 ≤ data.length →
      goSlice data 9 (9 + n) = some ((data.drop 9).take n) := by
    intro n h
    rw [goSlice_eq data 9 (9 + n) (by omega) (by omega), Nat.add_sub_cancel_left]
  have hsn : ∀ n, 9 + n + 12 ≤ data.length →
      goSlice data (9 + n) (9 + n + 12) = some ((data.drop (9 + n)).take 12) := by
    intro n h
    rw [goSlice_eq data (9 + n) (9 + n + 12) (by omega) (by omega), Nat.add_sub_cancel_left]
  have hsc : ∀ n, 9 + n + 12 ≤ data.length →
      goSlice data (9 + n + 12) data.length = some (data.drop (9 + n + 12)) := by
    intro n h
    rw [goSlice_eq data (9 + n + 12) data.length (by omega) (Nat.le_refl _)]
    rw [List.take_of_length_le]
    rw [List.length_drop]
  constructor
  · unfold sliceFrameChecked sliceFrame
    by_cases h1 : data.length < 21
    · rw [if_pos h1, if_pos h1]
    · rw [if_neg h1, if_neg h1, hs08 (by omega), goIndex_eq data 8 (by omega)]
      dsimp only
      by_cases h2 : data.length < 9 + (data.getD 8 0).val + 12
      · rw [if_pos h2, if_pos h2]
      · rw [if_neg h2, if_neg h2, hs9 _ (by omega), hsn _ (by omega), hsc _ (by omega)]
  · intro h1 h2
    refine ⟨goIndex_eq data 8 (by omega), hs08 h1, hs9 _ h2, hsn _ h2, hsc _ h2, ?_, ?_, ?_, ?_,
      ?_, frame_parts data _ h2⟩
    · unfold sliceFrame
      rw [if_neg (by omega)]
      dsimp only
      rw [if_neg (by omega)]
    · rw [List.length_take]; omega
    · rw [List.length_take, List.length_drop]; omega
    · rw [List.length_take, List.length_drop]; omega
    · rw [List.length_drop]

set_option maxRecDepth 100000 in
/-- Witness of C28: the frame of the token of identity `"42"`. -/
theorem frame_parse_total_witness :
    21 ≤ frame42.length ∧ 9 + (frame42.getD 8 0).val + 12 ≤ frame42.length ∧
    sliceFrameChecked frame42 = some (sliceFrame frame42) ∧
    frame42 = frame42.take 8 ++ [frame42.getD 8 0] ++
      (frame42.drop 9).take (frame42.getD 8 0).val ++
      (frame42.drop (9 + (frame42.getD 8 0).val)).take 12 ++
      frame42.drop (9 + (frame42.getD 8 0).val + 12) :=
  ⟨by decide, by decide, (frame_parse_total frame42).1,
    ((frame_parse_total frame42).2 (by decide) (by decide)).2.2.2.2.2.2.2.2.2.2⟩

/-! ## C29: the origin that verification compares -/

/-- C29 (amended): if verification succeeds, the request origin is a valid
public address equal to the origin inside the decrypted payload of the
token; the origin stored in the matched entitlement record is not compared. -/
theorem accepted_origin_is_payload_origin (lib : Lib) (db : VerifyDb)
    (token clientIP : GoString) (now : Time) (st : Store)
    (h : (verifyHandler lib db (.ok token) clientIP now st).1.status = 200) :
    isValidPublicIP lib clientIP = true ∧
    ∃ f p, decodeToken lib token = .ok (f, p) ∧ clientIP = p.IP := by
  obtain ⟨hpub, f, p, _, hdec, hip, _⟩ := verifyHandler_ok_inv lib db token clientIP now st h
  exact ⟨hpub, f, p, hdec, hip.symm⟩

set_option maxRecDepth 100000 in
/-- Witness of C29: the token of identity `"42"` presented from its origin. -/
theorem accepted_origin_is_payload_origin_witness :
    isValidPublicIP demoLib origin0 = true ∧
    ∃ f p, decodeToken demoLib token42 = .ok (f, p) ∧ origin0 = p.IP :=
  accepted_origin_is_payload_origin demoLib VerifyDb.up token42 origin0 7 (storeOf id42 3)
    (by decide)

set_option maxRecDepth 100000 in
/-- C29 as stated fails: the record of identity `"42"` is bound to
`203.0.113.9`; a token built for `("42", 198.51.100.7, 1700000000000)`, which
needs no secret, is accepted from `198.51.100.7` and consumes a credit. -/
theorem accepted_from_unbound_origin :
    (storeOf id42 3).users.map (fun r => (r.UserID, r.IP, r.Timestamp)) =
      [(id42, origin0, ts0)] ∧
    origin1 ≠ origin0 ∧
    issue demoLib id42 origin1 ts0 rnd0 =
      .ok (forgeToken demoLib id42 ts0 (rnd0.take 12)
        { UserID := id42, IP := origin1, Timestamp := ts0 }) ∧
    verifyHandler demoLib VerifyDb.up
        (.ok (forgeToken demoLib id42 ts0 (rnd0.take 12)
          { UserID := id42, IP := origin1, Timestamp := ts0 })) origin1 7 (storeOf id42 3) =
      (⟨200, { Success := true, Message := "验证成功", UserID := id42, Limit := 2 }⟩,
        { users := [{ userRow id42 3 with Limit := 2, UpdatedAt := 7 }], keys := [],
          orders := [] }) := by
  decide

/-! ## C30: the signed string and the fields -/

/-- C30 (amended): for a fixed secret, two notifications whose `orderId`,
`param`, `type` and `price` have pairwise the same lengths have the same
signed string exactly when their five signed fields are equal. -/
theorem signString_fields (cfg : Config) (p q : Params)
    (h1 : (p.get (str "orderId")).length = (q.get (str "orderId")).length)
    (h2 : (p.get (str "param")).length = (q.get (str "param")).length)
    (h3 : (p.get (str "type")).length = (q.get (str "type")).length)
    (h4 : (p.get (str "price")).length = (q.get (str "price")).length) :
    signString cfg p = signString cfg q ↔ signedFields p = signedFields q := by
  unfold signString signedFields
  constructor
  · intro h
    simp only [List.append_assoc] at h
    obtain ⟨e1, h⟩ := List.append_inj h h1
    obtain ⟨e2, h⟩ := List.append_inj h h2
    obtain ⟨e3, h⟩ := List.append_inj h h3
    obtain ⟨e4, h⟩ := List.append_inj h h4
    have e5 := List.append_cancel_right h
    rw [e1, e2, e3, e4, e5]
  · intro h
    injection h with e1 h
    injection h with e2 h
    injection h with e3 h
    injection h with e4 h
    injection h with e5 h
    rw [e1, e2, e3, e4, e5]

set_option maxRecDepth 100000 in
/-- Witness of C30: two notifications for the gateway orders `E1` and `E2`. -/
theorem signString_fields_witness :
    signString cfg0 (signedNote (str "E1") (str "7")) =
        signString cfg0 (signedNote (str "E2") (str "7")) ↔
      signedFields (signedNote (str "E1") (str "7")) =
        signedFields (signedNote (str "E2") (str "7")) :=
  signString_fields cfg0 (signedNote (str "E1") (str "7")) (signedNote (str "E2") (str "7"))
    (by decide) (by decide) (by decide) (by decide)

set_option maxRecDepth 100000 in
/-- C30 as stated fails: the notification for gateway order `E1` with
`param = 7` and the one for gateway order `E` with `param = 17` differ in two
signed fields and have the same signed string; the second, carrying the
`sign` of the first, is accepted and pays the pending purchase of identity
`"17"`. -/
theorem shifted_fields_same_sign :
    signedFields (signedNote (str "E1") (str "7")) ≠ signedFields shiftedNote ∧
    signString cfg0 (signedNote (str "E1") (str "7")) = signString cfg0 shiftedNote ∧
    (signedNote (str "E1") (str "7")).get (str "sign") = shiftedNote.get (str "sign") ∧
    (notifyHandler demoLib cfg0 NotifyDb.up shiftedNote 100 rnd0 purchase17).1 =
      ⟨200, "success"⟩ ∧
    (notifyHandler demoLib cfg0 NotifyDb.up shiftedNote 100 rnd0 purchase17).2.users.map
      (fun r => (r.UserID, r.Limit)) = [(str "17", 15)] := by
  decide

end BotTokenAuth
